import Mathlib

/-!
# TIFF image reader and writer of ITK (`Code/IO/itkTIFFImageIO.cxx`)

A shallow embedding of `TIFFReaderInternal` and `TIFFImageIO`: the metadata
probe, the palette cache, the format classifier, the pixel decoder, the
scanline reader with its RGBA fallback, and the scanline writer.

Conventions of the embedding.

* Bytes, 16-bit samples and 32-bit words are natural numbers; a store into an
  `unsigned char` cell keeps the value modulo 256, casts to `int` go through
  `toInt32`.
* A buffer is a list of cells; a pointer into it is an offset.  An access
  outside the list is undefined behaviour in the source and is the fault
  `Fault.outOfBounds` here.
* Every call into the codec (libtiff) and every read of a colormap table is
  appended to the `trace` of the session, so that "no scanline is fetched" or
  "the colormap is requested once" are statements about the trace.
-/

namespace itk

/-! ## Constants of the codec header `tiff.h` -/

/-- Modelled from the spec: constant `COMPRESSION_NONE` of the codec header
`tiff.h`, which is not under `src/`; value of the TIFF 6.0 registry. -/
def COMPRESSION_NONE : Nat := 1
/-- Modelled from the spec: constant `COMPRESSION_LZW` of `tiff.h`. -/
def COMPRESSION_LZW : Nat := 5
/-- Modelled from the spec: constant `COMPRESSION_OJPEG` of `tiff.h`. -/
def COMPRESSION_OJPEG : Nat := 6
/-- Modelled from the spec: constant `COMPRESSION_JPEG` of `tiff.h`. -/
def COMPRESSION_JPEG : Nat := 7
/-- Modelled from the spec: constant `COMPRESSION_PACKBITS` of `tiff.h`. -/
def COMPRESSION_PACKBITS : Nat := 32773
/-- Modelled from the spec: constant `COMPRESSION_DEFLATE` of `tiff.h`. -/
def COMPRESSION_DEFLATE : Nat := 32946

/-- Modelled from the spec: constant `PHOTOMETRIC_MINISWHITE` of `tiff.h`. -/
def PHOTOMETRIC_MINISWHITE : Nat := 0
/-- Modelled from the spec: constant `PHOTOMETRIC_MINISBLACK` of `tiff.h`. -/
def PHOTOMETRIC_MINISBLACK : Nat := 1
/-- Modelled from the spec: constant `PHOTOMETRIC_RGB` of `tiff.h`. -/
def PHOTOMETRIC_RGB : Nat := 2
/-- Modelled from the spec: constant `PHOTOMETRIC_PALETTE` of `tiff.h`. -/
def PHOTOMETRIC_PALETTE : Nat := 3
/-- Modelled from the spec: constant `PHOTOMETRIC_YCBCR` of `tiff.h`. -/
def PHOTOMETRIC_YCBCR : Nat := 6

/-- Modelled from the spec: constant `PLANARCONFIG_CONTIG` of `tiff.h`. -/
def PLANARCONFIG_CONTIG : Nat := 1
/-- Modelled from the spec: constant `ORIENTATION_TOPLEFT` of `tiff.h`. -/
def ORIENTATION_TOPLEFT : Nat := 1
/-- Modelled from the spec: constant `EXTRASAMPLE_UNSPECIFIED` of `tiff.h`. -/
def EXTRASAMPLE_UNSPECIFIED : Nat := 0
/-- Modelled from the spec: constant `EXTRASAMPLE_ASSOCALPHA` of `tiff.h`. -/
def EXTRASAMPLE_ASSOCALPHA : Nat := 1
/-- Modelled from the spec: constant `JPEGCOLORMODE_RGB` of `tiff.h`. -/
def JPEGCOLORMODE_RGB : Nat := 1

/-- Modelled from the spec: tag number `TIFFTAG_IMAGEWIDTH` of `tiff.h`. -/
def TIFFTAG_IMAGEWIDTH : Nat := 256
/-- Modelled from the spec: tag number `TIFFTAG_IMAGELENGTH` of `tiff.h`. -/
def TIFFTAG_IMAGELENGTH : Nat := 257
/-- Modelled from the spec: tag number `TIFFTAG_BITSPERSAMPLE` of `tiff.h`. -/
def TIFFTAG_BITSPERSAMPLE : Nat := 258
/-- Modelled from the spec: tag number `TIFFTAG_COMPRESSION` of `tiff.h`. -/
def TIFFTAG_COMPRESSION : Nat := 259
/-- Modelled from the spec: tag number `TIFFTAG_PHOTOMETRIC` of `tiff.h`. -/
def TIFFTAG_PHOTOMETRIC : Nat := 262
/-- Modelled from the spec: tag number `TIFFTAG_ORIENTATION` of `tiff.h`. -/
def TIFFTAG_ORIENTATION : Nat := 274
/-- Modelled from the spec: tag number `TIFFTAG_SAMPLESPERPIXEL` of `tiff.h`. -/
def TIFFTAG_SAMPLESPERPIXEL : Nat := 277
/-- Modelled from the spec: tag number `TIFFTAG_ROWSPERSTRIP` of `tiff.h`. -/
def TIFFTAG_ROWSPERSTRIP : Nat := 278
/-- Modelled from the spec: tag number `TIFFTAG_PLANARCONFIG` of `tiff.h`. -/
def TIFFTAG_PLANARCONFIG : Nat := 284
/-- Modelled from the spec: tag number `TIFFTAG_PREDICTOR` of `tiff.h`. -/
def TIFFTAG_PREDICTOR : Nat := 317
/-- Modelled from the spec: tag number `TIFFTAG_COLORMAP` of `tiff.h`. -/
def TIFFTAG_COLORMAP : Nat := 320
/-- Modelled from the spec: tag number `TIFFTAG_EXTRASAMPLES` of `tiff.h`. -/
def TIFFTAG_EXTRASAMPLES : Nat := 338
/-- Modelled from the spec: tag number `TIFFTAG_TILEDEPTH` of `tiff.h`. -/
def TIFFTAG_TILEDEPTH : Nat := 32998
/-- Modelled from the spec: pseudo-tag `TIFFTAG_JPEGQUALITY` of `tiff.h`. -/
def TIFFTAG_JPEGQUALITY : Nat := 65537
/-- Modelled from the spec: pseudo-tag `TIFFTAG_JPEGCOLORMODE` of `tiff.h`. -/
def TIFFTAG_JPEGCOLORMODE : Nat := 65538

/-! ## Machine integers -/

/-- The value of a 32-bit pattern read as `int` (the casts `(int)height`,
`int width = ...->Width`). -/
def toInt32 (n : Nat) : Int :=
  if n % 2 ^ 32 < 2 ^ 31 then ((n % 2 ^ 32 : Nat) : Int) else ((n % 2 ^ 32 : Nat) : Int) - 2 ^ 32

/-- The value an `int` expression leaves in an `unsigned char` cell. -/
def toUChar (i : Int) : Nat := (i % 256).toNat

/-! ## Faults and buffers -/

/-- What the source leaves undefined, or signals by throwing. -/
inductive Fault where
  /-- an access outside the buffer a pointer points into, or through a pointer
  whose buffer has been freed -/
  | outOfBounds
  /-- a codec call on the null stream handle -/
  | nullHandle
  /-- a loop that does not come to an end -/
  | diverges
  /-- the exception of `itkExceptionMacro` -/
  | exception
  deriving DecidableEq, Repr

/-- Reads the cell `*(base + p)`. -/
def load (mem : List Nat) (p : Nat) : Except Fault Nat :=
  match mem[p]? with
  | some v => .ok v
  | none => .error Fault.outOfBounds

/-- Writes the `unsigned char` cell `*(base + p) = v`. -/
def store (mem : List Nat) (p : Nat) (v : Nat) : Except Fault (List Nat) :=
  if p < mem.length then .ok (mem.set p (v % 256)) else .error Fault.outOfBounds

/-! ## The codec (libtiff) as seen from this layer -/

/-- A stream as the codec presents it: scalar tags, the colormap, the scanline
size it reports, the scanlines it delivers and its full-image RGBA decode. -/
structure TIFF where
  /-- `TIFFGetField(tif, tag, &v)`: `none` when the call returns 0 -/
  field : Nat → Option Nat
  /-- `TIFFGetField(tif, TIFFTAG_COLORMAP, &r, &g, &b)` -/
  colormap : Option (List Nat × List Nat × List Nat)
  /-- `TIFFScanlineSize(tif)` -/
  scanlineSize : Nat
  /-- `TIFFReadScanline(tif, buf, row, 0)`: `none` when the result is `<= 0` -/
  readScanline : Nat → Option (List Nat)
  /-- `TIFFReadRGBAImage(tif, width, height, raster, 0)`: `none` when it returns 0 -/
  readRGBAImage : Int → Int → Option (List Nat)

/-- What a file name leads to: `stat` fails, `TIFFOpen` fails, or a stream. -/
inductive FileEntry where
  | absent
  | notTIFF
  | tiff (t : TIFF)

/-- One call into the codec or the file layer, or one read of the cached
colormap tables. -/
inductive Event where
  | stat (filename : String)
  | TIFFOpen (filename : String)
  | TIFFClose
  | TIFFGetField (tag : Nat)
  | TIFFScanlineSize
  | TIFFReadScanline (row : Nat)
  | TIFFReadRGBAImage (width height : Int)
  | colorRead (index : Nat)
  | ofstreamOpen (filename : String)
  | TIFFClientOpen (filename : String)
  | TIFFSetField (tag : Nat) (args : List Nat)
  | TIFFDefaultStripSize
  | TIFFWriteScanline (row : Nat) (data : List Nat)
  | ofstreamClose
  deriving DecidableEq, Repr

/-! ## `TIFFReaderInternal` -/

/-- The class `TIFFReaderInternal`: the stream handle and the cached tags. -/
structure TIFFReaderInternal where
  Image : Option TIFF
  Width : Nat
  Height : Nat
  SamplesPerPixel : Nat
  Compression : Nat
  BitsPerSample : Nat
  Photometrics : Nat
  PlanarConfig : Nat
  TileDepth : Nat

namespace TIFFReaderInternal

/-- `TIFFReaderInternal::Clean`: closes the handle if there is one and zeroes
every field.  Returns the codec calls made. -/
def Clean (r : TIFFReaderInternal) : TIFFReaderInternal × List Event :=
  ({ Image := none, Width := 0, Height := 0, SamplesPerPixel := 0, Compression := 0,
     BitsPerSample := 0, Photometrics := 0, PlanarConfig := 0, TileDepth := 0 },
   match r.Image with
   | some _ => [Event.TIFFClose]
   | none => [])

/-- `TIFFGetField(tif, tag, &x)` for a scalar of `bits` bits: the cell keeps
its old value when the tag is absent. -/
def getField (t : TIFF) (tag : Nat) (bits : Nat) (old : Nat) : Nat :=
  match t.field tag with
  | some v => v % 2 ^ bits
  | none => old

/-- `TIFFReaderInternal::Initialize`: the result (0 or 1), the object and the
codec calls made. -/
def Initialize (r : TIFFReaderInternal) : Nat × TIFFReaderInternal × List Event :=
  match r.Image with
  | none => (1, r, [])
  | some t =>
    match t.field TIFFTAG_IMAGEWIDTH with
    | none => (0, r, [Event.TIFFGetField TIFFTAG_IMAGEWIDTH])
    | some w =>
      match t.field TIFFTAG_IMAGELENGTH with
      | none =>
        (0, { r with Width := w % 2 ^ 32 },
          [Event.TIFFGetField TIFFTAG_IMAGEWIDTH, Event.TIFFGetField TIFFTAG_IMAGELENGTH])
      | some h =>
        (1, { r with
                Width := w % 2 ^ 32
                Height := h % 2 ^ 32
                SamplesPerPixel := getField t TIFFTAG_SAMPLESPERPIXEL 16 r.SamplesPerPixel
                Compression := getField t TIFFTAG_COMPRESSION 16 r.Compression
                BitsPerSample := getField t TIFFTAG_BITSPERSAMPLE 16 r.BitsPerSample
                Photometrics := getField t TIFFTAG_PHOTOMETRIC 16 r.Photometrics
                PlanarConfig := getField t TIFFTAG_PLANARCONFIG 16 r.PlanarConfig
                TileDepth := getField t TIFFTAG_TILEDEPTH 32 0 },
          [Event.TIFFGetField TIFFTAG_IMAGEWIDTH, Event.TIFFGetField TIFFTAG_IMAGELENGTH,
           Event.TIFFGetField TIFFTAG_SAMPLESPERPIXEL, Event.TIFFGetField TIFFTAG_COMPRESSION,
           Event.TIFFGetField TIFFTAG_BITSPERSAMPLE, Event.TIFFGetField TIFFTAG_PHOTOMETRIC,
           Event.TIFFGetField TIFFTAG_PLANARCONFIG, Event.TIFFGetField TIFFTAG_TILEDEPTH])

/-- `TIFFReaderInternal::Open`: the result (0 or 1), the object and the calls
made, over the file system `fs`. -/
def Open (fs : String → FileEntry) (r : TIFFReaderInternal) (filename : String) :
    Nat × TIFFReaderInternal × List Event :=
  let c := Clean r
  match fs filename with
  | FileEntry.absent => (0, c.1, c.2 ++ [Event.stat filename])
  | FileEntry.notTIFF =>
    (0, (Clean c.1).1, c.2 ++ [Event.stat filename, Event.TIFFOpen filename] ++ (Clean c.1).2)
  | FileEntry.tiff t =>
    let opened := { c.1 with Image := some t }
    let i := Initialize opened
    if i.1 = 0 then
      (0, (Clean i.2.1).1,
        c.2 ++ [Event.stat filename, Event.TIFFOpen filename] ++ i.2.2 ++ (Clean i.2.1).2)
    else
      (1, i.2.1, c.2 ++ [Event.stat filename, Event.TIFFOpen filename] ++ i.2.2)

/-- `TIFFReaderInternal::CanRead`. -/
def CanRead (r : TIFFReaderInternal) : Bool :=
  r.Image.isSome && decide (r.Width > 0) && decide (r.Height > 0) &&
  decide (r.SamplesPerPixel > 0) &&
  decide (r.Compression = COMPRESSION_NONE) &&
  (decide (r.Photometrics = PHOTOMETRIC_RGB) ||
   decide (r.Photometrics = PHOTOMETRIC_MINISWHITE) ||
   decide (r.Photometrics = PHOTOMETRIC_MINISBLACK) ||
   decide (r.Photometrics = PHOTOMETRIC_PALETTE)) &&
  decide (r.PlanarConfig = PLANARCONFIG_CONTIG) &&
  decide (r.TileDepth = 0) &&
  decide (r.BitsPerSample = 8)

end TIFFReaderInternal

/-! ## `TIFFImageIO` -/

/-- The anonymous enumeration of image formats in `itkTIFFImageIO.h`. -/
inductive Format where
  | NOFORMAT
  | RGB_
  | GRAYSCALE
  | PALETTE_RGB
  | PALETTE_GRAYSCALE
  | OTHER
  deriving DecidableEq, Repr

/-- The compression policies `m_Compression` ranges over. -/
inductive CompressionPolicy where
  | NoCompression
  | PackBits
  | JPEG
  | Deflate
  | LZW
  deriving DecidableEq, Repr

/-- The data types of `ImageIOBase` named in this file. -/
inductive IODataType where
  | UNKNOWN | UCHAR | CHAR | USHORT | SHORT | UINT | INT | ULONG | LONG
  | FLOAT | DOUBLE | RGB | RGBA
  deriving DecidableEq, Repr

/-- The state of one `TIFFImageIO` object that this file reads or writes,
together with the trace of the calls it has made. -/
structure TIFFImageIO where
  m_InternalImage : TIFFReaderInternal
  /-- `unsigned short *ColorRed`: `none` is the null pointer, `some cells` a
  pointer together with the cells that can be read through it -/
  ColorRed : Option (List Nat)
  ColorGreen : Option (List Nat)
  ColorBlue : Option (List Nat)
  TotalColors : Int
  ImageFormat : Format
  m_Compression : CompressionPolicy
  m_ComponentType : IODataType
  m_NumberOfComponents : Nat
  m_Dimensions0 : Nat
  m_Dimensions1 : Nat
  trace : List Event

namespace TIFFImageIO

/-- Appends codec calls to the trace. -/
def log (io : TIFFImageIO) (es : List Event) : TIFFImageIO :=
  { io with trace := io.trace ++ es }

/-- `TIFFImageIO::InitializeColors`. -/
def InitializeColors (io : TIFFImageIO) : TIFFImageIO :=
  { io with ColorRed := none, ColorGreen := none, ColorBlue := none,
            TotalColors := -1, ImageFormat := Format.NOFORMAT }

/-- The three reads `*(red + index)`, `*(green + index)`, `*(blue + index)`. -/
def readColor (red green blue : List Nat) (index : Nat) : Except Fault (Nat × Nat × Nat) :=
  match red[index]?, green[index]?, blue[index]? with
  | some r, some g, some b => .ok (r, g, b)
  | _, _, _ => .error Fault.outOfBounds

/-- The tables of the palette cache when the test
`TotalColors > 0 && ColorRed && ColorGreen && ColorBlue` passes. -/
def cachedColors (io : TIFFImageIO) : Option (List Nat × List Nat × List Nat) :=
  if io.TotalColors > 0 then
    match io.ColorRed, io.ColorGreen, io.ColorBlue with
    | some r, some g, some b => some (r, g, b)
    | _, _, _ => none
  else none

/-- `TIFFImageIO::GetColor`: the object afterwards and the values left in
`*red`, `*green`, `*blue`. -/
def GetColor (io : TIFFImageIO) (index : Int) : Except Fault ( TIFFImageIO × Nat × Nat × Nat) :=
  if index < 0 then .ok (io, 0, 0, 0)
  else
    match cachedColors io with
    | some (r, g, b) =>
      if index ≥ io.TotalColors then .ok (io, 0, 0, 0)
      else
        match readColor r g b index.toNat with
        | .ok c => .ok (log io [Event.colorRead index.toNat], c)
        | .error f => .error f
    | none =>
      match io.m_InternalImage.Image with
      | none => .error Fault.nullHandle
      | some t =>
        let io1 := log io [Event.TIFFGetField TIFFTAG_PHOTOMETRIC]
        if t.field TIFFTAG_PHOTOMETRIC = none ∧
            io.m_InternalImage.Photometrics ≠ PHOTOMETRIC_PALETTE then
          .ok (io1, 0, 0, 0)
        else if io.m_InternalImage.BitsPerSample ∉ [1, 2, 4, 8, 16] then
          .ok (io1, 0, 0, 0)
        else
          let io2 := log io1 [Event.TIFFGetField TIFFTAG_COLORMAP]
          match t.colormap with
          | none => .ok (io2, 0, 0, 0)
          | some (r, g, b) =>
            let io3 := { io2 with TotalColors := 2 ^ io.m_InternalImage.BitsPerSample }
            if index ≥ io3.TotalColors then .ok (io3, 0, 0, 0)
            else
              let io4 := { io3 with ColorRed := some r, ColorGreen := some g, ColorBlue := some b }
              match readColor r g b index.toNat with
              | .ok c => .ok (log io4 [Event.colorRead index.toNat], c)
              | .error f => .error f

/-- The loop `for (cc = 0; cc < 256; cc++)` of `GetFormat`, with `n` rounds
left to go from `cc`. -/
def paletteLoop (n : Nat) (cc : Nat) (io : TIFFImageIO) : Except Fault ( TIFFImageIO × Format) :=
  match n with
  | 0 => .ok ({ io with ImageFormat := Format.PALETTE_GRAYSCALE }, Format.PALETTE_GRAYSCALE)
  | n + 1 =>
    match GetColor io cc with
    | .error f => .error f
    | .ok (io1, red, green, blue) =>
      if red ≠ green ∨ red ≠ blue then
        .ok ({ io1 with ImageFormat := Format.PALETTE_RGB }, Format.PALETTE_RGB)
      else paletteLoop n (cc + 1) io1

/-- `TIFFImageIO::GetFormat`. -/
def GetFormat (io : TIFFImageIO) : Except Fault ( TIFFImageIO × Format) :=
  if io.ImageFormat ≠ Format.NOFORMAT then .ok (io, io.ImageFormat)
  else if io.m_InternalImage.Photometrics = PHOTOMETRIC_RGB ∨
      io.m_InternalImage.Photometrics = PHOTOMETRIC_YCBCR then
    .ok ({ io with ImageFormat := Format.RGB_ }, Format.RGB_)
  else if io.m_InternalImage.Photometrics = PHOTOMETRIC_MINISWHITE ∨
      io.m_InternalImage.Photometrics = PHOTOMETRIC_MINISBLACK then
    .ok ({ io with ImageFormat := Format.GRAYSCALE }, Format.GRAYSCALE)
  else if io.m_InternalImage.Photometrics = PHOTOMETRIC_PALETTE then
    paletteLoop 256 0 io
  else .ok ({ io with ImageFormat := Format.OTHER }, Format.OTHER)

/-- `TIFFImageIO::EvaluateImageAt(out, in)` with `out = image buffer + image`
and `in = source buffer + source`: the object, the image buffer and the
increment returned. -/
def EvaluateImageAt (io : TIFFImageIO) (out : List Nat) (image : Nat) (src : List Nat)
    (source : Nat) : Except Fault ( TIFFImageIO × List Nat × Nat) :=
  match GetFormat io with
  | .error f => .error f
  | .ok (io1, Format.GRAYSCALE) =>
    match load src source with
    | .error f => .error f
    | .ok v =>
      if io1.m_InternalImage.Photometrics = PHOTOMETRIC_MINISBLACK then
        match store out image v with
        | .error f => .error f
        | .ok out1 => .ok (io1, out1, 1)
      else
        match store out image (toUChar (-(v : Int) - 1)) with
        | .error f => .error f
        | .ok out1 => .ok (io1, out1, 1)
  | .ok (io1, Format.PALETTE_GRAYSCALE) =>
    match load src source with
    | .error f => .error f
    | .ok v =>
      match GetColor io1 v with
      | .error f => .error f
      | .ok (io2, red, _, _) =>
        match store out image red with
        | .error f => .error f
        | .ok out1 => .ok (io2, out1, 1)
  | .ok (io1, Format.RGB_) =>
    match load src source, load src (source + 1), load src (source + 2) with
    | .ok red, .ok green, .ok blue =>
      match store out image red with
      | .error f => .error f
      | .ok out1 =>
        match store out1 (image + 1) green with
        | .error f => .error f
        | .ok out2 =>
          match store out2 (image + 2) blue with
          | .error f => .error f
          | .ok out3 =>
            if io1.m_InternalImage.SamplesPerPixel = 4 then
              match load src (source + 3) with
              | .error f => .error f
              | .ok alpha =>
                match store out3 (image + 3) (toUChar (255 - (alpha : Int))) with
                | .error f => .error f
                | .ok out4 => .ok (io1, out4, io1.m_InternalImage.SamplesPerPixel)
            else .ok (io1, out3, io1.m_InternalImage.SamplesPerPixel)
    | _, _, _ => .error Fault.outOfBounds
  | .ok (io1, Format.PALETTE_RGB) =>
    match load src source with
    | .error f => .error f
    | .ok v =>
      match GetColor io1 v with
      | .error f => .error f
      | .ok (io2, red, green, blue) =>
        match store out image (red / 2 ^ 8) with
        | .error f => .error f
        | .ok out1 =>
          match store out1 (image + 1) (green / 2 ^ 8) with
          | .error f => .error f
          | .ok out2 =>
            match store out2 (image + 2) (blue / 2 ^ 8) with
            | .error f => .error f
            | .ok out3 => .ok (io2, out3, 3)
  | .ok (io1, _) => .ok (io1, out, 0)

/-- The loop `for (cc = 0; cc < isize; cc += SamplesPerPixel)` of
`ReadGenericImage` over one fetched scanline `buf`; `cc` is an `unsigned int`.
The control of the loop depends on `cc` alone, so a run of more than `2 ^ 32`
rounds never ends: with `fuel` above that, running out of fuel is divergence. -/
def pixelLoop (fuel : Nat) (isize : Nat) (buf : List Nat) (cc : Nat) (io : TIFFImageIO)
    (out : List Nat) (image : Nat) : Except Fault ( TIFFImageIO × List Nat × Nat) :=
  match fuel with
  | 0 => .error Fault.diverges
  | fuel + 1 =>
    if cc < isize then
      match EvaluateImageAt io out image buf cc with
      | .error f => .error f
      | .ok (io1, out1, inc) =>
        pixelLoop fuel isize buf ((cc + io1.m_InternalImage.SamplesPerPixel) % 2 ^ 32) io1 out1
          (image + inc)
    else .ok (io, out, image)

/-- The loop `for (row = 0; row < (int)height; row++)` of `ReadGenericImage`
with `n` rows left to go from `row`; a failed fetch breaks out of it. -/
def rowLoop (n : Nat) (row : Nat) (t : TIFF) (isize : Nat) (io : TIFFImageIO)
    (out : List Nat) (image : Nat) : Except Fault ( TIFFImageIO × List Nat) :=
  match n with
  | 0 => .ok (io, out)
  | n + 1 =>
    match t.readScanline row with
    | none => .ok (log io [Event.TIFFReadScanline row], out)
    | some buf =>
      match pixelLoop (2 ^ 32 + 1) isize buf 0 (log io [Event.TIFFReadScanline row]) out image with
      | .error f => .error f
      | .ok (io1, out1, image1) => rowLoop n (row + 1) t isize io1 out1 image1

/-- `TIFFImageIO::ReadGenericImage(out, width, height)`; the scanline the
codec delivers takes the place of the buffer `buf` of `isize` bytes. -/
def ReadGenericImage (io : TIFFImageIO) (out : List Nat) (_width : Nat) (height : Nat) :
    Except Fault ( TIFFImageIO × List Nat) :=
  match io.m_InternalImage.Image with
  | none => .error Fault.nullHandle
  | some t =>
    if io.m_InternalImage.PlanarConfig = PLANARCONFIG_CONTIG then
      rowLoop (toInt32 height).toNat 0 t (t.scanlineSize % 2 ^ 32) (log io [Event.TIFFScanlineSize])
        out 0
    else .ok (log io [Event.TIFFScanlineSize], out)

/-- Modelled from the spec: accessor macro `TIFFGetR` of the codec header
`tiffio.h`, which is not under `src/`: the low byte of the packed word. -/
def TIFFGetR (abgr : Nat) : Nat := abgr % 256
/-- Modelled from the spec: accessor macro `TIFFGetG` of `tiffio.h`. -/
def TIFFGetG (abgr : Nat) : Nat := (abgr / 2 ^ 8) % 256
/-- Modelled from the spec: accessor macro `TIFFGetB` of `tiffio.h`. -/
def TIFFGetB (abgr : Nat) : Nat := (abgr / 2 ^ 16) % 256
/-- Modelled from the spec: accessor macro `TIFFGetA` of `tiffio.h`. -/
def TIFFGetA (abgr : Nat) : Nat := (abgr / 2 ^ 24) % 256

/-- The inner loop `for (xx = 0; xx < width; xx++)` of the fallback path of
`Read`, with `n` pixels left: it reads `*ssimage`, writes four bytes at
`fimage` and advances `simage` and `ssimage`. -/
def unpackRow (n : Nat) (tempImage : List Nat) (ssimage : Nat) (buffer : List Nat)
    (fimage : Nat) : Except Fault (List Nat × Nat) :=
  match n with
  | 0 => .ok (buffer, ssimage)
  | n + 1 =>
    match load tempImage ssimage with
    | .error f => .error f
    | .ok w =>
      match store buffer fimage (TIFFGetR w) with
      | .error f => .error f
      | .ok b1 =>
        match store b1 (fimage + 1) (TIFFGetG w) with
        | .error f => .error f
        | .ok b2 =>
          match store b2 (fimage + 2) (TIFFGetB w) with
          | .error f => .error f
          | .ok b3 =>
            match store b3 (fimage + 3) (TIFFGetA w) with
            | .error f => .error f
            | .ok b4 => unpackRow n tempImage (ssimage + 1) b4 fimage

/-- The outer loop `for (yy = 0; yy < height; yy++)` of the fallback path. -/
def unpackRows (n : Nat) (width : Nat) (tempImage : List Nat) (ssimage : Nat)
    (buffer : List Nat) (fimage : Nat) : Except Fault (List Nat) :=
  match n with
  | 0 => .ok buffer
  | n + 1 =>
    match unpackRow width tempImage ssimage buffer fimage with
    | .error f => .error f
    | .ok (b1, ss1) => unpackRows n width tempImage ss1 b1 fimage

/-- The conversion of an `int` argument to an `unsigned int` parameter. -/
def toUInt32 (i : Int) : Nat := (i % 2 ^ 32).toNat

/-- `TIFFImageIO::Read(buffer)`. -/
def Read (io : TIFFImageIO) (buffer : List Nat) : Except Fault ( TIFFImageIO × List Nat) :=
  if io.m_InternalImage.Compression = COMPRESSION_OJPEG then .ok (io, buffer)
  else
    let width := toInt32 io.m_InternalImage.Width
    let height := toInt32 io.m_InternalImage.Height
    if io.m_InternalImage.CanRead = false then
      match io.m_InternalImage.Image with
      | none => .error Fault.nullHandle
      | some t =>
        match t.readRGBAImage width height with
        | none => .ok (log io [Event.TIFFReadRGBAImage width height], buffer)
        | some tempImage =>
          match unpackRows height.toNat width.toNat tempImage 0 buffer 0 with
          | .error f => .error f
          | .ok b => .ok (log io [Event.TIFFReadRGBAImage width height], b)
    else
      match GetFormat io with
      | .error f => .error f
      | .ok (io1, format) =>
        let height1 :=
          if io1.m_InternalImage.Compression = COMPRESSION_PACKBITS then
            Int.tdiv height io1.m_InternalImage.BitsPerSample
          else height
        match format with
        | Format.GRAYSCALE | Format.RGB_ | Format.PALETTE_RGB | Format.PALETTE_GRAYSCALE =>
          ReadGenericImage io1 buffer (toUInt32 width) (toUInt32 height1)
        | _ => .ok (io1, buffer)

/-- `TIFFImageIO::ReadImageInformation`, as far as the number of components
goes: the object and the value given to `SetNumberOfComponents`. -/
def ReadImageInformation (io : TIFFImageIO) : Except Fault TIFFImageIO :=
  match GetFormat io with
  | .error f => .error f
  | .ok (io1, format) =>
    let n :=
      match format with
      | Format.GRAYSCALE | Format.PALETTE_GRAYSCALE => 1
      | Format.RGB_ => io1.m_InternalImage.SamplesPerPixel
      | Format.PALETTE_RGB => 3
      | _ => 4
    .ok { io1 with
            m_Dimensions0 := toUInt32 (toInt32 io1.m_InternalImage.Width)
            m_Dimensions1 := toUInt32 (toInt32 io1.m_InternalImage.Height)
            m_NumberOfComponents := if io1.m_InternalImage.CanRead = false then 4 else n }

/-! ### File names -/

/-- The search of `std::string::rfind` downwards from position `i`. -/
def rfindFrom (s pat : List Char) : Nat → Option Nat
  | 0 => if pat.isPrefixOf s then some 0 else none
  | i + 1 => if pat.isPrefixOf (s.drop (i + 1)) then some (i + 1) else rfindFrom s pat i

/-- `filename.rfind(pat)`: the last position at which `pat` occurs, `none`
for `std::string::npos`. -/
def rfind (filename pat : String) : Option Nat :=
  rfindFrom filename.data pat.data filename.data.length

/-- The test `TIFFPos != npos && TIFFPos == filename.length() - k` for the
extension `pat` of `k` characters; the subtraction is one of `size_t`. -/
def extensionAt (filename pat : String) : Bool :=
  match rfind filename pat with
  | some pos => decide (pos = (filename.data.length + 2 ^ 64 - pat.data.length) % 2 ^ 64)
  | none => false

/-- The extension check shared by `CanReadFile` and `CanWriteFile`. -/
def extensionFound (filename : String) : Bool :=
  extensionAt filename ".TIFF" || extensionAt filename ".tiff" ||
  extensionAt filename ".tif" || extensionAt filename ".TIF"

/-- Modelled from the spec: the palette table lives for the lifetime of one
opened stream handle.  The codec (libtiff, not under `src/`) owns the colormap
tables `TIFFGetField` hands out and frees them in `TIFFClose`: a pointer
cached into them stays non-null and is left with no cell that can be read. -/
def freedBy (calls : List Event) : Option (List Nat) → Option (List Nat)
  | none => none
  | some cells => if Event.TIFFClose ∈ calls then some [] else some cells

/-- `TIFFImageIO::CanReadFile` over the file system `fs`.  The function does
not touch `ColorRed`, `ColorGreen`, `ColorBlue`; the calls of `Open` and
`Clean` may free what they point to (see `freedBy`). -/
def CanReadFile (fs : String → FileEntry) (io : TIFFImageIO) (file : String) :
    Bool × TIFFImageIO :=
  if file = "" then (false, io)
  else if extensionFound file = false then (false, io)
  else
    let o := io.m_InternalImage.Open fs file
    if o.1 ≠ 0 then
      (true, { io with m_InternalImage := o.2.1
                       ColorRed := freedBy o.2.2 io.ColorRed
                       ColorGreen := freedBy o.2.2 io.ColorGreen
                       ColorBlue := freedBy o.2.2 io.ColorBlue
                       trace := io.trace ++ o.2.2 })
    else
      (false, { io with m_InternalImage := (o.2.1.Clean).1
                        ColorRed := freedBy (o.2.2 ++ (o.2.1.Clean).2) io.ColorRed
                        ColorGreen := freedBy (o.2.2 ++ (o.2.1.Clean).2) io.ColorGreen
                        ColorBlue := freedBy (o.2.2 ++ (o.2.1.Clean).2) io.ColorBlue
                        trace := io.trace ++ o.2.2 ++ (o.2.1.Clean).2 })

/-- The constructor `TIFFImageIO::TIFFImageIO`: colours initialised, a new
`TIFFReaderInternal`, compression policy `PackBits`; the type `UCHAR` it gives
to `m_PixelType` is kept in the one type field of the embedding. -/
def new : TIFFImageIO :=
  InitializeColors
    { m_InternalImage :=
        (TIFFReaderInternal.Clean
          { Image := none, Width := 0, Height := 0, SamplesPerPixel := 0, Compression := 0,
            BitsPerSample := 0, Photometrics := 0, PlanarConfig := 0, TileDepth := 0 }).1
      ColorRed := none, ColorGreen := none, ColorBlue := none, TotalColors := -1
      ImageFormat := Format.NOFORMAT
      m_Compression := CompressionPolicy.PackBits
      m_ComponentType := IODataType.UCHAR
      m_NumberOfComponents := 1
      m_Dimensions0 := 0
      m_Dimensions1 := 0
      trace := [] }

/-! ### The writer -/

/-- The codec and the file layer under a write. -/
structure WriteEnv where
  /-- `TIFFClientOpen` returns a handle -/
  clientOpen : String → Bool
  /-- `TIFFDefaultStripSize(tif, (uint32) -1)` -/
  defaultStripSize : Nat
  /-- `TIFFWriteScanline(tif, buf, row, 0)` returns a value `>= 0` -/
  writeScanline : Nat → List Nat → Bool

/-- Modelled from the spec: the codec-reported scanline byte length
(`TIFFScanlineSize` of libtiff, which is not under `src/`) of contiguous
samples: the bits of one row, rounded up to bytes. -/
def scanlineBytes (width samplesPerPixel bitsPerSample : Nat) : Nat :=
  (bitsPerSample * samplesPerPixel * width + 7) / 8

/-- The loop `for (idx2 = 0; idx2 < height; idx2++)` of `WriteSlice` with `n`
rows left; the codec takes `lineBytes` bytes at `outPtr`. -/
def writeLoop (env : WriteEnv) (n : Nat) (row : Nat) (buffer : List Nat) (outPtr : Int)
    (rowLength : Int) (lineBytes : Nat) (io : TIFFImageIO) : Except Fault TIFFImageIO :=
  match n with
  | 0 => .ok io
  | n + 1 =>
    if outPtr < 0 ∨ buffer.length < outPtr.toNat + lineBytes then .error Fault.outOfBounds
    else
      if env.writeScanline row ((buffer.drop outPtr.toNat).take lineBytes) then
        writeLoop env n (row + 1) buffer (outPtr + rowLength) rowLength lineBytes
          (log io [Event.TIFFWriteScanline row ((buffer.drop outPtr.toNat).take lineBytes)])
      else .ok (log io [Event.TIFFWriteScanline row ((buffer.drop outPtr.toNat).take lineBytes)])

/-- The codec compression code `WriteSlice` resolves the policy to. -/
def compressionCode (c : CompressionPolicy) : Nat :=
  match c with
  | CompressionPolicy.PackBits => COMPRESSION_PACKBITS
  | CompressionPolicy.JPEG => COMPRESSION_JPEG
  | CompressionPolicy.Deflate => COMPRESSION_DEFLATE
  | CompressionPolicy.LZW => COMPRESSION_LZW
  | _ => COMPRESSION_NONE

/-- The tags `WriteSlice` sets between opening the stream and the first
scanline, for `bps` bits per sample. -/
def writeTags (env : WriteEnv) (io : TIFFImageIO) (bps : Nat) : List Event :=
  let scomponents := toInt32 io.m_NumberOfComponents
  let compression := compressionCode io.m_Compression
  [Event.TIFFSetField TIFFTAG_IMAGEWIDTH [io.m_Dimensions0 % 2 ^ 32],
   Event.TIFFSetField TIFFTAG_IMAGELENGTH [io.m_Dimensions1 % 2 ^ 32],
   Event.TIFFSetField TIFFTAG_ORIENTATION [ORIENTATION_TOPLEFT],
   Event.TIFFSetField TIFFTAG_SAMPLESPERPIXEL [toUInt32 scomponents],
   Event.TIFFSetField TIFFTAG_BITSPERSAMPLE [bps],
   Event.TIFFSetField TIFFTAG_PLANARCONFIG [PLANARCONFIG_CONTIG]] ++
  (if scomponents > 3 then
    [Event.TIFFSetField TIFFTAG_EXTRASAMPLES
      ((scomponents - 3).toNat % 2 ^ 16 :: EXTRASAMPLE_ASSOCALPHA ::
        List.replicate (scomponents - 4).toNat EXTRASAMPLE_UNSPECIFIED)]
   else []) ++
  [Event.TIFFSetField TIFFTAG_COMPRESSION [compression]] ++
  (if compression = COMPRESSION_JPEG then
    [Event.TIFFSetField TIFFTAG_JPEGQUALITY [75],
     Event.TIFFSetField TIFFTAG_JPEGCOLORMODE [JPEGCOLORMODE_RGB]]
   else if compression = COMPRESSION_LZW then [Event.TIFFSetField TIFFTAG_PREDICTOR [2]]
   else if compression = COMPRESSION_DEFLATE then [Event.TIFFSetField TIFFTAG_PREDICTOR [2]]
   else []) ++
  [Event.TIFFSetField TIFFTAG_PHOTOMETRIC
     [if compression = COMPRESSION_JPEG then PHOTOMETRIC_YCBCR else PHOTOMETRIC_RGB],
   Event.TIFFDefaultStripSize,
   Event.TIFFSetField TIFFTAG_ROWSPERSTRIP [env.defaultStripSize]]

/-- `TIFFImageIO::WriteSlice(fileName, buffer)`. -/
def WriteSlice (env : WriteEnv) (io : TIFFImageIO) (fileName : String) (buffer : List Nat) :
    Except Fault TIFFImageIO :=
  let width := io.m_Dimensions0 % 2 ^ 32
  let height := io.m_Dimensions1 % 2 ^ 32
  let components := io.m_NumberOfComponents % 2 ^ 32
  match (match io.m_ComponentType with
         | IODataType.UCHAR => some (8, 1)
         | IODataType.USHORT => some (16, 2)
         | _ => none : Option (Nat × Nat)) with
  | none => .error Fault.exception
  | some (bps, size) =>
    if env.clientOpen fileName = false then
      .ok (log io [Event.ofstreamOpen fileName, Event.TIFFClientOpen fileName])
    else
      match writeLoop env height 0 buffer 0 (toInt32 (size * components * width))
          (scanlineBytes width (components % 2 ^ 16) bps)
          (log io ([Event.ofstreamOpen fileName, Event.TIFFClientOpen fileName] ++
            writeTags env io bps)) with
      | .error f => .error f
      | .ok io1 => .ok (log io1 [Event.TIFFClose, Event.ofstreamClose])

/-! ### The calls of the writer -/

/-- The `TIFFWriteScanline` calls of the loop of `WriteSlice` (see `writeLoop`),
up to the end of the loop, the `break`, or the access outside the buffer that
ends it. -/
def writeLoopCalls (env : WriteEnv) (n : Nat) (row : Nat) (buffer : List Nat) (outPtr : Int)
    (rowLength : Int) (lineBytes : Nat) : List Event :=
  match n with
  | 0 => []
  | n + 1 =>
    if outPtr < 0 ∨ buffer.length < outPtr.toNat + lineBytes then []
    else
      Event.TIFFWriteScanline row ((buffer.drop outPtr.toNat).take lineBytes) ::
        (if env.writeScanline row ((buffer.drop outPtr.toNat).take lineBytes) then
          writeLoopCalls env n (row + 1) buffer (outPtr + rowLength) rowLength lineBytes
         else [])

/-- The calls `TIFFImageIO::WriteSlice(fileName, buffer)` makes into the file
layer and the codec, in order, whether it returns, throws or faults: none
before the exception of the first `switch`, the two opening calls alone when
`TIFFClientOpen` gives no handle, and the closing calls when the loop has
come to its end or to its `break`. -/
def WriteSliceCalls (env : WriteEnv) (io : TIFFImageIO) (fileName : String)
    (buffer : List Nat) : List Event :=
  let width := io.m_Dimensions0 % 2 ^ 32
  let height := io.m_Dimensions1 % 2 ^ 32
  let components := io.m_NumberOfComponents % 2 ^ 32
  match (match io.m_ComponentType with
         | IODataType.UCHAR => some (8, 1)
         | IODataType.USHORT => some (16, 2)
         | _ => none : Option (Nat × Nat)) with
  | none => []
  | some (bps, size) =>
    if env.clientOpen fileName = false then
      [Event.ofstreamOpen fileName, Event.TIFFClientOpen fileName]
    else
      [Event.ofstreamOpen fileName, Event.TIFFClientOpen fileName] ++ writeTags env io bps ++
        writeLoopCalls env height 0 buffer 0 (toInt32 (size * components * width))
          (scanlineBytes width (components % 2 ^ 16) bps) ++
        (match writeLoop env height 0 buffer 0 (toInt32 (size * components * width))
            (scanlineBytes width (components % 2 ^ 16) bps)
            (log io ([Event.ofstreamOpen fileName, Event.TIFFClientOpen fileName] ++
              writeTags env io bps)) with
         | .ok _ => [Event.TIFFClose, Event.ofstreamClose]
         | .error _ => [])

/-! ### A codec that stores what it is given -/

/-- The value last given to `tag` by a `TIFFSetField` of the trace. -/
def storedField (tr : List Event) (tag : Nat) : Option Nat :=
  tr.reverse.findSome? fun e =>
    match e with
    | Event.TIFFSetField t (v :: _) => if t = tag then some v else none
    | _ => none

/-- The data last given for `row` by a `TIFFWriteScanline` of the trace. -/
def storedScanline (tr : List Event) (row : Nat) : Option (List Nat) :=
  tr.reverse.findSome? fun e =>
    match e with
    | Event.TIFFWriteScanline r data => if r = row then some data else none
    | _ => none

/-- Modelled from the spec: the codec of the round trip, which stores the
tags and scanlines it is given and presents them again on reading; the codec
itself (libtiff) is not under `src/`.  It has no colormap and no RGBA decode. -/
def storedStream (tr : List Event) : TIFF :=
  { field := storedField tr
    colormap := none
    scanlineSize :=
      scanlineBytes ((storedField tr TIFFTAG_IMAGEWIDTH).getD 0)
        ((storedField tr TIFFTAG_SAMPLESPERPIXEL).getD 0 % 2 ^ 16)
        ((storedField tr TIFFTAG_BITSPERSAMPLE).getD 0)
    readScanline := storedScanline tr
    readRGBAImage := fun _ _ => none }

/-! ## Vocabulary of the statements -/

/-- The buffer `out` with the cells from `p` on replaced by `bs`. -/
def overwrite (out : List Nat) (p : Nat) (bs : List Nat) : List Nat :=
  out.take p ++ bs ++ out.drop (p + bs.length)

/-- A session on a palette stream `t` with colormap `red`, `green`, `blue`:
the handle is open on `t`, the photometric model is Palette, the bit depth is
one `GetColor` accepts, the three tables have `2 ^ BitsPerSample` entries, and
the palette cache is either empty or holds these tables. -/
structure PaletteSession (io : TIFFImageIO) (t : TIFF) (red green blue : List Nat) : Prop where
  image : io.m_InternalImage.Image = some t
  photometric : io.m_InternalImage.Photometrics = PHOTOMETRIC_PALETTE
  bits : io.m_InternalImage.BitsPerSample ∈ [1, 2, 4, 8, 16]
  colormap : t.colormap = some (red, green, blue)
  red_length : red.length = 2 ^ io.m_InternalImage.BitsPerSample
  green_length : green.length = 2 ^ io.m_InternalImage.BitsPerSample
  blue_length : blue.length = 2 ^ io.m_InternalImage.BitsPerSample
  cache : (io.ColorRed = none ∧ io.ColorGreen = none ∧ io.ColorBlue = none) ∨
    (io.ColorRed = some red ∧ io.ColorGreen = some green ∧ io.ColorBlue = some blue ∧
      io.TotalColors = 2 ^ io.m_InternalImage.BitsPerSample)

/-! ## Streams and sessions of the examples -/

/-- The session a new reader is in after `CanReadFile` on a file that holds
the stream `t`. -/
def sessionOn (t : TIFF) : TIFFImageIO :=
  (CanReadFile (fun _ => FileEntry.tiff t) TIFFImageIO.new "image.tif").2

/-- A stream given by its scalar tags alone. -/
def tagsOnly (tags : List (Nat × Nat)) : TIFF :=
  { field := fun tag => (tags.find? fun p => p.1 == tag).map Prod.snd
    colormap := none
    scanlineSize := 0
    readScanline := fun _ => none
    readRGBAImage := fun _ _ => none }

/-- A session on an RGB stream of four samples per pixel, format not yet
computed. -/
def rgbaSession : TIFFImageIO :=
  { TIFFImageIO.new with
      m_InternalImage :=
        { Image := none, Width := 1, Height := 1, SamplesPerPixel := 4
          Compression := COMPRESSION_NONE, BitsPerSample := 8
          Photometrics := PHOTOMETRIC_RGB, PlanarConfig := PLANARCONFIG_CONTIG, TileDepth := 0 } }

/-- An 8-bit uncompressed contiguous grayscale stream of one pixel that
carries no `SamplesPerPixel` tag. -/
def noSamplesTag : TIFF :=
  tagsOnly [(TIFFTAG_IMAGEWIDTH, 1), (TIFFTAG_IMAGELENGTH, 1),
    (TIFFTAG_COMPRESSION, COMPRESSION_NONE), (TIFFTAG_BITSPERSAMPLE, 8),
    (TIFFTAG_PHOTOMETRIC, PHOTOMETRIC_MINISBLACK), (TIFFTAG_PLANARCONFIG, PLANARCONFIG_CONTIG)]

/-- An 8-bit uncompressed contiguous grayscale stream, MinIsWhite, of two rows
of two pixels. -/
def grayTwoByTwo : TIFF :=
  { tagsOnly [(TIFFTAG_IMAGEWIDTH, 2), (TIFFTAG_IMAGELENGTH, 2), (TIFFTAG_SAMPLESPERPIXEL, 1),
      (TIFFTAG_COMPRESSION, COMPRESSION_NONE), (TIFFTAG_BITSPERSAMPLE, 8),
      (TIFFTAG_PHOTOMETRIC, PHOTOMETRIC_MINISWHITE),
      (TIFFTAG_PLANARCONFIG, PLANARCONFIG_CONTIG)] with
    scanlineSize := 2
    readScanline := fun row => if row < 2 then some [10 + row, 20 + row] else none }

/-- An 8-bit uncompressed contiguous grayscale stream, MinIsBlack, one pixel
wide and `2 ^ 31` rows high, every sample of which is 7. -/
def tallGray : TIFF :=
  { tagsOnly [(TIFFTAG_IMAGEWIDTH, 1), (TIFFTAG_IMAGELENGTH, 2 ^ 31),
      (TIFFTAG_SAMPLESPERPIXEL, 1), (TIFFTAG_COMPRESSION, COMPRESSION_NONE),
      (TIFFTAG_BITSPERSAMPLE, 8), (TIFFTAG_PHOTOMETRIC, PHOTOMETRIC_MINISBLACK),
      (TIFFTAG_PLANARCONFIG, PLANARCONFIG_CONTIG)] with
    scanlineSize := 1
    readScanline := fun _ => some [7] }

/-- A 16-bit RGB stream of two pixels in one row, whose RGBA decode delivers
the words `0x04030201` and `0x08070605`. -/
def twoPixels16 : TIFF :=
  { tagsOnly [(TIFFTAG_IMAGEWIDTH, 2), (TIFFTAG_IMAGELENGTH, 1), (TIFFTAG_SAMPLESPERPIXEL, 3),
      (TIFFTAG_COMPRESSION, COMPRESSION_NONE), (TIFFTAG_BITSPERSAMPLE, 16),
      (TIFFTAG_PHOTOMETRIC, PHOTOMETRIC_RGB), (TIFFTAG_PLANARCONFIG, PLANARCONFIG_CONTIG)] with
    scanlineSize := 12
    readRGBAImage := fun _ _ => some [0x04030201, 0x08070605] }

/-- An Old-JPEG compressed stream of one pixel. -/
def oldJpeg : TIFF :=
  { tagsOnly [(TIFFTAG_IMAGEWIDTH, 1), (TIFFTAG_IMAGELENGTH, 1), (TIFFTAG_SAMPLESPERPIXEL, 3),
      (TIFFTAG_COMPRESSION, COMPRESSION_OJPEG), (TIFFTAG_BITSPERSAMPLE, 8),
      (TIFFTAG_PHOTOMETRIC, PHOTOMETRIC_YCBCR), (TIFFTAG_PLANARCONFIG, PLANARCONFIG_CONTIG)] with
    scanlineSize := 3
    readScanline := fun _ => some [1, 2, 3]
    readRGBAImage := fun _ _ => some [0x04030201] }

/-- An uncompressed contiguous palette stream of one pixel with `bits` bits
per sample and the colormap `red`, `green`, `blue`. -/
def paletteStream (bits : Nat) (red green blue : List Nat) : TIFF :=
  { tagsOnly [(TIFFTAG_IMAGEWIDTH, 1), (TIFFTAG_IMAGELENGTH, 1), (TIFFTAG_SAMPLESPERPIXEL, 1),
      (TIFFTAG_COMPRESSION, COMPRESSION_NONE), (TIFFTAG_BITSPERSAMPLE, bits),
      (TIFFTAG_PHOTOMETRIC, PHOTOMETRIC_PALETTE), (TIFFTAG_PLANARCONFIG, PLANARCONFIG_CONTIG)] with
    colormap := some (red, green, blue)
    scanlineSize := 1
    readScanline := fun row => if row = 0 then some [1] else none }

/-- A table of `2 ^ 16` entries, all zero but entry 256, which is `v`. -/
def wideTable (v : Nat) : List Nat :=
  List.replicate 256 0 ++ v :: List.replicate 65279 0

/-! ## The writer of the round trip -/

/-- A codec under which every stream opens and every scanline write succeeds. -/
def storingEnv : WriteEnv :=
  { clientOpen := fun _ => true, defaultStripSize := 8, writeScanline := fun _ _ => true }

/-- A writer object set up for an 8-bit buffer of `width` by `height` pixels
with three components, compression policy None. -/
def rgbWriter (width height : Nat) : TIFFImageIO :=
  { TIFFImageIO.new with
      m_NumberOfComponents := 3, m_Dimensions0 := width, m_Dimensions1 := height
      m_Compression := CompressionPolicy.NoCompression }

/-- The calls `WriteSlice` makes for an 8-bit buffer of three components. -/
def rgb8Calls (env : WriteEnv) (w : TIFFImageIO) (fileName : String) (buffer : List Nat) :
    List Event :=
  [Event.ofstreamOpen fileName, Event.TIFFClientOpen fileName] ++ writeTags env w 8 ++
    ((List.range' 0 (w.m_Dimensions1 % 2 ^ 32)).map fun r =>
      Event.TIFFWriteScanline r
        ((buffer.drop (r * (3 * (w.m_Dimensions0 % 2 ^ 32)))).take
          (3 * (w.m_Dimensions0 % 2 ^ 32)))) ++
    [Event.TIFFClose, Event.ofstreamClose]

/-! ## Sequences of lookups, reopening, file names -/

/-- A sequence of palette lookups: `GetColor` at each index in turn. -/
def lookupAll (io : TIFFImageIO) : List Int → Except Fault TIFFImageIO
  | [] => .ok io
  | index :: rest =>
    match GetColor io index with
    | .error f => .error f
    | .ok (io1, _) => lookupAll io1 rest

/-- How often a trace asks the codec for the colormap. -/
def colormapRequests (tr : List Event) : Nat :=
  tr.count (Event.TIFFGetField TIFFTAG_COLORMAP)

/-- The session after `CanReadFile` has opened the stream `t` in the reader
object `io`, which may have read another stream before: `Open` closes the
handle of that stream first, and the codec frees its colormap tables. -/
def reopened (io : TIFFImageIO) (t : TIFF) : TIFFImageIO :=
  (CanReadFile (fun _ => FileEntry.tiff t) io "image.tif").2

/-- The session `io` once `GetFormat` has classified its stream. -/
def classified (io : TIFFImageIO) : TIFFImageIO :=
  match GetFormat io with
  | .ok (io1, _) => io1
  | .error _ => io

/-- A stream with a width tag and no height tag. -/
def noHeightTag : TIFF :=
  tagsOnly [(TIFFTAG_IMAGEWIDTH, 4), (TIFFTAG_SAMPLESPERPIXEL, 1),
    (TIFFTAG_COMPRESSION, COMPRESSION_NONE), (TIFFTAG_BITSPERSAMPLE, 8),
    (TIFFTAG_PHOTOMETRIC, PHOTOMETRIC_MINISBLACK), (TIFFTAG_PLANARCONFIG, PLANARCONFIG_CONTIG)]

/-- An 8-bit palette-tagged stream of one pixel for which the codec reports no
colormap. -/
def paletteNoMap : TIFF :=
  { tagsOnly [(TIFFTAG_IMAGEWIDTH, 1), (TIFFTAG_IMAGELENGTH, 1), (TIFFTAG_SAMPLESPERPIXEL, 1),
      (TIFFTAG_COMPRESSION, COMPRESSION_NONE), (TIFFTAG_BITSPERSAMPLE, 8),
      (TIFFTAG_PHOTOMETRIC, PHOTOMETRIC_PALETTE), (TIFFTAG_PLANARCONFIG, PLANARCONFIG_CONTIG)] with
    scanlineSize := 1
    readScanline := fun row => if row = 0 then some [0] else none }

/-- An 8-bit uncompressed contiguous RGB stream of one pixel with three samples
per pixel. -/
def rgbOnePixel : TIFF :=
  { tagsOnly [(TIFFTAG_IMAGEWIDTH, 1), (TIFFTAG_IMAGELENGTH, 1), (TIFFTAG_SAMPLESPERPIXEL, 3),
      (TIFFTAG_COMPRESSION, COMPRESSION_NONE), (TIFFTAG_BITSPERSAMPLE, 8),
      (TIFFTAG_PHOTOMETRIC, PHOTOMETRIC_RGB), (TIFFTAG_PLANARCONFIG, PLANARCONFIG_CONTIG)] with
    scanlineSize := 3
    readScanline := fun row => if row = 0 then some [1, 2, 3] else none }

/-- An 8-bit uncompressed contiguous grayscale stream, MinIsBlack, of one
pixel. -/
def grayOnePixel : TIFF :=
  { tagsOnly [(TIFFTAG_IMAGEWIDTH, 1), (TIFFTAG_IMAGELENGTH, 1), (TIFFTAG_SAMPLESPERPIXEL, 1),
      (TIFFTAG_COMPRESSION, COMPRESSION_NONE), (TIFFTAG_BITSPERSAMPLE, 8),
      (TIFFTAG_PHOTOMETRIC, PHOTOMETRIC_MINISBLACK),
      (TIFFTAG_PLANARCONFIG, PLANARCONFIG_CONTIG)] with
    scanlineSize := 1
    readScanline := fun row => if row = 0 then some [9] else none }

/-- A 1-bit palette stream whose colormap has a coloured entry. -/
def colourPalette : TIFF := paletteStream 1 [0, 65535] [0, 257] [0, 0]

/-- A 1-bit palette stream whose colormap is neutral: red, green and blue are
`[0, 0x1234]`. -/
def neutralPalette : TIFF := paletteStream 1 [0, 0x1234] [0, 0x1234] [0, 0x1234]

/-- An 8-bit uncompressed contiguous RGB stream of one pixel with five samples
per pixel (three colours and two extra samples). -/
def rgbFiveSamples : TIFF :=
  { tagsOnly [(TIFFTAG_IMAGEWIDTH, 1), (TIFFTAG_IMAGELENGTH, 1), (TIFFTAG_SAMPLESPERPIXEL, 5),
      (TIFFTAG_COMPRESSION, COMPRESSION_NONE), (TIFFTAG_BITSPERSAMPLE, 8),
      (TIFFTAG_PHOTOMETRIC, PHOTOMETRIC_RGB), (TIFFTAG_PLANARCONFIG, PLANARCONFIG_CONTIG)] with
    scanlineSize := 5
    readScanline := fun row => if row = 0 then some [1, 2, 3, 4, 5] else none }

/-- A writer object set up for one 8-bit component, two rows of `2 ^ 31`
pixels. -/
def wideWriter : TIFFImageIO :=
  { TIFFImageIO.new with
      m_NumberOfComponents := 1, m_Dimensions0 := 2 ^ 31, m_Dimensions1 := 2
      m_Compression := CompressionPolicy.NoCompression }

/-- A writer object whose component type is `FLOAT`. -/
def floatWriter : TIFFImageIO :=
  { TIFFImageIO.new with
      m_ComponentType := IODataType.FLOAT
      m_NumberOfComponents := 1, m_Dimensions0 := 2, m_Dimensions1 := 2 }

/-- A codec whose scanline writes succeed up to row 1 and fail at row 1. -/
def failingAtRowOne : WriteEnv :=
  { clientOpen := fun _ => true, defaultStripSize := 8
    writeScanline := fun row _ => decide (row < 1) }

/-- The stream `rgbOnePixel` with a colormap tag of 256 entries besides, whose
red entries are all `0x1234`. -/
def rgbWithColormap : TIFF :=
  { rgbOnePixel with
    colormap := some (List.replicate 256 4660, List.replicate 256 0, List.replicate 256 0) }

/-- The scanline writes of the `m` rows from `row` on, in increasing order,
each with the slice of `buffer` of `L` bytes at `r * L`. -/
def scanlineWrites (buffer : List Nat) (L : Nat) (row m : Nat) : List Event :=
  (List.range' row m).map fun r => Event.TIFFWriteScanline r ((buffer.drop (r * L)).take L)

/-! ## Partial reads, four channels, streams with too few samples -/

/-- The rows for which a trace asks the codec for a scanline, in the order of
the calls. -/
def fetchedRows (tr : List Event) : List Nat :=
  tr.filterMap fun e =>
    match e with
    | Event.TIFFReadScanline row => some row
    | _ => none

/-- A classified session on an open 8-bit stream `t` that the pixel decoder
can decode with `C` output bytes per pixel: Grayscale (`C = 1`), RGB with at
least three samples per pixel (`C = SamplesPerPixel`), or a palette stream with
its colormap, classified PaletteGrayscale (`C = 1`) or PaletteRGB (`C = 3`).
`C` is the number of components `ReadImageInformation` declares. -/
structure DecodableSession (io : TIFFImageIO) (t : TIFF) (C : Nat) : Prop where
  image : io.m_InternalImage.Image = some t
  bits : io.m_InternalImage.BitsPerSample = 8
  samples : 0 < io.m_InternalImage.SamplesPerPixel
  format :
    (io.ImageFormat = Format.GRAYSCALE ∧ C = 1) ∨
    (io.ImageFormat = Format.RGB_ ∧ 3 ≤ io.m_InternalImage.SamplesPerPixel ∧
      C = io.m_InternalImage.SamplesPerPixel) ∨
    (∃ red green blue, PaletteSession io t red green blue ∧
      ((io.ImageFormat = Format.PALETTE_GRAYSCALE ∧ C = 1) ∨
       (io.ImageFormat = Format.PALETTE_RGB ∧ C = 3)))

/-- The buffer `out1` has the length of `out` and the same bytes outside the
cells from `a` up to `b`. -/
def UnchangedOutside (out1 out : List Nat) (a b : Nat) : Prop :=
  out1.length = out.length ∧ ∀ j, j < a ∨ b ≤ j → out1[j]? = out[j]?

/-- A buffer of four channels per pixel with every alpha byte `a` replaced by
`255 - a`. -/
def complementAlpha : List Nat → List Nat
  | r :: g :: b :: a :: rest => r :: g :: b :: (255 - a) :: complementAlpha rest
  | l => l

/-- A writer object set up for an 8-bit buffer of `width` by `height` pixels
with four components, compression policy None. -/
def rgbaWriter (width height : Nat) : TIFFImageIO :=
  { TIFFImageIO.new with
      m_NumberOfComponents := 4, m_Dimensions0 := width, m_Dimensions1 := height
      m_Compression := CompressionPolicy.NoCompression }

/-- The calls `WriteSlice` makes for an 8-bit buffer of four components. -/
def rgba8Calls (env : WriteEnv) (w : TIFFImageIO) (fileName : String) (buffer : List Nat) :
    List Event :=
  [Event.ofstreamOpen fileName, Event.TIFFClientOpen fileName] ++ writeTags env w 8 ++
    scanlineWrites buffer (4 * (w.m_Dimensions0 % 2 ^ 32)) 0 (w.m_Dimensions1 % 2 ^ 32) ++
    [Event.TIFFClose, Event.ofstreamClose]

/-- An 8-bit uncompressed contiguous stream of one pixel whose photometric
model is RGB and which has one sample per pixel: its scanline is the one byte
`[7]`. -/
def rgbOneSample : TIFF :=
  { tagsOnly [(TIFFTAG_IMAGEWIDTH, 1), (TIFFTAG_IMAGELENGTH, 1), (TIFFTAG_SAMPLESPERPIXEL, 1),
      (TIFFTAG_COMPRESSION, COMPRESSION_NONE), (TIFFTAG_BITSPERSAMPLE, 8),
      (TIFFTAG_PHOTOMETRIC, PHOTOMETRIC_RGB), (TIFFTAG_PLANARCONFIG, PLANARCONFIG_CONTIG)] with
    scanlineSize := 1
    readScanline := fun row => if row = 0 then some [7] else none }

/-- An 8-bit uncompressed contiguous stream, two pixels wide and two rows
high, whose photometric model is RGB and which has one sample per pixel: row 0
reads as `[7, 8]` and row 1 cannot be fetched. -/
def rgbOneSampleTwoRows : TIFF :=
  { tagsOnly [(TIFFTAG_IMAGEWIDTH, 2), (TIFFTAG_IMAGELENGTH, 2), (TIFFTAG_SAMPLESPERPIXEL, 1),
      (TIFFTAG_COMPRESSION, COMPRESSION_NONE), (TIFFTAG_BITSPERSAMPLE, 8),
      (TIFFTAG_PHOTOMETRIC, PHOTOMETRIC_RGB), (TIFFTAG_PLANARCONFIG, PLANARCONFIG_CONTIG)] with
    scanlineSize := 2
    readScanline := fun row => if row = 0 then some [7, 8] else none }

/-- An 8-bit grayscale stream, MinIsBlack, two pixels wide and three rows high,
whose rows 0 and 1 read as `[1, 2]` and `[3, 4]` and whose row 2 cannot be
fetched. -/
def grayFailingAtRowTwo : TIFF :=
  { tagsOnly [(TIFFTAG_IMAGEWIDTH, 2), (TIFFTAG_IMAGELENGTH, 3), (TIFFTAG_SAMPLESPERPIXEL, 1),
      (TIFFTAG_COMPRESSION, COMPRESSION_NONE), (TIFFTAG_BITSPERSAMPLE, 8),
      (TIFFTAG_PHOTOMETRIC, PHOTOMETRIC_MINISBLACK),
      (TIFFTAG_PLANARCONFIG, PLANARCONFIG_CONTIG)] with
    scanlineSize := 2
    readScanline := fun row => if row < 2 then some [1 + 2 * row, 2 + 2 * row] else none }

/-! ## Machine integers and buffers: basic facts -/

theorem toUChar_complement (a : Nat) (h : a < 256) : toUChar (255 - (a : Int)) = 255 - a := by
  unfold toUChar; omega

theorem toUChar_not (v : Nat) (h : v < 256) : toUChar (-(v : Int) - 1) = 255 - v := by
  unfold toUChar; omega

theorem toInt32_of_lt (n : Nat) (h : n < 2 ^ 31) : toInt32 n = n := by
  unfold toInt32
  have : n % 2 ^ 32 = n := Nat.mod_eq_of_lt (by omega)
  rw [this, if_pos h]

theorem toUInt32_of_lt (n : Nat) (h : n < 2 ^ 32) : toUInt32 (n : Int) = n := by
  unfold toUInt32
  omega

theorem rows_of_height (n : Nat) (h : n < 2 ^ 31) :
    (toInt32 (toUInt32 (toInt32 n))).toNat = n := by
  rw [toInt32_of_lt n h, toUInt32_of_lt n (by omega), toInt32_of_lt n h]
  simp

/-- A height that does not fit an `int` leaves the row loop no round to make. -/
theorem rows_of_tall_height (n : Nat) (h1 : 2 ^ 31 ≤ n) (h2 : n < 2 ^ 32) :
    (toInt32 (toUInt32 (toInt32 n))).toNat = 0 := by
  have hm : n % 2 ^ 32 = n := Nat.mod_eq_of_lt h2
  have e1 : toInt32 n = (n : Int) - 2 ^ 32 := by
    unfold toInt32
    rw [hm, if_neg (by omega)]
  have e2 : toUInt32 ((n : Int) - 2 ^ 32) = n := by
    unfold toUInt32
    omega
  rw [e1, e2, e1]
  omega

theorem overwrite_nil (out : List Nat) (p : Nat) : overwrite out p [] = out := by
  simp [overwrite]

theorem length_overwrite (out : List Nat) (p : Nat) (bs : List Nat)
    (h : p + bs.length ≤ out.length) : (overwrite out p bs).length = out.length := by
  simp [overwrite]
  omega

theorem set_eq_overwrite (out : List Nat) (p v : Nat) (h : p < out.length) :
    out.set p v = overwrite out p [v] := by
  simp [overwrite, List.set_eq_take_append_cons_drop, h]

theorem overwrite_overwrite (out : List Nat) (p : Nat) (a b : List Nat)
    (h : p + a.length ≤ out.length) :
    overwrite (overwrite out p a) (p + a.length) b = overwrite out p (a ++ b) := by
  unfold overwrite
  have h1 : (List.take p out ++ a).length = p + a.length := by
    simp; omega
  have e1 : List.take (p + a.length) (List.take p out ++ a ++ List.drop (p + a.length) out)
      = List.take p out ++ a := List.take_left' h1
  have e2 : List.drop (p + a.length + b.length)
      (List.take p out ++ a ++ List.drop (p + a.length) out)
      = List.drop (p + (a ++ b).length) out := by
    rw [← h1, List.drop_append, List.drop_drop, h1]
    congr 1
    simp; omega
  rw [e1, e2]
  simp

theorem overwrite_zero_full (out bs : List Nat) (h : bs.length = out.length) :
    overwrite out 0 bs = bs := by
  simp [overwrite, h]

theorem getElem?_overwrite_mid (out : List Nat) (p : Nat) (bs : List Nat) (k : Nat)
    (hp : p ≤ out.length) (hk : k < bs.length) :
    (overwrite out p bs)[p + k]? = bs[k]? := by
  unfold overwrite
  have h1 : (List.take p out).length = p := by simp; omega
  rw [List.append_assoc, List.getElem?_append_right (by omega), h1,
    List.getElem?_append_left (by omega)]
  congr 1
  omega

theorem length_flatten_uniform (W : Nat) : ∀ (rows : List (List Nat)),
    (∀ l ∈ rows, l.length = W) → rows.flatten.length = rows.length * W := by
  intro rows
  induction rows with
  | nil => intro _; simp
  | cons l ls ih =>
    intro h
    rw [List.flatten_cons, List.length_append, ih (fun x hx => h x (List.mem_cons_of_mem _ hx)),
      h l (List.mem_cons_self _ _), List.length_cons]
    ring

theorem getElem?_flatten_uniform (W col : Nat) (hcol : col < W) :
    ∀ (rows : List (List Nat)) (r : Nat), (∀ l ∈ rows, l.length = W) → ∀ l, rows[r]? = some l →
      rows.flatten[r * W + col]? = l[col]? := by
  intro rows
  induction rows with
  | nil => intro r _ l hl; simp at hl
  | cons x xs ih =>
    intro r h l hl
    have hx : x.length = W := h x (List.mem_cons_self _ _)
    cases r with
    | zero =>
      simp only [List.getElem?_cons_zero, Option.some.injEq] at hl
      subst hl
      rw [List.flatten_cons, Nat.zero_mul, Nat.zero_add, List.getElem?_append_left (by omega)]
    | succ r =>
      simp only [List.getElem?_cons_succ] at hl
      have := ih r (fun y hy => h y (List.mem_cons_of_mem _ hy)) l hl
      rw [List.flatten_cons, List.getElem?_append_right (by rw [hx, Nat.succ_mul]; omega), hx,
        ← this]
      congr 1
      rw [Nat.succ_mul]
      omega

/-! ## The metadata probe -/

theorem CanRead_true_iff (r : TIFFReaderInternal) :
    r.CanRead = true ↔
      (r.Image.isSome = true ∧ r.Width > 0 ∧ r.Height > 0 ∧ r.SamplesPerPixel > 0 ∧
       r.Compression = COMPRESSION_NONE ∧
       (r.Photometrics = PHOTOMETRIC_RGB ∨ r.Photometrics = PHOTOMETRIC_MINISWHITE ∨
        r.Photometrics = PHOTOMETRIC_MINISBLACK ∨ r.Photometrics = PHOTOMETRIC_PALETTE) ∧
       r.PlanarConfig = PLANARCONFIG_CONTIG ∧ r.TileDepth = 0 ∧ r.BitsPerSample = 8) := by
  simp [TIFFReaderInternal.CanRead]
  tauto

/-! ## Frame facts: what the palette cache and the classifier leave alone -/

theorem log_log (io : TIFFImageIO) (a b : List Event) : log (log io a) b = log io (a ++ b) := by
  simp [log]

theorem log_nil (io : TIFFImageIO) : log io [] = io := by
  simp [log]

theorem GetColor_frame (io io1 : TIFFImageIO) (index : Int) (c : Nat × Nat × Nat)
    (h : GetColor io index = .ok (io1, c)) :
    io1.m_InternalImage = io.m_InternalImage ∧ io1.ImageFormat = io.ImageFormat := by
  unfold GetColor at h
  dsimp only at h
  repeat' split at h
  all_goals first | (cases h; exact ⟨rfl, rfl⟩) | cases h

theorem paletteLoop_frame (n : Nat) : ∀ (cc : Nat) (io io1 : TIFFImageIO) (f : Format),
    paletteLoop n cc io = .ok (io1, f) → io1.m_InternalImage = io.m_InternalImage := by
  induction n with
  | zero => intro cc io io1 f h; simp only [paletteLoop] at h; cases h; rfl
  | succ n ih =>
    intro cc io io1 f h
    simp only [paletteLoop] at h
    split at h
    · cases h
    · rename_i io2 red green blue hg
      have := (GetColor_frame _ _ _ _ hg).1
      split at h
      · cases h; exact this
      · rw [ih _ _ _ _ h, this]

theorem GetFormat_frame (io io1 : TIFFImageIO) (f : Format) (h : GetFormat io = .ok (io1, f)) :
    io1.m_InternalImage = io.m_InternalImage := by
  unfold GetFormat at h
  repeat' split at h
  all_goals first | (cases h; rfl) | exact paletteLoop_frame _ _ _ _ _ h

theorem GetFormat_cached (io : TIFFImageIO) (h : io.ImageFormat ≠ Format.NOFORMAT) :
    GetFormat io = .ok (io, io.ImageFormat) := by
  simp [GetFormat, h]

theorem GetFormat_fresh_palette (io : TIFFImageIO) (hf : io.ImageFormat = Format.NOFORMAT)
    (hp : io.m_InternalImage.Photometrics = PHOTOMETRIC_PALETTE) :
    GetFormat io = paletteLoop 256 0 io := by
  unfold GetFormat
  rw [hp]
  simp [hf, PHOTOMETRIC_PALETTE, PHOTOMETRIC_RGB, PHOTOMETRIC_YCBCR, PHOTOMETRIC_MINISWHITE,
      PHOTOMETRIC_MINISBLACK]

/-! ## The palette cache and the neutrality probe -/

theorem readColor_ok (red green blue : List Nat) (i : Nat) (hr : i < red.length)
    (hg : i < green.length) (hb : i < blue.length) :
    readColor red green blue i = .ok (red.getD i 0, green.getD i 0, blue.getD i 0) := by
  simp [readColor, List.getElem?_eq_getElem, hr, hg, hb, List.getD_eq_getElem?_getD]

theorem PaletteSession.of_frame {io io1 : TIFFImageIO} {t : TIFF} {red green blue : List Nat}
    (hs : PaletteSession io t red green blue)
    (h1 : io1.m_InternalImage = io.m_InternalImage)
    (h2 : (io1.ColorRed = none ∧ io1.ColorGreen = none ∧ io1.ColorBlue = none) ∨
      (io1.ColorRed = some red ∧ io1.ColorGreen = some green ∧ io1.ColorBlue = some blue ∧
        io1.TotalColors = 2 ^ io.m_InternalImage.BitsPerSample)) :
    PaletteSession io1 t red green blue :=
  ⟨h1 ▸ hs.image, h1 ▸ hs.photometric, h1 ▸ hs.bits, hs.colormap, h1 ▸ hs.red_length,
    h1 ▸ hs.green_length, h1 ▸ hs.blue_length, h1 ▸ h2⟩

theorem pow_bits_pos (n : Nat) : (0 : Int) < 2 ^ n := by positivity

/-- In range: the lookup delivers the entry and leaves the tables cached. -/
theorem GetColor_inRange (io : TIFFImageIO) (t : TIFF) (red green blue : List Nat) (i : Nat)
    (hs : PaletteSession io t red green blue)
    (hi : i < 2 ^ io.m_InternalImage.BitsPerSample) :
    ∃ io1, GetColor io i = .ok (io1, red.getD i 0, green.getD i 0, blue.getD i 0) ∧
      PaletteSession io1 t red green blue ∧ io1.ImageFormat = io.ImageFormat ∧
      io1.m_InternalImage = io.m_InternalImage := by
  have hrc := readColor_ok red green blue i (by rw [hs.red_length]; exact hi)
    (by rw [hs.green_length]; exact hi) (by rw [hs.blue_length]; exact hi)
  have hpos := pow_bits_pos io.m_InternalImage.BitsPerSample
  have hiI : ¬ ((i : Int) ≥ 2 ^ io.m_InternalImage.BitsPerSample) := by
    have : ((i : Nat) : Int) < ((2 ^ io.m_InternalImage.BitsPerSample : Nat) : Int) := by
      exact_mod_cast hi
    push_cast at this
    omega
  rcases hs.cache with ⟨c1, c2, c3⟩ | ⟨c1, c2, c3, htot⟩
  · have hc : cachedColors io = none := by simp [cachedColors, c1]
    unfold GetColor
    simp only [hc, hs.image, hs.photometric, hs.bits, hs.colormap]
    simp [hiI, hrc]
    exact ⟨_, rfl, hs.of_frame rfl (Or.inr ⟨rfl, rfl, rfl, rfl⟩), rfl, rfl⟩
  · have hc : cachedColors io = some (red, green, blue) := by
      simp [cachedColors, c1, c2, c3, htot, hpos]
    refine ⟨log io [Event.colorRead i], ?_, hs.of_frame rfl (Or.inr ⟨c1, c2, c3, htot⟩), rfl, rfl⟩
    unfold GetColor
    simp [hc, htot, hiI, hrc]

/-- Out of range: the lookup gives the zero colour and reads no table entry. -/
theorem GetColor_outOfRange (io : TIFFImageIO) (t : TIFF) (red green blue : List Nat)
    (index : Int) (hs : PaletteSession io t red green blue)
    (hi : index < 0 ∨ index ≥ 2 ^ io.m_InternalImage.BitsPerSample) :
    ∃ io1 es, GetColor io index = .ok (io1, 0, 0, 0) ∧
      PaletteSession io1 t red green blue ∧ io1.ImageFormat = io.ImageFormat ∧
      io1.m_InternalImage = io.m_InternalImage ∧
      io1.trace = io.trace ++ es ∧ ∀ k, Event.colorRead k ∉ es := by
  have hpos := pow_bits_pos io.m_InternalImage.BitsPerSample
  by_cases hneg : index < 0
  · exact ⟨io, [], by simp [GetColor, hneg], hs, rfl, rfl, by simp, by simp⟩
  · have hge : index ≥ 2 ^ io.m_InternalImage.BitsPerSample := by
      rcases hi with h | h
      · exact absurd h hneg
      · exact h
    rcases hs.cache with ⟨c1, c2, c3⟩ | ⟨c1, c2, c3, htot⟩
    · have hc : cachedColors io = none := by simp [cachedColors, c1]
      refine ⟨{ log (log io [Event.TIFFGetField TIFFTAG_PHOTOMETRIC])
                  [Event.TIFFGetField TIFFTAG_COLORMAP] with
                TotalColors := 2 ^ io.m_InternalImage.BitsPerSample },
        [Event.TIFFGetField TIFFTAG_PHOTOMETRIC, Event.TIFFGetField TIFFTAG_COLORMAP],
        ?_, hs.of_frame rfl (Or.inl ⟨c1, c2, c3⟩), rfl, rfl, by simp [log], by simp⟩
      unfold GetColor
      simp only [hc, hs.image, hs.photometric, hs.bits, hs.colormap]
      simp [hneg, hge]
    · have hc : cachedColors io = some (red, green, blue) := by
        simp [cachedColors, c1, c2, c3, htot, hpos]
      refine ⟨io, [], ?_, hs, rfl, rfl, by simp, by simp⟩
      unfold GetColor
      simp [hc, htot, hneg, hge]

/-- Every lookup at a natural index gives the table entry, zero beyond the table. -/
theorem GetColor_palette (io : TIFFImageIO) (t : TIFF) (red green blue : List Nat) (i : Nat)
    (hs : PaletteSession io t red green blue) :
    ∃ io1, GetColor io i = .ok (io1, red.getD i 0, green.getD i 0, blue.getD i 0) ∧
      PaletteSession io1 t red green blue ∧ io1.ImageFormat = io.ImageFormat ∧
      io1.m_InternalImage = io.m_InternalImage := by
  by_cases hi : i < 2 ^ io.m_InternalImage.BitsPerSample
  · exact GetColor_inRange io t red green blue i hs hi
  · have hge : (i : Int) ≥ 2 ^ io.m_InternalImage.BitsPerSample := by
      have : ((2 ^ io.m_InternalImage.BitsPerSample : Nat) : Int) ≤ ((i : Nat) : Int) := by
        exact_mod_cast Nat.le_of_not_lt hi
      push_cast at this
      exact this
    obtain ⟨io1, es, h1, h2, h3, h4, -, -⟩ :=
      GetColor_outOfRange io t red green blue i hs (Or.inr hge)
    refine ⟨io1, ?_, h2, h3, h4⟩
    rw [h1]
    have e1 : red.getD i 0 = 0 := by
      rw [List.getD_eq_default]; rw [hs.red_length]; omega
    have e2 : green.getD i 0 = 0 := by
      rw [List.getD_eq_default]; rw [hs.green_length]; omega
    have e3 : blue.getD i 0 = 0 := by
      rw [List.getD_eq_default]; rw [hs.blue_length]; omega
    rw [e1, e2, e3]

/-- The neutrality probe -/
theorem paletteLoop_spec (t : TIFF) (red green blue : List Nat) (n : Nat) :
    ∀ (cc : Nat) (io : TIFFImageIO), PaletteSession io t red green blue →
    ∃ io1 f, paletteLoop n cc io = .ok (io1, f) ∧ io1.ImageFormat = f ∧
      PaletteSession io1 t red green blue ∧
      ((f = Format.PALETTE_GRAYSCALE ∧ ∀ i, cc ≤ i → i < cc + n →
          red.getD i 0 = green.getD i 0 ∧ red.getD i 0 = blue.getD i 0) ∨
       (f = Format.PALETTE_RGB ∧ ∃ i, cc ≤ i ∧ i < cc + n ∧
          ¬ (red.getD i 0 = green.getD i 0 ∧ red.getD i 0 = blue.getD i 0))) := by
  induction n with
  | zero =>
    intro cc io hs
    exact ⟨_, _, rfl, rfl, hs.of_frame rfl hs.cache, Or.inl ⟨rfl, by intro i h1 h2; omega⟩⟩
  | succ n ih =>
    intro cc io hs
    obtain ⟨io1, hg, hs1, hf1, hm1⟩ := GetColor_palette io t red green blue cc hs
    simp only [paletteLoop, hg]
    by_cases hne : red.getD cc 0 ≠ green.getD cc 0 ∨ red.getD cc 0 ≠ blue.getD cc 0
    · rw [if_pos hne]
      refine ⟨_, _, rfl, rfl, hs1.of_frame rfl hs1.cache, Or.inr ⟨rfl, cc, le_refl _, by omega, ?_⟩⟩
      intro h
      rcases hne with h1 | h1
      · exact h1 h.1
      · exact h1 h.2
    · rw [if_neg hne]
      obtain ⟨io2, f, hl, hf2, hs2, hres⟩ := ih (cc + 1) io1 hs1
      refine ⟨io2, f, hl, hf2, hs2, ?_⟩
      rcases hres with ⟨hf, hall⟩ | ⟨hf, i, h1, h2, h3⟩
      · refine Or.inl ⟨hf, ?_⟩
        intro i h1 h2
        by_cases hic : i = cc
        · subst hic
          constructor
          · by_contra hh; exact hne (Or.inl hh)
          · by_contra hh; exact hne (Or.inr hh)
        · exact hall i (by omega) (by omega)
      · exact Or.inr ⟨hf, i, by omega, by omega, h3⟩

/-! ## The pixel decoder on a classified stream -/

theorem GetFormat_session (io io1 : TIFFImageIO) (t : TIFF) (red green blue : List Nat)
    (f : Format) (hs : PaletteSession io t red green blue)
    (h : GetFormat io = .ok (io1, f)) : PaletteSession io1 t red green blue := by
  unfold GetFormat at h
  have hp := hs.photometric
  split at h
  · cases h; exact hs
  · rw [hp] at h
    simp only [PHOTOMETRIC_PALETTE, PHOTOMETRIC_RGB, PHOTOMETRIC_YCBCR, PHOTOMETRIC_MINISWHITE,
      PHOTOMETRIC_MINISBLACK] at h
    norm_num at h
    obtain ⟨io2, f2, h2, -, hs2, -⟩ := paletteLoop_spec t red green blue 256 0 io hs
    rw [h2] at h
    cases h
    exact hs2

theorem EvaluateImageAt_gray (io : TIFFImageIO) (out src : List Nat) (image source v : Nat)
    (hf : io.ImageFormat = Format.GRAYSCALE) (hv : src[source]? = some v) (hv256 : v < 256)
    (hroom : image < out.length) :
    EvaluateImageAt io out image src source =
      .ok (io, overwrite out image
        [if io.m_InternalImage.Photometrics = PHOTOMETRIC_MINISBLACK then v else 255 - v], 1) := by
  have hg : GetFormat io = .ok (io, Format.GRAYSCALE) := by
    rw [GetFormat_cached io (by rw [hf]; decide), hf]
  have m1 : v % 256 = v := Nat.mod_eq_of_lt hv256
  have m2 : (255 - v) % 256 = 255 - v := Nat.mod_eq_of_lt (by omega)
  by_cases hp : io.m_InternalImage.Photometrics = PHOTOMETRIC_MINISBLACK
  · simp [EvaluateImageAt, hg, load, hv, hp, store, hroom, m1, set_eq_overwrite]
  · simp [EvaluateImageAt, hg, load, hv, hp, store, hroom, m2, toUChar_not v hv256,
      set_eq_overwrite]

theorem EvaluateImageAt_rgb3 (io : TIFFImageIO) (out src : List Nat) (image source r g b : Nat)
    (hf : io.ImageFormat = Format.RGB_) (hspp : io.m_InternalImage.SamplesPerPixel = 3)
    (hr : src[source]? = some r) (hg : src[source + 1]? = some g)
    (hb : src[source + 2]? = some b) (hbyte : r < 256 ∧ g < 256 ∧ b < 256)
    (hroom : image + 3 ≤ out.length) :
    EvaluateImageAt io out image src source = .ok (io, overwrite out image [r, g, b], 3) := by
  have hfm : GetFormat io = .ok (io, Format.RGB_) := by
    rw [GetFormat_cached io (by rw [hf]; decide), hf]
  obtain ⟨h1, h2, h3⟩ := hbyte
  have e1 : r % 256 = r := Nat.mod_eq_of_lt h1
  have e2 : g % 256 = g := Nat.mod_eq_of_lt h2
  have e3 : b % 256 = b := Nat.mod_eq_of_lt h3
  have p0 : image < out.length := by omega
  have p1 : image + 1 < out.length := by omega
  have p2 : image + 2 < out.length := by omega
  have q1 : image + 1 < (overwrite out image [r]).length := by
    rw [length_overwrite _ _ _ (by simpa using p0)]; exact p1
  have q2 : image + 2 < (overwrite (overwrite out image [r]) (image + 1) [g]).length := by
    rw [length_overwrite _ _ _ (by simpa using q1), length_overwrite _ _ _ (by simpa using p0)]
    exact p2
  have := overwrite_overwrite out image [r] [g] (by simpa using p0)
  have := overwrite_overwrite out image [r, g] [b] (by simpa using p1)
  simp [EvaluateImageAt, hfm, load, store, hr, hg, hb, hspp, e1, e2, e3, p0, p1, p2]
  rw [set_eq_overwrite _ _ _ p0, set_eq_overwrite _ _ _ q1, set_eq_overwrite _ _ _ q2]
  simp_all

theorem pixelLoop_gray (io : TIFFImageIO) (isize : Nat) (src : List Nat)
    (hf : io.ImageFormat = Format.GRAYSCALE) (hspp : io.m_InternalImage.SamplesPerPixel = 1)
    (hlen : src.length = isize) (hbytes : ∀ v ∈ src, v < 256) (hsz : isize < 2 ^ 32) :
    ∀ (k cc fuel : Nat) (out : List Nat) (image : Nat), cc + k = isize → k < fuel →
      image + k ≤ out.length →
      pixelLoop fuel isize src cc io out image =
        .ok (io, overwrite out image ((src.drop cc).map fun v =>
          if io.m_InternalImage.Photometrics = PHOTOMETRIC_MINISBLACK then v else 255 - v),
          image + k) := by
  intro k
  induction k with
  | zero =>
    intro cc fuel out image hcc hfuel _
    obtain ⟨f, rfl⟩ : ∃ f, fuel = f + 1 := ⟨fuel - 1, by omega⟩
    have : ¬ cc < isize := by omega
    have hd : List.drop cc src = [] := List.drop_eq_nil_of_le (by omega)
    simp [pixelLoop, this, hd, overwrite_nil]
  | succ k ih =>
    intro cc fuel out image hcc hfuel hroom
    obtain ⟨f, rfl⟩ : ∃ f, fuel = f + 1 := ⟨fuel - 1, by omega⟩
    have hlt : cc < isize := by omega
    have hcl : cc < src.length := by omega
    have hv : src[cc]? = some src[cc] := List.getElem?_eq_getElem hcl
    have hv256 : src[cc] < 256 := hbytes _ (List.getElem_mem hcl)
    have hmod : (cc + 1) % 2 ^ 32 = cc + 1 := Nat.mod_eq_of_lt (by omega)
    have hstep := EvaluateImageAt_gray io out src image cc _ hf hv hv256 (by omega)
    have hlen1 : (overwrite out image [if io.m_InternalImage.Photometrics =
        PHOTOMETRIC_MINISBLACK then src[cc] else 255 - src[cc]]).length = out.length :=
      length_overwrite _ _ _ (by simp; omega)
    have hih := ih (cc + 1) f (overwrite out image [if io.m_InternalImage.Photometrics =
        PHOTOMETRIC_MINISBLACK then src[cc] else 255 - src[cc]]) (image + 1) (by omega)
        (by omega) (by rw [hlen1]; omega)
    have hov := overwrite_overwrite out image [if io.m_InternalImage.Photometrics =
        PHOTOMETRIC_MINISBLACK then src[cc] else 255 - src[cc]]
        ((src.drop (cc + 1)).map fun v =>
          if io.m_InternalImage.Photometrics = PHOTOMETRIC_MINISBLACK then v else 255 - v)
        (by simp; omega)
    simp only [List.length_singleton] at hov
    have hd : src.drop cc = src[cc] :: src.drop (cc + 1) := List.drop_eq_getElem_cons hcl
    rw [pixelLoop, if_pos hlt, hstep]
    simp only [hspp, hmod]
    rw [hih, hov, hd]
    simp only [List.map_cons, List.singleton_append, Nat.add_assoc, Nat.add_comm 1 k]

theorem pixelLoop_rgb3 (io : TIFFImageIO) (isize : Nat) (src : List Nat)
    (hf : io.ImageFormat = Format.RGB_) (hspp : io.m_InternalImage.SamplesPerPixel = 3)
    (hlen : src.length = isize) (hbytes : ∀ v ∈ src, v < 256) (hsz : isize < 2 ^ 31) :
    ∀ (k cc fuel : Nat) (out : List Nat) (image : Nat), cc + 3 * k = isize → k < fuel →
      image + 3 * k ≤ out.length →
      pixelLoop fuel isize src cc io out image =
        .ok (io, overwrite out image (src.drop cc), image + 3 * k) := by
  intro k
  induction k with
  | zero =>
    intro cc fuel out image hcc hfuel _
    obtain ⟨f, rfl⟩ : ∃ f, fuel = f + 1 := ⟨fuel - 1, by omega⟩
    have : ¬ cc < isize := by omega
    have hd : List.drop cc src = [] := List.drop_eq_nil_of_le (by omega)
    simp [pixelLoop, this, hd, overwrite_nil]
  | succ k ih =>
    intro cc fuel out image hcc hfuel hroom
    obtain ⟨f, rfl⟩ : ∃ f, fuel = f + 1 := ⟨fuel - 1, by omega⟩
    have hlt : cc < isize := by omega
    have h0 : cc < src.length := by omega
    have h1 : cc + 1 < src.length := by omega
    have h2 : cc + 2 < src.length := by omega
    have hmod : (cc + 3) % 2 ^ 32 = cc + 3 := Nat.mod_eq_of_lt (by omega)
    have hstep := EvaluateImageAt_rgb3 io out src image cc src[cc] src[cc + 1] src[cc + 2] hf hspp
      (List.getElem?_eq_getElem h0) (List.getElem?_eq_getElem h1) (List.getElem?_eq_getElem h2)
      ⟨hbytes _ (List.getElem_mem h0), hbytes _ (List.getElem_mem h1),
        hbytes _ (List.getElem_mem h2)⟩ (by omega)
    have hlen1 : (overwrite out image [src[cc], src[cc + 1], src[cc + 2]]).length = out.length :=
      length_overwrite _ _ _ (by simp; omega)
    have hih := ih (cc + 3) f (overwrite out image [src[cc], src[cc + 1], src[cc + 2]])
      (image + 3) (by omega) (by omega) (by rw [hlen1]; omega)
    have hov := overwrite_overwrite out image [src[cc], src[cc + 1], src[cc + 2]]
      (src.drop (cc + 3)) (by simp; omega)
    simp only [List.length_cons, List.length_nil] at hov
    have hd : src.drop cc = [src[cc], src[cc + 1], src[cc + 2]] ++ src.drop (cc + 3) := by
      rw [List.drop_eq_getElem_cons h0, List.drop_eq_getElem_cons h1,
        List.drop_eq_getElem_cons h2]
      rfl
    rw [pixelLoop, if_pos hlt, hstep]
    simp only [hspp, hmod]
    rw [hih, hov, hd]
    simp [Nat.add_assoc, Nat.mul_add, Nat.add_comm]

/-! ## The scanline reader -/

/-- The row loop, for any format whose pixel loop turns a fetched scanline
`buf` into the `L` bytes `D buf`. -/
theorem rowLoop_spec (t : TIFF) (isize L : Nat) (F : Format) (M : TIFFReaderInternal)
    (D : List Nat → List Nat) (line : Nat → List Nat) (Good : List Nat → Prop)
    (hpix : ∀ (io : TIFFImageIO) (buf out : List Nat) (image : Nat), io.ImageFormat = F →
      io.m_InternalImage = M → Good buf → image + L ≤ out.length →
      (D buf).length = L ∧
      pixelLoop (2 ^ 32 + 1) isize buf 0 io out image =
        .ok (io, overwrite out image (D buf), image + L)) :
    ∀ (n row : Nat) (io : TIFFImageIO) (out : List Nat) (image : Nat), io.ImageFormat = F →
      io.m_InternalImage = M →
      (∀ k, k < n → t.readScanline (row + k) = some (line (row + k)) ∧ Good (line (row + k))) →
      image + n * L ≤ out.length →
      rowLoop n row t isize io out image =
        .ok (log io ((List.range' row n).map Event.TIFFReadScanline),
          overwrite out image ((List.range' row n).map fun r => D (line r)).flatten) := by
  intro n
  induction n with
  | zero =>
    intro row io out image _ _ _ _
    simp [rowLoop, log_nil, overwrite_nil]
  | succ n ih =>
    intro row io out image hF hM hlines hroom
    obtain ⟨hrd, hgood⟩ := hlines 0 (by omega)
    simp only [Nat.add_zero] at hrd hgood
    have hroom1 : image + L ≤ out.length := by
      have : (n + 1) * L = n * L + L := by ring
      omega
    obtain ⟨hDlen, hpl⟩ := hpix (log io [Event.TIFFReadScanline row]) (line row) out image
      hF hM hgood hroom1
    have hlen1 : (overwrite out image (D (line row))).length = out.length :=
      length_overwrite _ _ _ (by rw [hDlen]; exact hroom1)
    have hih := ih (row + 1) (log io [Event.TIFFReadScanline row])
      (overwrite out image (D (line row))) (image + L) hF hM
      (by
        intro k hk
        have := hlines (k + 1) (by omega)
        rwa [show row + (k + 1) = row + 1 + k by omega] at this)
      (by
        rw [hlen1]
        have : (n + 1) * L = n * L + L := by ring
        omega)
    have hov := overwrite_overwrite out image (D (line row))
      ((List.range' (row + 1) n).map fun r => D (line r)).flatten (by rw [hDlen]; exact hroom1)
    rw [hDlen] at hov
    rw [rowLoop, hrd]
    simp only [hpl]
    rw [hih, hov, log_log]
    simp [List.range'_succ]

theorem ReadGenericImage_spec (io : TIFFImageIO) (t : TIFF) (L : Nat)
    (D : List Nat → List Nat) (line : Nat → List Nat) (Good : List Nat → Prop)
    (out : List Nat) (width height : Nat)
    (himg : io.m_InternalImage.Image = some t)
    (hplanar : io.m_InternalImage.PlanarConfig = PLANARCONFIG_CONTIG)
    (hpix : ∀ (io1 : TIFFImageIO) (buf out : List Nat) (image : Nat),
      io1.ImageFormat = io.ImageFormat → io1.m_InternalImage = io.m_InternalImage → Good buf →
      image + L ≤ out.length →
      (D buf).length = L ∧
      pixelLoop (2 ^ 32 + 1) (t.scanlineSize % 2 ^ 32) buf 0 io1 out image =
        .ok (io1, overwrite out image (D buf), image + L))
    (hlines : ∀ k, k < (toInt32 height).toNat →
      t.readScanline k = some (line k) ∧ Good (line k))
    (hroom : (toInt32 height).toNat * L ≤ out.length) :
    ReadGenericImage io out width height =
      .ok (log io (Event.TIFFScanlineSize ::
            (List.range' 0 (toInt32 height).toNat).map Event.TIFFReadScanline),
          overwrite out 0
            ((List.range' 0 (toInt32 height).toNat).map fun r => D (line r)).flatten) := by
  unfold ReadGenericImage
  rw [himg]
  simp only [hplanar, if_true]
  rw [rowLoop_spec t (t.scanlineSize % 2 ^ 32) L io.ImageFormat io.m_InternalImage D line Good
    hpix (toInt32 height).toNat 0 (log io [Event.TIFFScanlineSize]) out 0 rfl rfl
    (by intro k hk; simpa using hlines k hk) (by simpa using hroom), log_log]
  rfl

/-- On the fast path `Read` classifies the stream and hands over to
`ReadGenericImage`. -/
theorem Read_fast (io io1 : TIFFImageIO) (out : List Nat) (f : Format)
    (hcan : io.m_InternalImage.CanRead = true)
    (hgf : GetFormat io = .ok (io1, f))
    (hf : f = Format.GRAYSCALE ∨ f = Format.RGB_ ∨ f = Format.PALETTE_RGB ∨
      f = Format.PALETTE_GRAYSCALE) :
    Read io out = ReadGenericImage io1 out (toUInt32 (toInt32 io.m_InternalImage.Width))
      (toUInt32 (toInt32 io.m_InternalImage.Height)) := by
  have hm := GetFormat_frame io io1 f hgf
  have hc : io.m_InternalImage.Compression = COMPRESSION_NONE :=
    ((CanRead_true_iff _).1 hcan).2.2.2.2.1
  have h1 : ¬ io.m_InternalImage.Compression = COMPRESSION_OJPEG := by rw [hc]; decide
  have h2 : ¬ io1.m_InternalImage.Compression = COMPRESSION_PACKBITS := by
    rw [hm, hc]; decide
  unfold Read
  rw [if_neg h1]
  simp only [hcan, Bool.true_eq_false, if_false, hgf, if_neg h2]
  rcases hf with h | h | h | h <;> subst h <;> rfl

/-- A height of `2 ^ 31` rows or more is negative as `(int)height`: the fast
path fetches no scanline and leaves the buffer as it is. -/
theorem Read_no_rows (io io1 : TIFFImageIO) (t : TIFF) (out : List Nat) (f : Format)
    (himg : io.m_InternalImage.Image = some t)
    (hcan : io.m_InternalImage.CanRead = true)
    (hgf : GetFormat io = .ok (io1, f))
    (hf : f = Format.GRAYSCALE ∨ f = Format.RGB_ ∨ f = Format.PALETTE_RGB ∨
      f = Format.PALETTE_GRAYSCALE)
    (h1 : 2 ^ 31 ≤ io.m_InternalImage.Height) (h2 : io.m_InternalImage.Height < 2 ^ 32) :
    Read io out = .ok (log io1 [Event.TIFFScanlineSize], out) := by
  have hm := GetFormat_frame io io1 f hgf
  have hplanar : io.m_InternalImage.PlanarConfig = PLANARCONFIG_CONTIG :=
    ((CanRead_true_iff _).1 hcan).2.2.2.2.2.2.1
  rw [Read_fast io io1 out f hcan hgf hf]
  unfold ReadGenericImage
  rw [hm, himg]
  simp only [hplanar, if_true]
  rw [rows_of_tall_height _ h1 h2]
  rfl

/-! ## The streams of the examples -/

theorem session_small : PaletteSession (sessionOn (paletteStream 1 [0, 65535] [0, 257] [0, 0]))
    (paletteStream 1 [0, 65535] [0, 257] [0, 0]) [0, 65535] [0, 257] [0, 0] :=
  ⟨rfl, rfl, by decide, rfl, rfl, rfl, rfl, Or.inl ⟨rfl, rfl, rfl⟩⟩

theorem wideTable_length (v : Nat) : (wideTable v).length = 2 ^ 16 := by
  unfold wideTable
  rw [List.length_append, List.length_replicate, List.length_cons, List.length_replicate]
  norm_num

theorem wideTable_low (v i : Nat) (h : i < 256) : (wideTable v).getD i 0 = 0 := by
  unfold wideTable
  rw [List.getD_eq_getElem?_getD,
    List.getElem?_append_left (by simp only [List.length_replicate]; exact h),
    List.getElem?_replicate, if_pos h]
  rfl

theorem wideTable_256 (v : Nat) : (wideTable v)[256]? = some v := by
  unfold wideTable
  rw [List.getElem?_append_right (by simp only [List.length_replicate]; exact le_refl _)]
  simp only [List.length_replicate, Nat.sub_self, List.getElem?_cons_zero]

theorem session_wide : PaletteSession
    (sessionOn (paletteStream 16 (wideTable 65535) (wideTable 0) (wideTable 0)))
    (paletteStream 16 (wideTable 65535) (wideTable 0) (wideTable 0))
    (wideTable 65535) (wideTable 0) (wideTable 0) :=
  ⟨rfl, rfl, by decide, rfl, wideTable_length _, wideTable_length _, wideTable_length _,
    Or.inl ⟨rfl, rfl, rfl⟩⟩

/-! ## The scanline writer and the stored stream -/

theorem extensionFound_image : extensionFound "image.tif" = true := by decide

theorem sessionOn_internal (t : TIFF) (w h : Nat)
    (hw : t.field TIFFTAG_IMAGEWIDTH = some w) (hh : t.field TIFFTAG_IMAGELENGTH = some h) :
    (sessionOn t).m_InternalImage =
      { Image := some t, Width := w % 2 ^ 32, Height := h % 2 ^ 32
        SamplesPerPixel := TIFFReaderInternal.getField t TIFFTAG_SAMPLESPERPIXEL 16 0
        Compression := TIFFReaderInternal.getField t TIFFTAG_COMPRESSION 16 0
        BitsPerSample := TIFFReaderInternal.getField t TIFFTAG_BITSPERSAMPLE 16 0
        Photometrics := TIFFReaderInternal.getField t TIFFTAG_PHOTOMETRIC 16 0
        PlanarConfig := TIFFReaderInternal.getField t TIFFTAG_PLANARCONFIG 16 0
        TileDepth := TIFFReaderInternal.getField t TIFFTAG_TILEDEPTH 32 0 } ∧
    (sessionOn t).ImageFormat = Format.NOFORMAT := by
  have e0 : ¬ ("image.tif" = "") := by decide
  unfold sessionOn CanReadFile
  rw [if_neg e0, extensionFound_image]
  simp [TIFFReaderInternal.Open, TIFFReaderInternal.Clean, TIFFReaderInternal.Initialize, hw, hh,
    TIFFImageIO.new, InitializeColors]

theorem storedField_append (a b : List Event) (tag : Nat) :
    storedField (a ++ b) tag =
      match storedField b tag with
      | some v => some v
      | none => storedField a tag := by
  unfold storedField
  rw [List.reverse_append, List.findSome?_append]
  cases h : List.findSome? _ b.reverse <;> simp

theorem storedScanline_append (a b : List Event) (row : Nat) :
    storedScanline (a ++ b) row =
      match storedScanline b row with
      | some v => some v
      | none => storedScanline a row := by
  unfold storedScanline
  rw [List.reverse_append, List.findSome?_append]
  cases h : List.findSome? _ b.reverse <;> simp

theorem storedField_scanlines (f : Nat → Event) (hf : ∀ r, ∃ d, f r = Event.TIFFWriteScanline r d)
    (l : List Nat) (tag : Nat) : storedField (l.map f) tag = none := by
  unfold storedField
  rw [List.findSome?_eq_none_iff]
  intro e he
  simp only [List.mem_reverse, List.mem_map] at he
  obtain ⟨r, -, rfl⟩ := he
  obtain ⟨d, hd⟩ := hf r
  rw [hd]

theorem storedScanline_single (r row : Nat) (d : List Nat) :
    storedScanline [Event.TIFFWriteScanline r d] row = if r = row then some d else none := by
  unfold storedScanline
  rw [List.reverse_singleton, List.findSome?_cons]
  by_cases h : r = row <;> simp [h]

theorem storedScanline_range (f : Nat → List Nat) (row : Nat) : ∀ n : Nat,
    storedScanline ((List.range' 0 n).map fun r => Event.TIFFWriteScanline r (f r)) row =
      if row < n then some (f row) else none := by
  intro n
  induction n with
  | zero => simp [storedScanline]
  | succ n ih =>
    rw [List.range'_1_concat, List.map_append, storedScanline_append, ih, List.map_singleton,
      storedScanline_single, Nat.zero_add]
    by_cases h : n = row
    · subst h
      simp
    · rw [if_neg h]
      by_cases h3 : row < n
      · rw [if_pos h3, if_pos (by omega)]
      · rw [if_neg h3, if_neg (by omega)]

theorem writeLoop_ok (env : WriteEnv) (hstore : ∀ r d, env.writeScanline r d = true)
    (buffer : List Nat) (L : Nat) : ∀ (n row : Nat) (io : TIFFImageIO),
    (row + n) * L ≤ buffer.length →
    writeLoop env n row buffer ((row * L : Nat) : Int) (L : Int) L io =
      .ok (log io ((List.range' row n).map fun r =>
        Event.TIFFWriteScanline r ((buffer.drop (r * L)).take L))) := by
  intro n
  induction n with
  | zero => intro row io _; simp [writeLoop, log_nil]
  | succ n ih =>
    intro row io hroom
    have h1 : (row + (n + 1)) * L = row * L + L + n * L := by ring
    have hc : ¬ (((row * L : Nat) : Int) < 0 ∨
        buffer.length < ((row * L : Nat) : Int).toNat + L) := by
      rw [Int.toNat_ofNat]
      omega
    have hnext : ((row * L : Nat) : Int) + (L : Int) = (((row + 1) * L : Nat) : Int) := by
      push_cast; ring
    rw [writeLoop, if_neg hc, Int.toNat_ofNat, hstore, if_pos rfl, hnext,
      ih (row + 1) _ (by rw [show (row + 1 + n) * L = row * L + L + n * L by ring]; omega),
      log_log]
    simp [List.range'_succ]

theorem writeTags_rgb8_none (env : WriteEnv) (w : TIFFImageIO)
    (hn : w.m_NumberOfComponents = 3)
    (hcp : w.m_Compression = CompressionPolicy.NoCompression) :
    writeTags env w 8 =
      [Event.TIFFSetField TIFFTAG_IMAGEWIDTH [w.m_Dimensions0 % 2 ^ 32],
       Event.TIFFSetField TIFFTAG_IMAGELENGTH [w.m_Dimensions1 % 2 ^ 32],
       Event.TIFFSetField TIFFTAG_ORIENTATION [ORIENTATION_TOPLEFT],
       Event.TIFFSetField TIFFTAG_SAMPLESPERPIXEL [3],
       Event.TIFFSetField TIFFTAG_BITSPERSAMPLE [8],
       Event.TIFFSetField TIFFTAG_PLANARCONFIG [PLANARCONFIG_CONTIG],
       Event.TIFFSetField TIFFTAG_COMPRESSION [COMPRESSION_NONE],
       Event.TIFFSetField TIFFTAG_PHOTOMETRIC [PHOTOMETRIC_RGB],
       Event.TIFFDefaultStripSize,
       Event.TIFFSetField TIFFTAG_ROWSPERSTRIP [env.defaultStripSize]] := by
  have e1 : toInt32 3 = 3 := by decide
  have e2 : toUInt32 3 = 3 := by decide
  simp [writeTags, hn, hcp, compressionCode, e1, e2, COMPRESSION_NONE, COMPRESSION_JPEG,
    COMPRESSION_LZW, COMPRESSION_DEFLATE]

theorem WriteSlice_rgb8 (env : WriteEnv) (w : TIFFImageIO) (fileName : String)
    (buffer : List Nat)
    (hopen : env.clientOpen fileName = true) (hstore : ∀ r d, env.writeScanline r d = true)
    (hn : w.m_NumberOfComponents = 3) (hct : w.m_ComponentType = IODataType.UCHAR)
    (hW : 3 * (w.m_Dimensions0 % 2 ^ 32) < 2 ^ 31)
    (hlen : (w.m_Dimensions1 % 2 ^ 32) * (3 * (w.m_Dimensions0 % 2 ^ 32)) ≤ buffer.length) :
    WriteSlice env w fileName buffer = .ok (log w (rgb8Calls env w fileName buffer)) := by
  have hrl : toInt32 (1 * (3 % 2 ^ 32) * (w.m_Dimensions0 % 2 ^ 32)) =
      ((3 * (w.m_Dimensions0 % 2 ^ 32) : Nat) : Int) := by
    rw [show 1 * (3 % 2 ^ 32) * (w.m_Dimensions0 % 2 ^ 32) = 3 * (w.m_Dimensions0 % 2 ^ 32) by
      norm_num]
    exact toInt32_of_lt _ hW
  have hsb : scanlineBytes (w.m_Dimensions0 % 2 ^ 32) (3 % 2 ^ 32 % 2 ^ 16) 8 =
      3 * (w.m_Dimensions0 % 2 ^ 32) := by
    unfold scanlineBytes
    norm_num
    omega
  have hwl := writeLoop_ok env hstore buffer (3 * (w.m_Dimensions0 % 2 ^ 32))
    (w.m_Dimensions1 % 2 ^ 32) 0
    (log w ([Event.ofstreamOpen fileName, Event.TIFFClientOpen fileName] ++ writeTags env w 8))
    (by rw [Nat.zero_add]; exact hlen)
  rw [Nat.zero_mul] at hwl
  unfold WriteSlice
  simp only [hct, hn, hopen, Bool.true_eq_false, if_false, hrl, hsb]
  rw [show ((0 : Nat) : Int) = 0 from rfl] at hwl
  rw [hwl]
  simp [log, rgb8Calls]

theorem flatten_slices (buffer : List Nat) (L : Nat) : ∀ (n r : Nat),
    ((List.range' r n).map fun k => (buffer.drop (k * L)).take L).flatten =
      (buffer.drop (r * L)).take (n * L) := by
  intro n
  induction n with
  | zero => intro r; simp
  | succ n ih =>
    intro r
    rw [List.range'_succ, List.map_cons, List.flatten_cons, ih (r + 1),
      show (n + 1) * L = L + n * L by ring, List.take_add, List.drop_drop,
      show (r + 1) * L = r * L + L by ring]

/-- The fields of the stream stored from the calls of `WriteSlice`. -/
theorem storedStream_rgb8 (env : WriteEnv) (w : TIFFImageIO) (fileName : String)
    (buffer : List Nat) (hn : w.m_NumberOfComponents = 3)
    (hcp : w.m_Compression = CompressionPolicy.NoCompression) :
    (∀ tag, storedField (rgb8Calls env w fileName buffer) tag =
      storedField (writeTags env w 8) tag) ∧
    (∀ row, storedScanline (rgb8Calls env w fileName buffer) row =
      if row < w.m_Dimensions1 % 2 ^ 32 then
        some ((buffer.drop (row * (3 * (w.m_Dimensions0 % 2 ^ 32)))).take
          (3 * (w.m_Dimensions0 % 2 ^ 32)))
      else none) := by
  constructor
  · intro tag
    unfold rgb8Calls
    have e1 : storedField [Event.TIFFClose, Event.ofstreamClose] tag = none := rfl
    have e2 : storedField [Event.ofstreamOpen fileName, Event.TIFFClientOpen fileName] tag =
        none := rfl
    rw [storedField_append, storedField_append, storedField_append,
      storedField_scanlines _ (fun r => ⟨_, rfl⟩), e1, e2]
    cases storedField (writeTags env w 8) tag <;> rfl
  · intro row
    unfold rgb8Calls
    rw [storedScanline_append, storedScanline_append, storedScanline_range,
      writeTags_rgb8_none env w hn hcp]
    split_ifs with h
    · rfl
    · rfl

theorem written_session (env : WriteEnv) (w : TIFFImageIO) (fileName : String)
    (buffer : List Nat) (hn : w.m_NumberOfComponents = 3)
    (hcp : w.m_Compression = CompressionPolicy.NoCompression) :
    (sessionOn (storedStream (rgb8Calls env w fileName buffer))).m_InternalImage =
      { Image := some (storedStream (rgb8Calls env w fileName buffer))
        Width := w.m_Dimensions0 % 2 ^ 32, Height := w.m_Dimensions1 % 2 ^ 32
        SamplesPerPixel := 3, Compression := COMPRESSION_NONE, BitsPerSample := 8
        Photometrics := PHOTOMETRIC_RGB, PlanarConfig := PLANARCONFIG_CONTIG, TileDepth := 0 } ∧
    (sessionOn (storedStream (rgb8Calls env w fileName buffer))).ImageFormat = Format.NOFORMAT ∧
    (storedStream (rgb8Calls env w fileName buffer)).scanlineSize =
      3 * (w.m_Dimensions0 % 2 ^ 32) := by
  have hf : ∀ tag, (storedStream (rgb8Calls env w fileName buffer)).field tag =
      storedField (writeTags env w 8) tag :=
    (storedStream_rgb8 env w fileName buffer hn hcp).1
  rw [writeTags_rgb8_none env w hn hcp] at hf
  have hsz : (storedStream (rgb8Calls env w fileName buffer)).scanlineSize =
      3 * (w.m_Dimensions0 % 2 ^ 32) := by
    show scanlineBytes ((storedField _ TIFFTAG_IMAGEWIDTH).getD 0)
      ((storedField _ TIFFTAG_SAMPLESPERPIXEL).getD 0 % 2 ^ 16)
      ((storedField _ TIFFTAG_BITSPERSAMPLE).getD 0) = _
    have h1 := hf TIFFTAG_IMAGEWIDTH
    have h2 := hf TIFFTAG_SAMPLESPERPIXEL
    have h3 := hf TIFFTAG_BITSPERSAMPLE
    change storedField _ _ = _ at h1 h2 h3
    rw [h1, h2, h3]
    show scanlineBytes (w.m_Dimensions0 % 2 ^ 32) (3 % 2 ^ 16) 8 = _
    unfold scanlineBytes
    norm_num
    omega
  obtain ⟨hm, hfmt⟩ := sessionOn_internal (storedStream (rgb8Calls env w fileName buffer))
    (w.m_Dimensions0 % 2 ^ 32) (w.m_Dimensions1 % 2 ^ 32) (by rw [hf]; rfl) (by rw [hf]; rfl)
  refine ⟨?_, hfmt, hsz⟩
  rw [hm]
  simp only [TIFFReaderInternal.getField, hf, Nat.mod_mod]
  rfl

/-- The fast path on an 8-bit RGB stream of three samples per pixel. -/
theorem Read_rgb3 (io : TIFFImageIO) (t : TIFF) (line : Nat → List Nat) (out : List Nat)
    (himg : io.m_InternalImage.Image = some t)
    (hcan : io.m_InternalImage.CanRead = true)
    (hfmt : io.ImageFormat = Format.NOFORMAT)
    (hphot : io.m_InternalImage.Photometrics = PHOTOMETRIC_RGB)
    (hspp : io.m_InternalImage.SamplesPerPixel = 3)
    (hW : 3 * io.m_InternalImage.Width < 2 ^ 31) (hH : io.m_InternalImage.Height < 2 ^ 31)
    (hsize : t.scanlineSize = 3 * io.m_InternalImage.Width)
    (hlines : ∀ row, row < io.m_InternalImage.Height →
      t.readScanline row = some (line row) ∧
      (line row).length = 3 * io.m_InternalImage.Width ∧ ∀ v ∈ line row, v < 256)
    (hout : io.m_InternalImage.Height * (3 * io.m_InternalImage.Width) ≤ out.length) :
    ∃ io1, Read io out =
      .ok (io1, overwrite out 0 ((List.range' 0 io.m_InternalImage.Height).map line).flatten) := by
  have hplanar : io.m_InternalImage.PlanarConfig = PLANARCONFIG_CONTIG :=
    ((CanRead_true_iff _).1 hcan).2.2.2.2.2.2.1
  have hgf : GetFormat io = .ok ({ io with ImageFormat := Format.RGB_ }, Format.RGB_) := by
    simp [GetFormat, hfmt, hphot]
  have hrows := rows_of_height io.m_InternalImage.Height hH
  have hisz : t.scanlineSize % 2 ^ 32 = 3 * io.m_InternalImage.Width := by
    rw [hsize]; exact Nat.mod_eq_of_lt (by omega)
  have hspec := ReadGenericImage_spec { io with ImageFormat := Format.RGB_ } t
    (3 * io.m_InternalImage.Width) (fun buf => buf) line
    (fun buf => buf.length = 3 * io.m_InternalImage.Width ∧ ∀ v ∈ buf, v < 256) out
    (toUInt32 (toInt32 io.m_InternalImage.Width)) (toUInt32 (toInt32 io.m_InternalImage.Height))
    himg hplanar
    (by
      intro io2 buf out2 image hF hM hgood hroom
      refine ⟨hgood.1, ?_⟩
      rw [hisz]
      have := pixelLoop_rgb3 io2 (3 * io.m_InternalImage.Width) buf hF
        (by rw [hM]; exact hspp) hgood.1 hgood.2 hW io.m_InternalImage.Width 0
        (2 ^ 32 + 1) out2 image (by omega) (by omega) hroom
      rw [this]
      simp)
    (by rw [hrows]; exact hlines)
    (by rw [hrows]; exact hout)
  rw [hrows] at hspec
  exact ⟨_, (Read_fast io _ out _ hcan hgf (Or.inr (Or.inl rfl))).trans hspec⟩

theorem replicate_ne (n a b : Nat) (hn : 0 < n) (hab : a ≠ b) :
    List.replicate n a ≠ List.replicate n b := by
  intro h
  have h2 : (List.replicate n a)[0]? = (List.replicate n b)[0]? := by rw [h]
  rw [List.getElem?_replicate, List.getElem?_replicate, if_pos hn, if_pos hn] at h2
  exact hab (Option.some.inj h2)

/-- Writing a buffer of `2 ^ 31` rows or more and reading the stored stream
back leaves the output buffer as it was. -/
theorem round_trip_tall (env : WriteEnv) (w : TIFFImageIO) (width height : Nat)
    (buffer out : List Nat)
    (hopen : env.clientOpen "image.tif" = true)
    (hstore : ∀ r d, env.writeScanline r d = true)
    (hw0 : 0 < width) (hW : 3 * width < 2 ^ 31) (hH1 : 2 ^ 31 ≤ height) (hH2 : height < 2 ^ 32)
    (hd0 : w.m_Dimensions0 = width) (hd1 : w.m_Dimensions1 = height)
    (hn : w.m_NumberOfComponents = 3) (hct : w.m_ComponentType = IODataType.UCHAR)
    (hcp : w.m_Compression = CompressionPolicy.NoCompression)
    (hlen : buffer.length = width * height * 3) :
    ∃ w1, WriteSlice env w "image.tif" buffer = .ok w1 ∧
      (sessionOn (storedStream (w1.trace.drop w.trace.length))).m_InternalImage.CanRead = true ∧
      ∃ r1, Read (sessionOn (storedStream (w1.trace.drop w.trace.length))) out =
        .ok (r1, out) := by
  have hwm : w.m_Dimensions0 % 2 ^ 32 = width := by rw [hd0]; exact Nat.mod_eq_of_lt (by omega)
  have hhm : w.m_Dimensions1 % 2 ^ 32 = height := by rw [hd1]; exact Nat.mod_eq_of_lt (by omega)
  have hlen2 : buffer.length = height * (3 * width) := by rw [hlen]; ring
  have hws := WriteSlice_rgb8 env w "image.tif" buffer hopen hstore hn hct
    (by rw [hwm]; exact hW) (by rw [hwm, hhm, hlen2])
  have htr : (log w (rgb8Calls env w "image.tif" buffer)).trace.drop w.trace.length =
      rgb8Calls env w "image.tif" buffer := by
    simp [log]
  obtain ⟨hm, hfmt, -⟩ := written_session env w "image.tif" buffer hn hcp
  rw [hwm, hhm] at hm
  have hcan : (sessionOn (storedStream (rgb8Calls env w "image.tif"
      buffer))).m_InternalImage.CanRead = true := by
    rw [CanRead_true_iff, hm]
    exact ⟨rfl, hw0, by show 0 < height; omega, Nat.succ_pos 2, rfl, Or.inl rfl, rfl, rfl, rfl⟩
  have hgf : GetFormat (sessionOn (storedStream (rgb8Calls env w "image.tif" buffer))) =
      .ok ({ sessionOn (storedStream (rgb8Calls env w "image.tif" buffer)) with
        ImageFormat := Format.RGB_ }, Format.RGB_) := by
    have hphot : (sessionOn (storedStream (rgb8Calls env w "image.tif"
        buffer))).m_InternalImage.Photometrics = PHOTOMETRIC_RGB := by rw [hm]
    simp [GetFormat, hfmt, hphot]
  refine ⟨_, hws, ?_, ?_⟩
  · rw [htr]; exact hcan
  · rw [htr]
    exact ⟨_, Read_no_rows _ _ _ _ _ (by rw [hm]) hcan hgf (Or.inr (Or.inl rfl))
      (by rw [hm]; exact hH1) (by rw [hm]; exact hH2)⟩

/-- The classification of a palette stream on its first computation, and its
memoisation: the probe looks at the indices below 256. -/
theorem GetFormat_palette (io : TIFFImageIO) (t : TIFF) (red green blue : List Nat)
    (hs : PaletteSession io t red green blue) (hfresh : io.ImageFormat = Format.NOFORMAT) :
    ∃ io1 f, GetFormat io = .ok (io1, f) ∧ GetFormat io1 = .ok (io1, f) ∧
      PaletteSession io1 t red green blue ∧
      ((f = Format.PALETTE_GRAYSCALE ∧ ∀ i, i < 256 →
          red.getD i 0 = green.getD i 0 ∧ red.getD i 0 = blue.getD i 0) ∨
       (f = Format.PALETTE_RGB ∧ ∃ i, i < 256 ∧
          ¬ (red.getD i 0 = green.getD i 0 ∧ red.getD i 0 = blue.getD i 0))) := by
  obtain ⟨io1, f, h1, hf, hs1, hres⟩ := paletteLoop_spec t red green blue 256 0 io hs
  have hne : io1.ImageFormat ≠ Format.NOFORMAT := by
    rw [hf]
    rcases hres with ⟨h, -⟩ | ⟨h, -⟩ <;> rw [h] <;> decide
  refine ⟨io1, f, ?_, ?_, hs1, ?_⟩
  · rw [GetFormat_fresh_palette io hfresh hs.photometric, h1]
  · rw [GetFormat_cached io1 hne, hf]
  · rcases hres with ⟨h, hall⟩ | ⟨h, i, -, hi, hn⟩
    · exact Or.inl ⟨h, fun i hi => hall i (Nat.zero_le _) (by omega)⟩
    · exact Or.inr ⟨h, i, by omega, hn⟩

/-! ## The claims -/

/-- C1: for a stream classified as RGB, `EvaluateImageAt` on the source pixel
`[r, g, b, a]` writes `r, g, b, 255 - a` into the four cells at `image` when
`SamplesPerPixel` is 4, and exactly `r, g, b` into the three cells at `image`
when it is 3; every other cell of the output keeps its value. -/
theorem C1_rgb_pixel (io io1 : TIFFImageIO) (out src : List Nat) (image source r g b : Nat)
    (hfmt : GetFormat io = .ok (io1, Format.RGB_))
    (hr : src[source]? = some r) (hg : src[source + 1]? = some g)
    (hb : src[source + 2]? = some b)
    (hbyte : r < 256 ∧ g < 256 ∧ b < 256) (hroom : image + 2 < out.length) :
    (∀ a, io.m_InternalImage.SamplesPerPixel = 4 → src[source + 3]? = some a → a < 256 →
      image + 3 < out.length →
      EvaluateImageAt io out image src source =
        .ok (io1, (((out.set image r).set (image + 1) g).set (image + 2) b).set (image + 3)
          (255 - a), 4)) ∧
    (io.m_InternalImage.SamplesPerPixel = 3 →
      EvaluateImageAt io out image src source =
        .ok (io1, ((out.set image r).set (image + 1) g).set (image + 2) b, 3)) := by
  have hfr := GetFormat_frame io io1 _ hfmt
  obtain ⟨h1, h2, h3⟩ := hbyte
  have e1 : r % 256 = r := Nat.mod_eq_of_lt h1
  have e2 : g % 256 = g := Nat.mod_eq_of_lt h2
  have e3 : b % 256 = b := Nat.mod_eq_of_lt h3
  have p0 : image < out.length := by omega
  have p1 : image + 1 < out.length := by omega
  constructor
  · intro a hspp ha ha256 hroom4
    have e4 : (255 - a) % 256 = 255 - a := Nat.mod_eq_of_lt (by omega)
    simp [EvaluateImageAt, hfmt, load, store, hr, hg, hb, ha, hfr, hspp, e1, e2, e3, e4,
      toUChar_complement a ha256, hroom4, hroom, p0, p1]
  · intro hspp
    simp [EvaluateImageAt, hfmt, load, store, hr, hg, hb, hfr, hspp, e1, e2, e3, hroom, p0, p1]

/-- Witness of C1: with photometric RGB and four samples per pixel the source
pixel `[10, 20, 30, 200]` is decoded to `[10, 20, 30, 55]`. -/
theorem C1_rgb_pixel_witness :
    EvaluateImageAt rgbaSession [0, 0, 0, 0] 0 [10, 20, 30, 200] 0 =
      .ok ({ rgbaSession with ImageFormat := Format.RGB_ }, [10, 20, 30, 55], 4) :=
  (C1_rgb_pixel rgbaSession { rgbaSession with ImageFormat := Format.RGB_ } [0, 0, 0, 0]
    [10, 20, 30, 200] 0 0 10 20 30 rfl (by decide) (by decide) (by decide)
    (by decide) (by decide)).1 200 (by decide) (by decide) (by decide) (by decide)

/-- C2, as stated, fails at a stream of `2 ^ 31` rows: the stream `tallGray` is
fast-path eligible, grayscale MinIsBlack with one sample per pixel, every one
of its scanlines reads successfully as `[7]`, and yet `Read` leaves every
output buffer as it was, because `row < (int)height` is false from the start;
in a buffer of zeros the byte of pixel (0, 0) stays 0 and is not the source
byte 7. -/
theorem C2_counterexample :
    (sessionOn tallGray).m_InternalImage.Image = some tallGray ∧
    (sessionOn tallGray).m_InternalImage.CanRead = true ∧
    (sessionOn tallGray).m_InternalImage.Photometrics = PHOTOMETRIC_MINISBLACK ∧
    (sessionOn tallGray).m_InternalImage.SamplesPerPixel = 1 ∧
    (sessionOn tallGray).m_InternalImage.Width = 1 ∧
    (sessionOn tallGray).m_InternalImage.Height = 2 ^ 31 ∧
    tallGray.scanlineSize = 1 ∧
    (∀ row, tallGray.readScanline row = some [7]) ∧
    (∀ out : List Nat, ∃ io1, Read (sessionOn tallGray) out = .ok (io1, out)) ∧
    (List.replicate (1 * 2 ^ 31) 0)[0 * 1 + 0]? = some 0 := by
  refine ⟨rfl, rfl, rfl, rfl, rfl, rfl, rfl, fun _ => rfl, ?_, ?_⟩
  · intro out
    exact ⟨_, Read_no_rows (sessionOn tallGray)
      { sessionOn tallGray with ImageFormat := Format.GRAYSCALE } tallGray out Format.GRAYSCALE
      rfl rfl rfl (Or.inl rfl) (by decide) (by decide)⟩
  · rw [List.getElem?_replicate, if_pos (by norm_num)]

/-- C2, amended: for a fast-path-eligible grayscale stream with one sample per
pixel, whose height is below `2 ^ 31` (so that it is itself as `(int)height`),
whose scanlines hold `Width` bytes and all read successfully, `Read` fills the
output so that for every pixel the byte at `row * Width + col` is the source
byte when the photometric model is MinIsBlack and 255 minus the source byte
when it is MinIsWhite. -/
theorem C2_gray_fast_path (io : TIFFImageIO) (t : TIFF) (line : Nat → List Nat)
    (out : List Nat)
    (himg : io.m_InternalImage.Image = some t)
    (hcan : io.m_InternalImage.CanRead = true)
    (hgray : io.m_InternalImage.Photometrics = PHOTOMETRIC_MINISBLACK ∨
      io.m_InternalImage.Photometrics = PHOTOMETRIC_MINISWHITE)
    (hfmt : io.ImageFormat = Format.NOFORMAT ∨ io.ImageFormat = Format.GRAYSCALE)
    (hspp : io.m_InternalImage.SamplesPerPixel = 1)
    (hw : io.m_InternalImage.Width < 2 ^ 32) (hh : io.m_InternalImage.Height < 2 ^ 31)
    (hsize : t.scanlineSize = io.m_InternalImage.Width)
    (hlines : ∀ row, row < io.m_InternalImage.Height →
      t.readScanline row = some (line row) ∧
      (line row).length = io.m_InternalImage.Width ∧ ∀ v ∈ line row, v < 256)
    (hout : io.m_InternalImage.Width * io.m_InternalImage.Height ≤ out.length) :
    ∃ io1 out1, Read io out = .ok (io1, out1) ∧ out1.length = out.length ∧
      ∀ row col v, row < io.m_InternalImage.Height → col < io.m_InternalImage.Width →
        (line row)[col]? = some v →
        out1[row * io.m_InternalImage.Width + col]? =
          some (if io.m_InternalImage.Photometrics = PHOTOMETRIC_MINISBLACK then v
                else 255 - v) := by
  have hplanar : io.m_InternalImage.PlanarConfig = PLANARCONFIG_CONTIG :=
    ((CanRead_true_iff _).1 hcan).2.2.2.2.2.2.1
  obtain ⟨io1, hgf, hf1, hm1⟩ : ∃ io1, GetFormat io = .ok (io1, Format.GRAYSCALE) ∧
      io1.ImageFormat = Format.GRAYSCALE ∧ io1.m_InternalImage = io.m_InternalImage := by
    rcases hfmt with h | h
    · refine ⟨{ io with ImageFormat := Format.GRAYSCALE }, ?_, rfl, rfl⟩
      have hn : ¬ (io.m_InternalImage.Photometrics = PHOTOMETRIC_RGB ∨
          io.m_InternalImage.Photometrics = PHOTOMETRIC_YCBCR) := by
        rcases hgray with g | g <;> rw [g] <;> decide
      have hy : io.m_InternalImage.Photometrics = PHOTOMETRIC_MINISWHITE ∨
          io.m_InternalImage.Photometrics = PHOTOMETRIC_MINISBLACK := hgray.symm
      simp [GetFormat, h, hn, hy]
    · exact ⟨io, by rw [GetFormat_cached io (by rw [h]; decide), h], h, rfl⟩
  have hrows := rows_of_height io.m_InternalImage.Height hh
  have hisz : t.scanlineSize % 2 ^ 32 = io.m_InternalImage.Width := by
    rw [hsize]; exact Nat.mod_eq_of_lt hw
  have hspec := ReadGenericImage_spec io1 t io.m_InternalImage.Width
    (fun buf => buf.map fun v =>
      if io.m_InternalImage.Photometrics = PHOTOMETRIC_MINISBLACK then v else 255 - v)
    line (fun buf => buf.length = io.m_InternalImage.Width ∧ ∀ v ∈ buf, v < 256) out
    (toUInt32 (toInt32 io.m_InternalImage.Width)) (toUInt32 (toInt32 io.m_InternalImage.Height))
    (by rw [hm1]; exact himg) (by rw [hm1]; exact hplanar)
    (by
      intro io2 buf out2 image hF hM hgood hroom
      refine ⟨by simp [hgood.1], ?_⟩
      rw [hisz]
      have := pixelLoop_gray io2 io.m_InternalImage.Width buf (by rw [hF, hf1])
        (by rw [hM, hm1]; exact hspp) hgood.1 hgood.2 hw io.m_InternalImage.Width 0
        (2 ^ 32 + 1) out2 image (by omega) (by omega) hroom
      rw [this, hM, hm1]
      simp)
    (by rw [hrows]; exact hlines)
    (by rw [hrows, Nat.mul_comm]; exact hout)
  rw [hrows] at hspec
  have huni : ∀ l ∈ (List.range' 0 io.m_InternalImage.Height).map (fun r => (line r).map fun v =>
      if io.m_InternalImage.Photometrics = PHOTOMETRIC_MINISBLACK then v else 255 - v),
      l.length = io.m_InternalImage.Width := by
    intro l hl
    simp only [List.mem_map, List.mem_range'_1] at hl
    obtain ⟨r, hr, rfl⟩ := hl
    simp [(hlines r (by omega)).2.1]
  have hflen := length_flatten_uniform io.m_InternalImage.Width _ huni
  simp only [List.length_map, List.length_range'] at hflen
  refine ⟨_, _, (Read_fast io io1 out _ hcan hgf (Or.inl rfl)).trans hspec, ?_, ?_⟩
  · exact length_overwrite _ _ _ (by rw [hflen, Nat.zero_add, Nat.mul_comm]; exact hout)
  · intro row col v hrow hcol hv
    have hk : row * io.m_InternalImage.Width + col <
        io.m_InternalImage.Height * io.m_InternalImage.Width := by
      have : (row + 1) * io.m_InternalImage.Width ≤
          io.m_InternalImage.Height * io.m_InternalImage.Width :=
        Nat.mul_le_mul_right _ hrow
      rw [Nat.succ_mul] at this
      omega
    have := getElem?_overwrite_mid out 0 _ (row * io.m_InternalImage.Width + col) (by omega)
      (by rw [hflen]; exact hk)
    rw [Nat.zero_add] at this
    rw [this, getElem?_flatten_uniform io.m_InternalImage.Width col hcol _ row huni
      ((line row).map fun v =>
        if io.m_InternalImage.Photometrics = PHOTOMETRIC_MINISBLACK then v else 255 - v)
      (by simp [List.getElem?_range', hrow])]
    simp [hv]

/-- Witness of C2: the MinIsWhite stream `grayTwoByTwo` of two rows
`[10, 20]` and `[11, 21]`. -/
theorem C2_gray_fast_path_witness :
    ∃ io1 out1, Read (sessionOn grayTwoByTwo) [0, 0, 0, 0] = .ok (io1, out1) ∧
      out1.length = [0, 0, 0, 0].length ∧
      ∀ row col v, row < (sessionOn grayTwoByTwo).m_InternalImage.Height →
        col < (sessionOn grayTwoByTwo).m_InternalImage.Width →
        ((fun row => [10 + row, 20 + row]) row)[col]? = some v →
        out1[row * (sessionOn grayTwoByTwo).m_InternalImage.Width + col]? =
          some (if (sessionOn grayTwoByTwo).m_InternalImage.Photometrics = PHOTOMETRIC_MINISBLACK
                then v else 255 - v) :=
  C2_gray_fast_path (sessionOn grayTwoByTwo) grayTwoByTwo (fun row => [10 + row, 20 + row])
    [0, 0, 0, 0] rfl rfl (Or.inr rfl) (Or.inl rfl) rfl (by decide) (by decide) rfl
    (by
      intro row hrow
      have hrow2 : row < 2 := hrow
      have h0 : grayTwoByTwo.readScanline row = some [10 + row, 20 + row] := by
        show (if row < 2 then some [10 + row, 20 + row] else none) = _
        rw [if_pos hrow2]
      refine ⟨h0, rfl, ?_⟩
      intro v hv
      simp only [List.mem_cons, List.mem_singleton, List.not_mem_nil, or_false] at hv
      omega)
    (by decide)

/-- C3: for a stream classified as PaletteRGB whose colormap has
`2 ^ BitsPerSample` entries, and a source sample `i` inside the table with the
16-bit entry `(ri, gi, bi)`, `EvaluateImageAt` writes the three bytes
`ri >> 8`, `gi >> 8`, `bi >> 8` at `image` and returns 3. -/
theorem C3_palette_rgb_pixel (io io1 : TIFFImageIO) (t : TIFF) (red green blue : List Nat)
    (out src : List Nat) (image source i ri gi bi : Nat)
    (hs : PaletteSession io t red green blue)
    (hfmt : GetFormat io = .ok (io1, Format.PALETTE_RGB))
    (hi : src[source]? = some i)
    (hr : red[i]? = some ri) (hg : green[i]? = some gi) (hb : blue[i]? = some bi)
    (h16 : ri < 2 ^ 16 ∧ gi < 2 ^ 16 ∧ bi < 2 ^ 16)
    (hroom : image + 2 < out.length) :
    ∃ io2, EvaluateImageAt io out image src source =
      .ok (io2, ((out.set image (ri / 2 ^ 8)).set (image + 1) (gi / 2 ^ 8)).set (image + 2)
        (bi / 2 ^ 8), 3) := by
  have hs1 := GetFormat_session io io1 t red green blue _ hs hfmt
  obtain ⟨io2, hg2, -, -, -⟩ := GetColor_palette io1 t red green blue i hs1
  have er : red.getD i 0 = ri := by simp [List.getD_eq_getElem?_getD, hr]
  have eg : green.getD i 0 = gi := by simp [List.getD_eq_getElem?_getD, hg]
  have eb : blue.getD i 0 = bi := by simp [List.getD_eq_getElem?_getD, hb]
  rw [er, eg, eb] at hg2
  obtain ⟨h1, h2, h3⟩ := h16
  have m1 : ri / 256 % 256 = ri / 256 := Nat.mod_eq_of_lt (by omega)
  have m2 : gi / 256 % 256 = gi / 256 := Nat.mod_eq_of_lt (by omega)
  have m3 : bi / 256 % 256 = bi / 256 := Nat.mod_eq_of_lt (by omega)
  have p0 : image < out.length := by omega
  have p1 : image + 1 < out.length := by omega
  refine ⟨io2, ?_⟩
  simp [EvaluateImageAt, hfmt, load, hi, hg2, store, p0, p1, hroom, m1, m2, m3]

/-- Witness of C3: the two-entry palette `[0, 65535]`, `[0, 257]`, `[0, 0]`
and the source sample 1, already classified as PaletteRGB. -/
theorem C3_palette_rgb_pixel_witness :
    ∃ io2, EvaluateImageAt
        { sessionOn (paletteStream 1 [0, 65535] [0, 257] [0, 0]) with
          ImageFormat := Format.PALETTE_RGB } [0, 0, 0] 0 [1] 0 =
      .ok (io2, (([0, 0, 0].set 0 (65535 / 2 ^ 8)).set (0 + 1) (257 / 2 ^ 8)).set (0 + 2)
        (0 / 2 ^ 8), 3) :=
  C3_palette_rgb_pixel
    { sessionOn (paletteStream 1 [0, 65535] [0, 257] [0, 0]) with
      ImageFormat := Format.PALETTE_RGB }
    { sessionOn (paletteStream 1 [0, 65535] [0, 257] [0, 0]) with
      ImageFormat := Format.PALETTE_RGB }
    (paletteStream 1 [0, 65535] [0, 257] [0, 0]) [0, 65535] [0, 257] [0, 0] [0, 0, 0] [1] 0 0 1
    65535 257 0
    ⟨rfl, rfl, by decide, rfl, rfl, rfl, rfl, Or.inl ⟨rfl, rfl, rfl⟩⟩
    rfl rfl rfl rfl rfl (by decide) (by decide)

/-- C4, as stated, fails at a height of `2 ^ 31`: a buffer of one column and
`2 ^ 31` rows of three bytes 7 is written with compression policy None over the
storing codec; the stream read back is fast-path eligible, and `Read` leaves
the output buffer of zeros as it was, because `row < (int)height` is false
from the start. -/
theorem C4_counterexample :
    (∃ w1, WriteSlice storingEnv (rgbWriter 1 (2 ^ 31)) "image.tif"
        (List.replicate (1 * 2 ^ 31 * 3) 7) = .ok w1 ∧
      (sessionOn (storedStream
        (w1.trace.drop (rgbWriter 1 (2 ^ 31)).trace.length))).m_InternalImage.CanRead = true ∧
      ∃ r1, Read (sessionOn (storedStream (w1.trace.drop (rgbWriter 1 (2 ^ 31)).trace.length)))
          (List.replicate (1 * 2 ^ 31 * 3) 0) = .ok (r1, List.replicate (1 * 2 ^ 31 * 3) 0)) ∧
    List.replicate (1 * 2 ^ 31 * 3) 0 ≠ List.replicate (1 * 2 ^ 31 * 3) 7 :=
  ⟨round_trip_tall storingEnv (rgbWriter 1 (2 ^ 31)) 1 (2 ^ 31)
      (List.replicate (1 * 2 ^ 31 * 3) 7) (List.replicate (1 * 2 ^ 31 * 3) 0) rfl
      (fun _ _ => rfl) (by decide) (by decide) (by decide) (by decide) rfl rfl rfl rfl rfl
      (List.length_replicate _ _),
    replicate_ne _ _ _ (by norm_num) (by decide)⟩


/-- C4, amended: for every width > 0 and height > 0 with `3 * width` and
`height` below `2 ^ 31` (the row length and the row count are `int` in the
code) and every 8-bit buffer of `width * height * 3` bytes, writing it with
`WriteSlice` under compression policy None, over a codec that stores the tags
and scanlines it is given, and reading the stored stream with `Read` in a new
session takes the fast path (`CanRead` is true) and yields an output buffer
equal to the original byte for byte. -/
theorem C4_round_trip (env : WriteEnv) (w : TIFFImageIO) (width height : Nat)
    (buffer out : List Nat)
    (hopen : env.clientOpen "image.tif" = true)
    (hstore : ∀ r d, env.writeScanline r d = true)
    (hw0 : 0 < width) (hh0 : 0 < height) (hW : 3 * width < 2 ^ 31) (hH : height < 2 ^ 31)
    (hd0 : w.m_Dimensions0 = width) (hd1 : w.m_Dimensions1 = height)
    (hn : w.m_NumberOfComponents = 3) (hct : w.m_ComponentType = IODataType.UCHAR)
    (hcp : w.m_Compression = CompressionPolicy.NoCompression)
    (hlen : buffer.length = width * height * 3) (hbytes : ∀ v ∈ buffer, v < 256)
    (hout : out.length = buffer.length) :
    ∃ w1, WriteSlice env w "image.tif" buffer = .ok w1 ∧
      (sessionOn (storedStream (w1.trace.drop w.trace.length))).m_InternalImage.CanRead = true ∧
      ∃ r1, Read (sessionOn (storedStream (w1.trace.drop w.trace.length))) out =
        .ok (r1, buffer) := by
  have hwm : w.m_Dimensions0 % 2 ^ 32 = width := by rw [hd0]; exact Nat.mod_eq_of_lt (by omega)
  have hhm : w.m_Dimensions1 % 2 ^ 32 = height := by rw [hd1]; exact Nat.mod_eq_of_lt (by omega)
  have hlen2 : buffer.length = height * (3 * width) := by rw [hlen]; ring
  have hws := WriteSlice_rgb8 env w "image.tif" buffer hopen hstore hn hct
    (by rw [hwm]; exact hW) (by rw [hwm, hhm, hlen2])
  have htr : (log w (rgb8Calls env w "image.tif" buffer)).trace.drop w.trace.length =
      rgb8Calls env w "image.tif" buffer := by
    simp [log]
  obtain ⟨hm, hfmt, hsz⟩ := written_session env w "image.tif" buffer hn hcp
  have hsl := (storedStream_rgb8 env w "image.tif" buffer hn hcp).2
  rw [hwm, hhm] at hm hsl
  rw [hwm] at hsz
  have hcan : (sessionOn (storedStream (rgb8Calls env w "image.tif"
      buffer))).m_InternalImage.CanRead = true := by
    rw [CanRead_true_iff, hm]
    exact ⟨rfl, hw0, hh0, Nat.succ_pos 2, rfl, Or.inl rfl, rfl, rfl, rfl⟩
  refine ⟨_, hws, ?_, ?_⟩
  · rw [htr]; exact hcan
  · rw [htr]
    obtain ⟨r1, hr⟩ := Read_rgb3 (sessionOn (storedStream (rgb8Calls env w "image.tif" buffer)))
      (storedStream (rgb8Calls env w "image.tif" buffer))
      (fun k => (buffer.drop (k * (3 * width))).take (3 * width)) out
      (by rw [hm]) hcan hfmt (by rw [hm]) (by rw [hm]) (by rw [hm]; exact hW)
      (by rw [hm]; exact hH) (by rw [hm]; exact hsz)
      (by
        rw [hm]
        intro row hrow
        have hrow2 : row < height := hrow
        refine ⟨?_, ?_, ?_⟩
        · show storedScanline _ row = _
          rw [hsl, if_pos hrow2]
        · rw [List.length_take, List.length_drop, hlen2]
          have : (row + 1) * (3 * width) ≤ height * (3 * width) :=
            Nat.mul_le_mul_right _ hrow2
          rw [Nat.succ_mul] at this
          show min (3 * width) (height * (3 * width) - row * (3 * width)) = 3 * width
          omega
        · intro v hv
          exact hbytes v (List.mem_of_mem_drop (List.mem_of_mem_take hv)))
      (by rw [hm, hout, hlen2])
    refine ⟨r1, ?_⟩
    rw [hr, hm]
    show Except.ok (r1, overwrite out 0 ((List.range' 0 height).map
      fun k => (buffer.drop (k * (3 * width))).take (3 * width)).flatten) = _
    rw [flatten_slices, Nat.zero_mul, List.drop_zero, List.take_of_length_le (by omega),
      overwrite_zero_full _ _ hout.symm]

/-- Witness of C4: a buffer of two rows of two pixels. -/
theorem C4_round_trip_witness :
    ∃ w1, WriteSlice storingEnv (rgbWriter 2 2) "image.tif"
        [1, 2, 3, 4, 5, 6, 7, 8, 9, 10, 11, 12] = .ok w1 ∧
      (sessionOn (storedStream
        (w1.trace.drop (rgbWriter 2 2).trace.length))).m_InternalImage.CanRead = true ∧
      ∃ r1, Read (sessionOn (storedStream (w1.trace.drop (rgbWriter 2 2).trace.length)))
          [0, 0, 0, 0, 0, 0, 0, 0, 0, 0, 0, 0] =
        .ok (r1, [1, 2, 3, 4, 5, 6, 7, 8, 9, 10, 11, 12]) :=
  C4_round_trip storingEnv (rgbWriter 2 2) 2 2 [1, 2, 3, 4, 5, 6, 7, 8, 9, 10, 11, 12]
    [0, 0, 0, 0, 0, 0, 0, 0, 0, 0, 0, 0] rfl (fun _ _ => rfl) (by decide) (by decide)
    (by decide) (by decide) rfl rfl rfl rfl rfl rfl (by decide) rfl

/-- C5, the code at the failing input: on the 16-bit stream `twoPixels16`,
which is not fast-path eligible and whose RGBA decode gives the words
`0x04030201` and `0x08070605`, `Read` writes both pixels at offset 0, since
`fimage` is never advanced: the eight output bytes end as
`[5, 6, 7, 8, 0, 0, 0, 0]`, not `[1, 2, 3, 4, 5, 6, 7, 8]`. -/
theorem C5_fallback_writes_every_pixel_at_offset_zero :
    (sessionOn twoPixels16).m_InternalImage.CanRead = false ∧
    (sessionOn twoPixels16).m_InternalImage.Compression ≠ COMPRESSION_OJPEG ∧
    (Read (sessionOn twoPixels16) [0, 0, 0, 0, 0, 0, 0, 0]).toOption.map Prod.snd =
      some [5, 6, 7, 8, 0, 0, 0, 0] := by
  decide

/-- C6, as stated, fails on the opened stream `noSamplesTag`, which carries no
`SamplesPerPixel` tag: the five conditions hold and `CanRead` is false. -/
theorem C6_counterexample :
    (sessionOn noSamplesTag).m_InternalImage.Image.isSome = true ∧
    ¬ ((sessionOn noSamplesTag).m_InternalImage.CanRead = true ↔
      ((sessionOn noSamplesTag).m_InternalImage.Compression = COMPRESSION_NONE ∧
       ((sessionOn noSamplesTag).m_InternalImage.Photometrics = PHOTOMETRIC_RGB ∨
        (sessionOn noSamplesTag).m_InternalImage.Photometrics = PHOTOMETRIC_MINISWHITE ∨
        (sessionOn noSamplesTag).m_InternalImage.Photometrics = PHOTOMETRIC_MINISBLACK ∨
        (sessionOn noSamplesTag).m_InternalImage.Photometrics = PHOTOMETRIC_PALETTE) ∧
       (sessionOn noSamplesTag).m_InternalImage.PlanarConfig = PLANARCONFIG_CONTIG ∧
       (sessionOn noSamplesTag).m_InternalImage.TileDepth = 0 ∧
       (sessionOn noSamplesTag).m_InternalImage.BitsPerSample = 8)) := by
  decide

/-- C6, amended: for the metadata of an opened stream, `CanRead` is true if
and only if width, height and samples per pixel are positive and the five
conditions hold: compression None, photometric RGB, MinIsWhite, MinIsBlack or
Palette, planar configuration Contiguous, tile depth 0, 8 bits per sample. -/
theorem C6_canRead_iff (r : TIFFReaderInternal) (hopen : r.Image.isSome = true) :
    r.CanRead = true ↔
      (r.Width > 0 ∧ r.Height > 0 ∧ r.SamplesPerPixel > 0 ∧
       r.Compression = COMPRESSION_NONE ∧
       (r.Photometrics = PHOTOMETRIC_RGB ∨ r.Photometrics = PHOTOMETRIC_MINISWHITE ∨
        r.Photometrics = PHOTOMETRIC_MINISBLACK ∨ r.Photometrics = PHOTOMETRIC_PALETTE) ∧
       r.PlanarConfig = PLANARCONFIG_CONTIG ∧ r.TileDepth = 0 ∧ r.BitsPerSample = 8) := by
  rw [CanRead_true_iff, hopen]
  simp

/-- Witness of C6: the metadata of the opened stream `grayTwoByTwo`. -/
theorem C6_canRead_iff_witness :
    (sessionOn grayTwoByTwo).m_InternalImage.CanRead = true ↔
      ((sessionOn grayTwoByTwo).m_InternalImage.Width > 0 ∧
       (sessionOn grayTwoByTwo).m_InternalImage.Height > 0 ∧
       (sessionOn grayTwoByTwo).m_InternalImage.SamplesPerPixel > 0 ∧
       (sessionOn grayTwoByTwo).m_InternalImage.Compression = COMPRESSION_NONE ∧
       ((sessionOn grayTwoByTwo).m_InternalImage.Photometrics = PHOTOMETRIC_RGB ∨
        (sessionOn grayTwoByTwo).m_InternalImage.Photometrics = PHOTOMETRIC_MINISWHITE ∨
        (sessionOn grayTwoByTwo).m_InternalImage.Photometrics = PHOTOMETRIC_MINISBLACK ∨
        (sessionOn grayTwoByTwo).m_InternalImage.Photometrics = PHOTOMETRIC_PALETTE) ∧
       (sessionOn grayTwoByTwo).m_InternalImage.PlanarConfig = PLANARCONFIG_CONTIG ∧
       (sessionOn grayTwoByTwo).m_InternalImage.TileDepth = 0 ∧
       (sessionOn grayTwoByTwo).m_InternalImage.BitsPerSample = 8) :=
  C6_canRead_iff (sessionOn grayTwoByTwo).m_InternalImage rfl

/-- C7, as stated, fails on a 16-bit palette: the colormap of the stream has
`2 ^ 16` entries, entry 256 has red 65535 and green 0, and `GetFormat` still
returns PaletteGrayscale, since it probes the indices below 256 only. -/
theorem C7_counterexample :
    PaletteSession (sessionOn (paletteStream 16 (wideTable 65535) (wideTable 0) (wideTable 0)))
      (paletteStream 16 (wideTable 65535) (wideTable 0) (wideTable 0))
      (wideTable 65535) (wideTable 0) (wideTable 0) ∧
    (wideTable 65535)[256]? = some 65535 ∧ (wideTable 0)[256]? = some 0 ∧
    ∃ io1, GetFormat (sessionOn (paletteStream 16 (wideTable 65535) (wideTable 0)
      (wideTable 0))) = .ok (io1, Format.PALETTE_GRAYSCALE) := by
  refine ⟨session_wide, wideTable_256 _, wideTable_256 _, ?_⟩
  obtain ⟨io1, f, h1, -, -, h2⟩ := GetFormat_palette _ _ _ _ _ session_wide rfl
  rcases h2 with ⟨hf, -⟩ | ⟨-, i, hi, hne⟩
  · exact ⟨io1, by rw [h1, hf]⟩
  · exfalso
    apply hne
    rw [wideTable_low _ i hi, wideTable_low _ i hi]
    exact ⟨rfl, rfl⟩

/-- C7, amended: for a palette stream (photometric Palette, bit depth 1, 2, 4,
8 or 16, colormap of `2 ^ BitsPerSample` entries) not yet classified,
`GetFormat` returns PaletteGrayscale if and only if every entry of the table
at an index below 256 has red = green = blue, and PaletteRGB otherwise; a
second call returns the same format. -/
theorem C7_palette_classification (io : TIFFImageIO) (t : TIFF) (red green blue : List Nat)
    (hs : PaletteSession io t red green blue) (hfresh : io.ImageFormat = Format.NOFORMAT) :
    ∃ io1 f, GetFormat io = .ok (io1, f) ∧ GetFormat io1 = .ok (io1, f) ∧
      (f = Format.PALETTE_GRAYSCALE ∨ f = Format.PALETTE_RGB) ∧
      (f = Format.PALETTE_GRAYSCALE ↔
        ∀ i ri gi bi, i < 256 → red[i]? = some ri → green[i]? = some gi →
          blue[i]? = some bi → ri = gi ∧ ri = bi) := by
  obtain ⟨io1, f, h1, h2, -, hres⟩ := GetFormat_palette io t red green blue hs hfresh
  refine ⟨io1, f, h1, h2, ?_, ?_⟩
  · rcases hres with ⟨h, -⟩ | ⟨h, -⟩
    · exact Or.inl h
    · exact Or.inr h
  · rcases hres with ⟨h, hall⟩ | ⟨h, i, hi, hn⟩
    · refine ⟨fun _ => ?_, fun _ => h⟩
      intro i ri gi bi hi hr hg hb
      have := hall i hi
      simp only [List.getD_eq_getElem?_getD, hr, hg, hb, Option.getD_some] at this
      exact this
    · refine ⟨fun hf => ?_, fun hall => ?_⟩
      · rw [h] at hf
        exact absurd hf (by decide)
      · exfalso
        apply hn
        by_cases hlt : i < 2 ^ io.m_InternalImage.BitsPerSample
        · have hrl : i < red.length := by rw [hs.red_length]; exact hlt
          have hgl : i < green.length := by rw [hs.green_length]; exact hlt
          have hbl : i < blue.length := by rw [hs.blue_length]; exact hlt
          have hr : red[i]? = some red[i] := List.getElem?_eq_getElem hrl
          have hg : green[i]? = some green[i] := List.getElem?_eq_getElem hgl
          have hb : blue[i]? = some blue[i] := List.getElem?_eq_getElem hbl
          have := hall i _ _ _ hi hr hg hb
          simp only [List.getD_eq_getElem?_getD, hr, hg, hb, Option.getD_some]
          exact this
        · have e1 : red.getD i 0 = 0 := by
            rw [List.getD_eq_default]; rw [hs.red_length]; omega
          have e2 : green.getD i 0 = 0 := by
            rw [List.getD_eq_default]; rw [hs.green_length]; omega
          have e3 : blue.getD i 0 = 0 := by
            rw [List.getD_eq_default]; rw [hs.blue_length]; omega
          rw [e1, e2, e3]
          exact ⟨rfl, rfl⟩

/-- Witness of C7: the palette `[0, 65535]`, `[0, 257]`, `[0, 0]` of a 1-bit
stream. -/
theorem C7_palette_classification_witness :
    ∃ io1 f, GetFormat (sessionOn (paletteStream 1 [0, 65535] [0, 257] [0, 0])) = .ok (io1, f) ∧
      GetFormat io1 = .ok (io1, f) ∧
      (f = Format.PALETTE_GRAYSCALE ∨ f = Format.PALETTE_RGB) ∧
      (f = Format.PALETTE_GRAYSCALE ↔
        ∀ i ri gi bi, i < 256 → [0, 65535][i]? = some ri → [0, 257][i]? = some gi →
          [0, 0][i]? = some bi → ri = gi ∧ ri = bi) :=
  C7_palette_classification _ _ _ _ _ session_small rfl

/-- C8: for a stream not yet classified whose photometric model is not
Palette, `GetFormat` returns RGB when the model is RGB or YCbCr, Grayscale
when it is MinIsWhite or MinIsBlack, and Unsupported (`OTHER`) for every other
value, and memoises what it returns. -/
theorem C8_classify_non_palette (io : TIFFImageIO) (hfresh : io.ImageFormat = Format.NOFORMAT)
    (hnp : io.m_InternalImage.Photometrics ≠ PHOTOMETRIC_PALETTE) :
    ((io.m_InternalImage.Photometrics = PHOTOMETRIC_RGB ∨
        io.m_InternalImage.Photometrics = PHOTOMETRIC_YCBCR) →
      GetFormat io = .ok ({ io with ImageFormat := Format.RGB_ }, Format.RGB_)) ∧
    ((io.m_InternalImage.Photometrics = PHOTOMETRIC_MINISWHITE ∨
        io.m_InternalImage.Photometrics = PHOTOMETRIC_MINISBLACK) →
      GetFormat io = .ok ({ io with ImageFormat := Format.GRAYSCALE }, Format.GRAYSCALE)) ∧
    ((io.m_InternalImage.Photometrics ≠ PHOTOMETRIC_RGB ∧
        io.m_InternalImage.Photometrics ≠ PHOTOMETRIC_YCBCR ∧
        io.m_InternalImage.Photometrics ≠ PHOTOMETRIC_MINISWHITE ∧
        io.m_InternalImage.Photometrics ≠ PHOTOMETRIC_MINISBLACK) →
      GetFormat io = .ok ({ io with ImageFormat := Format.OTHER }, Format.OTHER)) := by
  refine ⟨?_, ?_, ?_⟩
  · intro h
    simp [GetFormat, hfresh, h]
  · intro h
    have h2 : ¬ (io.m_InternalImage.Photometrics = PHOTOMETRIC_RGB ∨
        io.m_InternalImage.Photometrics = PHOTOMETRIC_YCBCR) := by
      rcases h with h | h <;> rw [h] <;> decide
    simp [GetFormat, hfresh, h, h2]
  · rintro ⟨h1, h2, h3, h4⟩
    simp [GetFormat, hfresh, h1, h2, h3, h4, hnp]

/-- Witness of C8: the MinIsBlack stream `noSamplesTag` is classified as
Grayscale. -/
theorem C8_classify_non_palette_witness :
    GetFormat (sessionOn noSamplesTag) =
      .ok ({ sessionOn noSamplesTag with ImageFormat := Format.GRAYSCALE }, Format.GRAYSCALE) :=
  (C8_classify_non_palette (sessionOn noSamplesTag) rfl (by decide)).2.1 (Or.inr rfl)

/-- C9: on a palette stream with a table of `red.length` entries, a lookup at
an index below 0 or at or above the table length yields the zero colour, and
the calls it adds to the trace hold no read of a table entry, whether the
tables were cached before or not. -/
theorem C9_index_out_of_range (io : TIFFImageIO) (t : TIFF) (red green blue : List Nat)
    (index : Int) (hs : PaletteSession io t red green blue)
    (hi : index < 0 ∨ index ≥ red.length) :
    ∃ io1 es, GetColor io index = .ok (io1, 0, 0, 0) ∧ io1.trace = io.trace ++ es ∧
      ∀ k, Event.colorRead k ∉ es := by
  have hi2 : index < 0 ∨ index ≥ 2 ^ io.m_InternalImage.BitsPerSample := by
    rw [hs.red_length] at hi
    push_cast at hi
    exact hi
  obtain ⟨io1, es, h1, -, -, -, h2, h3⟩ := GetColor_outOfRange io t red green blue index hs hi2
  exact ⟨io1, es, h1, h2, h3⟩

/-- Witness of C9: index 2 in a table of two entries. -/
theorem C9_index_out_of_range_witness :
    ∃ io1 es, GetColor (sessionOn (paletteStream 1 [0, 65535] [0, 257] [0, 0])) 2 =
        .ok (io1, 0, 0, 0) ∧
      io1.trace = (sessionOn (paletteStream 1 [0, 65535] [0, 257] [0, 0])).trace ++ es ∧
      ∀ k, Event.colorRead k ∉ es :=
  C9_index_out_of_range _ _ _ _ _ 2 session_small (Or.inr (by decide))

/-- C10: when the compression of the stream is Old-JPEG, `Read` returns at
once: the session, and with it the trace of codec calls, is unchanged (no
scanline is fetched, no RGBA decode is requested) and so is every byte of the
output buffer, whatever the other tags are. -/
theorem C10_old_jpeg_untouched (io : TIFFImageIO) (buffer : List Nat)
    (h : io.m_InternalImage.Compression = COMPRESSION_OJPEG) :
    Read io buffer = .ok (io, buffer) := by
  simp [Read, h]

/-- Witness of C10: the Old-JPEG stream `oldJpeg` and a buffer of three
bytes. -/
theorem C10_old_jpeg_untouched_witness :
    Read (sessionOn oldJpeg) [9, 9, 9] = .ok (sessionOn oldJpeg, [9, 9, 9]) :=
  C10_old_jpeg_untouched (sessionOn oldJpeg) [9, 9, 9] rfl

/-! ## Reopening, sequences of lookups, file names, the calls of the writer -/

/-- What `Clean` leaves. -/
theorem Clean_fields (r : TIFFReaderInternal) :
    r.Clean.1 = { Image := none, Width := 0, Height := 0, SamplesPerPixel := 0, Compression := 0,
                  BitsPerSample := 0, Photometrics := 0, PlanarConfig := 0, TileDepth := 0 } := rfl

/-- `CanReadFile` leaves the memoised format and the colour count as they
were, and a palette pointer null or non-null as it was. -/
theorem CanReadFile_keeps_memo (fs : String → FileEntry) (io : TIFFImageIO) (file : String) :
    (CanReadFile fs io file).2.ImageFormat = io.ImageFormat ∧
    (CanReadFile fs io file).2.TotalColors = io.TotalColors ∧
    (CanReadFile fs io file).2.ColorRed.isSome = io.ColorRed.isSome := by
  have hf : ∀ l, (freedBy l io.ColorRed).isSome = io.ColorRed.isSome := by
    intro l
    unfold freedBy
    cases io.ColorRed with
    | none => rfl
    | some c => dsimp only; split <;> rfl
  unfold CanReadFile
  dsimp only
  split_ifs <;> first | exact ⟨rfl, rfl, rfl⟩ | exact ⟨rfl, rfl, hf _⟩

theorem colormapRequests_colorRead (k : Nat) (es : List Event) :
    colormapRequests (Event.colorRead k :: es) = colormapRequests es := by
  simp [colormapRequests, List.count_cons]

theorem colormapRequests_append (a b : List Event) :
    colormapRequests (a ++ b) = colormapRequests a + colormapRequests b := by
  simp [colormapRequests, List.count_append]

/-- With the tables cached, a lookup makes no call into the codec. -/
theorem GetColor_filled (io : TIFFImageIO) (red green blue : List Nat) (index : Int)
    (hr : io.ColorRed = some red) (hg : io.ColorGreen = some green)
    (hb : io.ColorBlue = some blue) (htot : 0 < io.TotalColors)
    (hlen : ∀ i : Nat, (i : Int) < io.TotalColors →
      i < red.length ∧ i < green.length ∧ i < blue.length) :
    ∃ c es, GetColor io index = .ok (log io es, c) ∧ colormapRequests es = 0 := by
  have hc : cachedColors io = some (red, green, blue) := by
    simp [cachedColors, hr, hg, hb, htot]
  by_cases hneg : index < 0
  · exact ⟨(0, 0, 0), [], by simp [GetColor, hneg, log_nil], rfl⟩
  · by_cases hge : index ≥ io.TotalColors
    · refine ⟨(0, 0, 0), [], ?_, rfl⟩
      unfold GetColor
      simp [hneg, hc, hge, log_nil]
    · have hi : ((index.toNat : Nat) : Int) < io.TotalColors := by
        rw [Int.toNat_of_nonneg (by omega)]; omega
      obtain ⟨h1, h2, h3⟩ := hlen index.toNat hi
      refine ⟨(red.getD index.toNat 0, green.getD index.toNat 0, blue.getD index.toNat 0),
        [Event.colorRead index.toNat], ?_, colormapRequests_colorRead _ []⟩
      unfold GetColor
      simp only [if_neg hneg, hc, if_neg hge, readColor_ok red green blue index.toNat h1 h2 h3]

/-- A sequence of lookups on cached tables never asks for the colormap. -/
theorem lookupAll_filled (red green blue : List Nat) : ∀ (rest : List Int) (io : TIFFImageIO),
    io.ColorRed = some red → io.ColorGreen = some green → io.ColorBlue = some blue →
    0 < io.TotalColors →
    (∀ i : Nat, (i : Int) < io.TotalColors →
      i < red.length ∧ i < green.length ∧ i < blue.length) →
    ∃ es, lookupAll io rest = .ok (log io es) ∧ colormapRequests es = 0 := by
  intro rest
  induction rest with
  | nil => intro io _ _ _ _ _; exact ⟨[], by simp [lookupAll, log_nil], rfl⟩
  | cons index rest ih =>
    intro io hr hg hb htot hlen
    obtain ⟨c, es, h1, h2⟩ := GetColor_filled io red green blue index hr hg hb htot hlen
    obtain ⟨es2, h3, h4⟩ := ih (log io es) hr hg hb htot hlen
    refine ⟨es ++ es2, ?_, ?_⟩
    · simp only [lookupAll, h1, h3, log_log]
    · rw [colormapRequests_append, h2, h4]

/-- The first lookup inside the table asks for the colormap at most once and
leaves the tables cached. -/
theorem GetColor_first (io : TIFFImageIO) (t : TIFF) (red green blue : List Nat) (i : Nat)
    (hs : PaletteSession io t red green blue) (hi : i < red.length) :
    ∃ io1 c es, GetColor io i = .ok (io1, c) ∧ io1.trace = io.trace ++ es ∧
      colormapRequests es ≤ 1 ∧
      io1.ColorRed = some red ∧ io1.ColorGreen = some green ∧ io1.ColorBlue = some blue ∧
      io1.TotalColors = 2 ^ io.m_InternalImage.BitsPerSample := by
  have hi2 : i < 2 ^ io.m_InternalImage.BitsPerSample := by rw [← hs.red_length]; exact hi
  have hrc := readColor_ok red green blue i hi (by rw [hs.green_length]; exact hi2)
    (by rw [hs.blue_length]; exact hi2)
  have hpos := pow_bits_pos io.m_InternalImage.BitsPerSample
  have hiI : ¬ ((i : Int) ≥ 2 ^ io.m_InternalImage.BitsPerSample) := by
    have : ((i : Nat) : Int) < ((2 ^ io.m_InternalImage.BitsPerSample : Nat) : Int) := by
      exact_mod_cast hi2
    push_cast at this
    omega
  rcases hs.cache with ⟨c1, c2, c3⟩ | ⟨c1, c2, c3, htot⟩
  · have hc : cachedColors io = none := by simp [cachedColors, c1]
    refine ⟨log { log (log io [Event.TIFFGetField TIFFTAG_PHOTOMETRIC])
        [Event.TIFFGetField TIFFTAG_COLORMAP] with
        TotalColors := 2 ^ io.m_InternalImage.BitsPerSample
        ColorRed := some red, ColorGreen := some green, ColorBlue := some blue }
      [Event.colorRead i], (red.getD i 0, green.getD i 0, blue.getD i 0),
      [Event.TIFFGetField TIFFTAG_PHOTOMETRIC, Event.TIFFGetField TIFFTAG_COLORMAP,
      Event.colorRead i], ?_, ?_, ?_, ?_⟩
    · unfold GetColor
      simp only [hc, hs.image, hs.photometric, hs.bits, hs.colormap]
      simp [hiI, hrc]
    · simp [log]
    · simp [colormapRequests, List.count_cons, TIFFTAG_PHOTOMETRIC, TIFFTAG_COLORMAP]
    · exact ⟨rfl, rfl, rfl, rfl⟩
  · have hc : cachedColors io = some (red, green, blue) := by
      simp [cachedColors, c1, c2, c3, htot, hpos]
    refine ⟨log io [Event.colorRead i], (red.getD i 0, green.getD i 0, blue.getD i 0),
      [Event.colorRead i], ?_, rfl,
      by rw [colormapRequests_colorRead]; exact Nat.zero_le _, c1, c2, c3,
      htot⟩
    unfold GetColor
    simp [hc, htot, hiI, hrc]

/-- The loop of `WriteSlice` ends in no fault but an access outside the buffer. -/
theorem writeLoop_error (env : WriteEnv) (buffer : List Nat) (rl : Int) (lb : Nat) :
    ∀ (n row : Nat) (outPtr : Int) (io : TIFFImageIO) (f : Fault),
    writeLoop env n row buffer outPtr rl lb io = .error f → f = Fault.outOfBounds := by
  intro n
  induction n with
  | zero => intro row outPtr io f h; simp [writeLoop] at h
  | succ n ih =>
    intro row outPtr io f h
    unfold writeLoop at h
    split_ifs at h
    · cases h; rfl
    · exact ih _ _ _ _ h

/-- The trace the loop of `WriteSlice` leaves is the list of its calls. -/
theorem writeLoop_trace (env : WriteEnv) (buffer : List Nat) (rl : Int) (lb : Nat) :
    ∀ (n row : Nat) (outPtr : Int) (io io1 : TIFFImageIO),
    writeLoop env n row buffer outPtr rl lb io = .ok io1 →
    io1 = log io (writeLoopCalls env n row buffer outPtr rl lb) := by
  intro n
  induction n with
  | zero =>
    intro row outPtr io io1 h
    simp only [writeLoop, Except.ok.injEq] at h
    simp [writeLoopCalls, log_nil, h]
  | succ n ih =>
    intro row outPtr io io1 h
    unfold writeLoop at h
    unfold writeLoopCalls
    split_ifs at h ⊢ with h1 h2
    · rw [ih _ _ _ _ h, log_log]
      rfl
    · cases h
      rfl

/-- The trace `WriteSlice` leaves when it returns is the list of its calls. -/
theorem WriteSlice_trace (env : WriteEnv) (io io1 : TIFFImageIO) (fileName : String)
    (buffer : List Nat) (h : WriteSlice env io fileName buffer = .ok io1) :
    io1 = log io (WriteSliceCalls env io fileName buffer) := by
  unfold WriteSlice at h
  unfold WriteSliceCalls
  dsimp only at h ⊢
  split at h
  · cases h
  · rename_i bps size heq
    split_ifs at h ⊢ with hc
    · cases h; rfl
    · split at h
      · cases h
      · rename_i io2 hw
        cases h
        rw [hw]
        have hw2 := writeLoop_trace _ _ _ _ _ _ _ _ _ hw
        rw [hw2, log_log, log_log]
        simp

/-- With a component type the first `switch` accepts, `WriteSlice` does not
throw. -/
theorem WriteSlice_accepted (env : WriteEnv) (io : TIFFImageIO) (fileName : String)
    (buffer : List Nat)
    (hct : io.m_ComponentType = IODataType.UCHAR ∨ io.m_ComponentType = IODataType.USHORT) :
    WriteSlice env io fileName buffer ≠ .error Fault.exception := by
  intro h
  unfold WriteSlice at h
  dsimp only at h
  rcases hct with hc | hc <;> rw [hc] at h <;> dsimp only at h <;> split_ifs at h <;>
    split at h
  all_goals first
    | (rename_i f hw
       cases h
       exact absurd (writeLoop_error _ _ _ _ _ _ _ _ _ hw) (by decide))
    | cases h

theorem mem_writeLoopCalls (env : WriteEnv) (buffer : List Nat) (rl : Int) (lb : Nat) :
    ∀ (n row : Nat) (outPtr : Int) (e : Event),
    e ∈ writeLoopCalls env n row buffer outPtr rl lb → ∃ r d, e = Event.TIFFWriteScanline r d := by
  intro n
  induction n with
  | zero => intro row outPtr e h; simp [writeLoopCalls] at h
  | succ n ih =>
    intro row outPtr e h
    unfold writeLoopCalls at h
    split_ifs at h with h1 h2
    · simp at h
    · rcases List.mem_cons.mp h with h | h
      · exact ⟨_, _, h⟩
      · exact ih _ _ _ h
    · rcases List.mem_cons.mp h with h | h
      · exact ⟨_, _, h⟩
      · simp at h

theorem storedField_of_scanlines (l : List Event) (tag : Nat)
    (h : ∀ e ∈ l, ∃ r d, e = Event.TIFFWriteScanline r d) : storedField l tag = none := by
  unfold storedField
  rw [List.findSome?_eq_none_iff]
  intro e he
  obtain ⟨r, d, rfl⟩ := h e (List.mem_reverse.mp he)
  rfl

/-- The tags of a stream are those `writeTags` sets. -/
theorem storedField_WriteSliceCalls (env : WriteEnv) (io : TIFFImageIO) (fileName : String)
    (buffer : List Nat) (bps size : Nat)
    (hct : (io.m_ComponentType = IODataType.UCHAR ∧ bps = 8 ∧ size = 1) ∨
      (io.m_ComponentType = IODataType.USHORT ∧ bps = 16 ∧ size = 2))
    (hopen : env.clientOpen fileName = true) (tag : Nat) :
    storedField (WriteSliceCalls env io fileName buffer) tag =
      storedField (writeTags env io bps) tag := by
  have e2 : storedField [Event.ofstreamOpen fileName, Event.TIFFClientOpen fileName] tag =
      none := rfl
  have key : ∀ (a : List Event) (c : List Event), (c = [] ∨ c = [Event.TIFFClose,
      Event.ofstreamClose]) → (∀ e ∈ a, ∃ r d, e = Event.TIFFWriteScanline r d) →
      storedField ([Event.ofstreamOpen fileName, Event.TIFFClientOpen fileName] ++
        writeTags env io bps ++ a ++ c) tag = storedField (writeTags env io bps) tag := by
    intro a c hc ha
    have e1 : storedField c tag = none := by
      rcases hc with h | h <;> rw [h] <;> rfl
    rw [storedField_append, storedField_append, storedField_append,
      storedField_of_scanlines a tag ha, e1, e2]
    cases storedField (writeTags env io bps) tag <;> rfl
  unfold WriteSliceCalls
  dsimp only
  rcases hct with ⟨hc, hb, hs⟩ | ⟨hc, hb, hs⟩ <;> subst hb <;> subst hs <;> rw [hc] <;>
    dsimp only <;> rw [if_neg (by rw [hopen]; decide)] <;> apply key
  all_goals first
    | (intro e he; exact mem_writeLoopCalls _ _ _ _ _ _ _ e he)
    | (split
       · exact Or.inr rfl
       · exact Or.inl rfl)

theorem reopened_internal (io : TIFFImageIO) (t : TIFF) :
    (reopened io t).m_InternalImage = (sessionOn t).m_InternalImage := by
  have e0 : ¬ ("image.tif" = "") := by decide
  unfold reopened sessionOn CanReadFile
  rw [if_neg e0, extensionFound_image]
  simp only [TIFFReaderInternal.Open, Clean_fields]
  split_ifs <;> first | rfl | (exfalso; assumption)

/-- The four tags of the compression policy among those `writeTags` sets. -/
theorem storedField_writeTags (env : WriteEnv) (io : TIFFImageIO) (bps : Nat) :
    storedField (writeTags env io bps) TIFFTAG_COMPRESSION =
      some (compressionCode io.m_Compression) ∧
    storedField (writeTags env io bps) TIFFTAG_PHOTOMETRIC =
      some (if io.m_Compression = CompressionPolicy.JPEG then PHOTOMETRIC_YCBCR
        else PHOTOMETRIC_RGB) ∧
    storedField (writeTags env io bps) TIFFTAG_JPEGQUALITY =
      (if io.m_Compression = CompressionPolicy.JPEG then some 75 else none) ∧
    storedField (writeTags env io bps) TIFFTAG_PREDICTOR =
      (if io.m_Compression = CompressionPolicy.LZW ∨ io.m_Compression = CompressionPolicy.Deflate
        then some 2 else none) := by
  unfold writeTags
  dsimp only
  by_cases h3 : toInt32 io.m_NumberOfComponents > 3
  · rw [if_pos h3]
    cases hc : io.m_Compression <;>
      simp [storedField, compressionCode, COMPRESSION_NONE, COMPRESSION_LZW, COMPRESSION_JPEG,
        COMPRESSION_PACKBITS, COMPRESSION_DEFLATE, TIFFTAG_IMAGEWIDTH, TIFFTAG_IMAGELENGTH,
        TIFFTAG_BITSPERSAMPLE, TIFFTAG_COMPRESSION, TIFFTAG_PHOTOMETRIC, TIFFTAG_ORIENTATION,
        TIFFTAG_SAMPLESPERPIXEL, TIFFTAG_ROWSPERSTRIP, TIFFTAG_PLANARCONFIG, TIFFTAG_PREDICTOR,
        TIFFTAG_EXTRASAMPLES, TIFFTAG_JPEGQUALITY, TIFFTAG_JPEGCOLORMODE]
  · rw [if_neg h3]
    cases hc : io.m_Compression <;>
      simp [storedField, compressionCode, COMPRESSION_NONE, COMPRESSION_LZW, COMPRESSION_JPEG,
        COMPRESSION_PACKBITS, COMPRESSION_DEFLATE, TIFFTAG_IMAGEWIDTH, TIFFTAG_IMAGELENGTH,
        TIFFTAG_BITSPERSAMPLE, TIFFTAG_COMPRESSION, TIFFTAG_PHOTOMETRIC, TIFFTAG_ORIENTATION,
        TIFFTAG_SAMPLESPERPIXEL, TIFFTAG_ROWSPERSTRIP, TIFFTAG_PLANARCONFIG, TIFFTAG_PREDICTOR,
        TIFFTAG_EXTRASAMPLES, TIFFTAG_JPEGQUALITY, TIFFTAG_JPEGCOLORMODE]

/-- The loop of `WriteSlice` over a buffer that holds the rows left: it writes
the rows in turn up to the end or the first row the codec refuses. -/
theorem writeLoop_rows (env : WriteEnv) (buffer : List Nat) (L : Nat) :
    ∀ (n row : Nat) (io : TIFFImageIO), (row + n) * L ≤ buffer.length →
    ∃ m, writeLoop env n row buffer ((row * L : Nat) : Int) (L : Int) L io =
        .ok (log io (scanlineWrites buffer L row m)) ∧
      ((m = n ∧ ∀ r, row ≤ r → r < row + n →
          env.writeScanline r ((buffer.drop (r * L)).take L) = true) ∨
       (∃ k, row ≤ k ∧ k < row + n ∧ m = k + 1 - row ∧
          env.writeScanline k ((buffer.drop (k * L)).take L) = false ∧
          ∀ r, row ≤ r → r < k → env.writeScanline r ((buffer.drop (r * L)).take L) = true)) := by
  intro n
  induction n with
  | zero =>
    intro row io _
    exact ⟨0, by simp [writeLoop, scanlineWrites, log_nil], Or.inl ⟨rfl, fun r h1 h2 => by omega⟩⟩
  | succ n ih =>
    intro row io hroom
    have h1 : (row + (n + 1)) * L = row * L + L + n * L := by ring
    have hc : ¬ (((row * L : Nat) : Int) < 0 ∨
        buffer.length < ((row * L : Nat) : Int).toNat + L) := by
      rw [Int.toNat_ofNat]
      omega
    have hnext : ((row * L : Nat) : Int) + (L : Int) = (((row + 1) * L : Nat) : Int) := by
      push_cast; ring
    by_cases hw : env.writeScanline row ((buffer.drop (row * L)).take L) = true
    · obtain ⟨m, hm, hrest⟩ := ih (row + 1)
        (log io [Event.TIFFWriteScanline row ((buffer.drop (row * L)).take L)])
        (by rw [show (row + 1 + n) * L = row * L + L + n * L by ring]; omega)
      refine ⟨m + 1, ?_, ?_⟩
      · rw [writeLoop, if_neg hc, Int.toNat_ofNat, if_pos hw, hnext, hm, log_log]
        simp [scanlineWrites, List.range'_succ]
      · rcases hrest with ⟨h2, h3⟩ | ⟨k, h2, h3, h4, h5, h6⟩
        · refine Or.inl ⟨by omega, ?_⟩
          intro r hr1 hr2
          by_cases hr : r = row
          · subst hr; exact hw
          · exact h3 r (by omega) (by omega)
        · refine Or.inr ⟨k, by omega, by omega, by omega, h5, ?_⟩
          intro r hr1 hr2
          by_cases hr : r = row
          · subst hr; exact hw
          · exact h6 r (by omega) hr2
    · refine ⟨1, ?_, Or.inr ⟨row, le_refl _, by omega, by omega, Bool.eq_false_iff.mpr hw,
        fun r h1 h2 => by omega⟩⟩
      rw [writeLoop, if_neg hc, Int.toNat_ofNat, if_neg hw]
      simp [scanlineWrites, List.range'_succ]

/-- With rows of `2 ^ 31` bytes the row length of `WriteSlice` is negative as
an `int`: the second scanline is taken from before the buffer. -/
theorem WriteSlice_wide (fileName : String) (buffer : List Nat)
    (hlen : 2 ^ 31 ≤ buffer.length) :
    WriteSlice storingEnv wideWriter fileName buffer = .error Fault.outOfBounds ∧
    WriteSliceCalls storingEnv wideWriter fileName buffer =
      [Event.ofstreamOpen fileName, Event.TIFFClientOpen fileName] ++
        writeTags storingEnv wideWriter 8 ++
        [Event.TIFFWriteScanline 0 ((buffer.drop 0).take (2 ^ 31))] := by
  have e1 : wideWriter.m_ComponentType = IODataType.UCHAR := rfl
  have e2 : wideWriter.m_Dimensions0 % 2 ^ 32 = 2 ^ 31 := rfl
  have e3 : wideWriter.m_Dimensions1 % 2 ^ 32 = 1 + 1 := rfl
  have e4 : wideWriter.m_NumberOfComponents % 2 ^ 32 = 1 := rfl
  have e5 : toInt32 (1 * 1 * 2 ^ 31) = -2 ^ 31 := by decide
  have e6 : scanlineBytes (2 ^ 31) (1 % 2 ^ 16) 8 = 2 ^ 31 := by decide
  have e7 : storingEnv.clientOpen fileName = true := rfl
  have c1 : ¬ ((0 : Int) < 0 ∨ buffer.length < (0 : Int).toNat + 2 ^ 31) := by
    rw [Int.toNat_zero]; omega
  have c2 : ((0 : Int) + -2 ^ 31 < 0 ∨
      buffer.length < ((0 : Int) + -2 ^ 31).toNat + 2 ^ 31) := Or.inl (by decide)
  have c3 : ∀ d, storingEnv.writeScanline 0 d = true := fun _ => rfl
  constructor
  · unfold WriteSlice
    simp only [e1, e2, e3, e4, e5, e6, e7, Bool.true_eq_false, if_false]
    rw [writeLoop, if_neg c1, c3, if_pos rfl, writeLoop, if_pos c2]
  · unfold WriteSliceCalls
    simp only [e1, e2, e3, e4, e5, e6, e7, Bool.true_eq_false, if_false]
    rw [writeLoop, if_neg c1, c3, if_pos rfl, writeLoop, if_pos c2]
    rw [writeLoopCalls, if_neg c1, c3, if_pos rfl, writeLoopCalls, if_pos c2, Int.toNat_zero]
    simp only [List.append_nil]

/-! ## The claims on opening, the palette cache and the pixel decoder -/

/-- C11: for every stream in which the width tag or the height tag is absent,
`TIFFReaderInternal::Open` returns 0, and afterwards the reader object holds
no stream handle and every cached metadata field is zero, so that `CanRead` is
false and `Read` on such a session does not reach the fast path: it takes the
branch of the full-image decode, where there is no handle to read from. -/
theorem C11_open_without_size_tags (fs : String → FileEntry) (r : TIFFReaderInternal)
    (filename : String) (t : TIFF) (hfs : fs filename = FileEntry.tiff t)
    (habs : t.field TIFFTAG_IMAGEWIDTH = none ∨ t.field TIFFTAG_IMAGELENGTH = none) :
    (r.Open fs filename).1 = 0 ∧
    (r.Open fs filename).2.1 =
      { Image := none, Width := 0, Height := 0, SamplesPerPixel := 0, Compression := 0,
        BitsPerSample := 0, Photometrics := 0, PlanarConfig := 0, TileDepth := 0 } ∧
    (r.Open fs filename).2.1.CanRead = false ∧
    ∀ (io : TIFFImageIO) (buffer : List Nat), io.m_InternalImage = (r.Open fs filename).2.1 →
      Read io buffer = .error Fault.nullHandle := by
  have hopen : (r.Open fs filename).1 = 0 ∧ (r.Open fs filename).2.1 =
      { Image := none, Width := 0, Height := 0, SamplesPerPixel := 0, Compression := 0,
        BitsPerSample := 0, Photometrics := 0, PlanarConfig := 0, TileDepth := 0 } := by
    unfold TIFFReaderInternal.Open
    simp only [hfs]
    rcases habs with h | h
    · simp [TIFFReaderInternal.Initialize, TIFFReaderInternal.Clean, h]
    · cases hw : t.field TIFFTAG_IMAGEWIDTH with
      | none => simp [TIFFReaderInternal.Initialize, TIFFReaderInternal.Clean, hw]
      | some w => simp [TIFFReaderInternal.Initialize, TIFFReaderInternal.Clean, hw, h]
  refine ⟨hopen.1, hopen.2, ?_, ?_⟩
  · rw [hopen.2]; rfl
  · intro io buffer hio
    rw [hopen.2] at hio
    have hc : io.m_InternalImage.CanRead = false := by rw [hio]; rfl
    have hcomp : ¬ io.m_InternalImage.Compression = COMPRESSION_OJPEG := by rw [hio]; decide
    have himg : io.m_InternalImage.Image = none := by rw [hio]
    unfold Read
    rw [if_neg hcomp]
    simp only [hc, if_true, himg]

/-- Witness of C11: a reader that has read the stream `rgbOnePixel` is opened
on the stream `noHeightTag`, which has a width tag and no height tag. -/
theorem C11_open_without_size_tags_witness :
    ((sessionOn rgbOnePixel).m_InternalImage.Open (fun _ => FileEntry.tiff noHeightTag)
        "image.tif").1 = 0 ∧
    ((sessionOn rgbOnePixel).m_InternalImage.Open (fun _ => FileEntry.tiff noHeightTag)
        "image.tif").2.1 =
      { Image := none, Width := 0, Height := 0, SamplesPerPixel := 0, Compression := 0,
        BitsPerSample := 0, Photometrics := 0, PlanarConfig := 0, TileDepth := 0 } ∧
    ((sessionOn rgbOnePixel).m_InternalImage.Open (fun _ => FileEntry.tiff noHeightTag)
        "image.tif").2.1.CanRead = false ∧
    ∀ (io : TIFFImageIO) (buffer : List Nat),
      io.m_InternalImage = ((sessionOn rgbOnePixel).m_InternalImage.Open
        (fun _ => FileEntry.tiff noHeightTag) "image.tif").2.1 →
      Read io buffer = .error Fault.nullHandle :=
  C11_open_without_size_tags (fun _ => FileEntry.tiff noHeightTag)
    (sessionOn rgbOnePixel).m_InternalImage "image.tif" noHeightTag rfl (Or.inr rfl)

set_option maxRecDepth 100000 in
/-- C12, the code at the failing input. The spec's own example: a reader
classifies the RGB stream `rgbOnePixel` (format RGB), is reopened on the
MinIsBlack stream `grayOnePixel`, whose photometric model it then holds, and
classifies again: the memoised `ImageFormat` is still RGB and `GetFormat`
returns RGB, whereas a new session on `grayOnePixel` is classified Grayscale.
And the palette: a reader that classified the palette stream `colourPalette`
(PaletteRGB, tables cached) is reopened on the neutral palette stream
`neutralPalette`; `GetFormat` still returns PaletteRGB, where a new session
gives PaletteGrayscale, and the cached pointer, non-null as before, points
into the tables the closing of the first handle has freed, so that the next
lookup, which a new session answers from the table of `neutralPalette`, reads
freed memory. -/
theorem C12_reopen_keeps_stale_caches :
    (GetFormat (sessionOn rgbOnePixel)).toOption.map Prod.snd = some Format.RGB_ ∧
    (reopened (classified (sessionOn rgbOnePixel)) grayOnePixel).m_InternalImage.Photometrics =
      PHOTOMETRIC_MINISBLACK ∧
    (reopened (classified (sessionOn rgbOnePixel)) grayOnePixel).ImageFormat = Format.RGB_ ∧
    (GetFormat (reopened (classified (sessionOn rgbOnePixel)) grayOnePixel)).toOption.map
      Prod.snd = some Format.RGB_ ∧
    (GetFormat (sessionOn grayOnePixel)).toOption.map Prod.snd = some Format.GRAYSCALE ∧
    (classified (sessionOn colourPalette)).ImageFormat = Format.PALETTE_RGB ∧
    (classified (sessionOn colourPalette)).ColorRed = some [0, 65535] ∧
    Event.TIFFClose ∈ (reopened (classified (sessionOn colourPalette)) neutralPalette).trace ∧
    (reopened (classified (sessionOn colourPalette)) neutralPalette).m_InternalImage.Image =
      some neutralPalette ∧
    (GetFormat (reopened (classified (sessionOn colourPalette)) neutralPalette)).toOption.map
      Prod.snd = some Format.PALETTE_RGB ∧
    (GetFormat (sessionOn neutralPalette)).toOption.map Prod.snd =
      some Format.PALETTE_GRAYSCALE ∧
    (reopened (classified (sessionOn colourPalette)) neutralPalette).TotalColors = 2 ∧
    (reopened (classified (sessionOn colourPalette)) neutralPalette).ColorRed = some [] ∧
    GetColor (reopened (classified (sessionOn colourPalette)) neutralPalette) 1 =
      .error Fault.outOfBounds ∧
    (GetColor (sessionOn neutralPalette) 1).toOption.map Prod.snd =
      some (0x1234, 0x1234, 0x1234) :=
  ⟨by decide, by decide, by decide, by decide, by decide, by decide, by decide, by decide, rfl,
    by decide, by decide, by decide, by decide, rfl, by decide⟩

/-- C13, as stated, fails in two ways. On the palette-tagged stream
`paletteNoMap`, for which the codec reports no colormap, two lookups at index
0 request the colormap twice: the failed outcome is not cached. On a 1-bit
palette stream with a colormap of two entries, two lookups at index 5, outside
the table, request the colormap twice as well: the tables are cached only
after the index has passed the range check. -/
theorem C13_counterexample :
    (sessionOn paletteNoMap).m_InternalImage.Photometrics = PHOTOMETRIC_PALETTE ∧
    (lookupAll (sessionOn paletteNoMap) [0, 0]).toOption.map
      (fun io => colormapRequests (io.trace.drop (sessionOn paletteNoMap).trace.length)) =
      some 2 ∧
    (lookupAll (sessionOn (paletteStream 1 [0, 65535] [0, 257] [0, 0])) [5, 5]).toOption.map
      (fun io => colormapRequests (io.trace.drop
        (sessionOn (paletteStream 1 [0, 65535] [0, 257] [0, 0])).trace.length)) = some 2 := by
  decide

/-- C13, amended: for every session on a palette stream that has a colormap
(of `2 ^ BitsPerSample` entries, bit depth in {1, 2, 4, 8, 16}) and every
sequence of `GetColor` calls whose first index lies inside the table, with any
indices after it, all the lookups return and together they request the
colormap from the codec at most once. -/
theorem C13_colormap_requested_once (io : TIFFImageIO) (t : TIFF) (red green blue : List Nat)
    (i : Nat) (rest : List Int) (hs : PaletteSession io t red green blue)
    (hi : i < red.length) :
    ∃ io1 es, lookupAll io ((i : Int) :: rest) = .ok io1 ∧ io1.trace = io.trace ++ es ∧
      colormapRequests es ≤ 1 := by
  obtain ⟨io1, c, es, h1, h2, h3, hr, hg, hb, htot⟩ := GetColor_first io t red green blue i hs hi
  have hpos := pow_bits_pos io.m_InternalImage.BitsPerSample
  obtain ⟨es2, h4, h5⟩ := lookupAll_filled red green blue rest io1 hr hg hb
    (by rw [htot]; exact hpos)
    (by
      intro k hk
      rw [htot] at hk
      have hk2 : k < 2 ^ io.m_InternalImage.BitsPerSample := by exact_mod_cast hk
      exact ⟨by rw [hs.red_length]; exact hk2, by rw [hs.green_length]; exact hk2,
        by rw [hs.blue_length]; exact hk2⟩)
  refine ⟨log io1 es2, es ++ es2, ?_, ?_, ?_⟩
  · simp only [lookupAll, h1, h4]
  · simp [log, h2]
  · rw [colormapRequests_append, h5]
    exact h3

/-- Witness of C13: a new session on a 1-bit palette stream, lookups at the
indices 1, 0, 5, -1, 1. -/
theorem C13_colormap_requested_once_witness :
    ∃ io1 es, lookupAll (sessionOn (paletteStream 1 [0, 65535] [0, 257] [0, 0]))
        (((1 : Nat) : Int) :: [0, 5, -1, 1]) = .ok io1 ∧
      io1.trace = (sessionOn (paletteStream 1 [0, 65535] [0, 257] [0, 0])).trace ++ es ∧
      colormapRequests es ≤ 1 :=
  C13_colormap_requested_once _ _ _ _ _ 1 [0, 5, -1, 1] session_small (by decide)

set_option maxRecDepth 100000 in
/-- C14, the code at the failing input: on the RGB stream `rgbOnePixel`, whose
photometric tag is present, `GetColor` at index 0 does not stop at the
photometric model: it goes on to request the colormap from the codec (the
trace gains the requests for the photometric tag and for the colormap). On
`rgbWithColormap`, the same stream with a colormap tag besides, the lookup
returns the table entry `(0x1234, 0, 0)` instead of `(0, 0, 0)`. -/
theorem C14_colormap_requested_on_rgb_stream :
    rgbOnePixel.field TIFFTAG_PHOTOMETRIC = some PHOTOMETRIC_RGB ∧
    (sessionOn rgbOnePixel).m_InternalImage.Photometrics = PHOTOMETRIC_RGB ∧
    (∃ io1, GetColor (sessionOn rgbOnePixel) 0 = .ok (io1, 0, 0, 0) ∧
      io1.trace = (sessionOn rgbOnePixel).trace ++
        [Event.TIFFGetField TIFFTAG_PHOTOMETRIC, Event.TIFFGetField TIFFTAG_COLORMAP]) ∧
    (sessionOn rgbWithColormap).m_InternalImage.Photometrics = PHOTOMETRIC_RGB ∧
    (GetColor (sessionOn rgbWithColormap) 0).toOption.map Prod.snd = some (0x1234, 0, 0) :=
  ⟨rfl, rfl, ⟨_, rfl, rfl⟩, rfl, by decide⟩

set_option maxRecDepth 100000 in
/-- C15, the code at the failing input: a 1-bit palette stream whose three
tables are `[0, 0x1234]` is classified PaletteGrayscale, and for the source
sample 1 `EvaluateImageAt` emits the one byte `0x34`, the low-order byte of
the red entry (`*image = red`), not its high-order byte `0x12`, which the
PaletteRGB case (`red >> 8`) gives for the same entry. -/
theorem C15_palette_gray_emits_low_byte :
    (GetFormat (sessionOn (paletteStream 1 [0, 0x1234] [0, 0x1234] [0, 0x1234]))).toOption.map
      Prod.snd = some Format.PALETTE_GRAYSCALE ∧
    (EvaluateImageAt (sessionOn (paletteStream 1 [0, 0x1234] [0, 0x1234] [0, 0x1234]))
      [0] 0 [1] 0).toOption.map Prod.snd = some ([0x34], 1) ∧
    0x1234 / 2 ^ 8 = 0x12 ∧ 0x1234 % 2 ^ 8 = 0x34 := by
  decide

/-- C16, as stated, fails on the fast-path-eligible RGB stream
`rgbFiveSamples` of five samples per pixel: the stream is classified RGB, and
`EvaluateImageAt` writes three bytes and returns 5, which is none of 1, 3
and 4. -/
theorem C16_counterexample :
    (sessionOn rgbFiveSamples).m_InternalImage.CanRead = true ∧
    (GetFormat (sessionOn rgbFiveSamples)).toOption.map Prod.snd = some Format.RGB_ ∧
    (EvaluateImageAt (sessionOn rgbFiveSamples) [0, 0, 0, 0, 0] 0 [1, 2, 3, 4, 5]
      0).toOption.map Prod.snd = some ([1, 2, 3, 0, 0], 5) := by
  decide

/-- C16, amended: for every fast-path-eligible stream, the number of output
bytes `EvaluateImageAt` returns for one pixel, when it returns, is 1 for the
formats Grayscale and PaletteGrayscale, 3 for PaletteRGB, and the stream's
samples per pixel, a positive number, for RGB. -/
theorem C16_emitted_bytes (io io0 io1 : TIFFImageIO) (f : Format) (out out1 src : List Nat)
    (image source inc : Nat)
    (hcan : io.m_InternalImage.CanRead = true)
    (hfmt : GetFormat io = .ok (io0, f))
    (hev : EvaluateImageAt io out image src source = .ok (io1, out1, inc)) :
    (f = Format.GRAYSCALE ∨ f = Format.PALETTE_GRAYSCALE → inc = 1) ∧
    (f = Format.PALETTE_RGB → inc = 3) ∧
    (f = Format.RGB_ → inc = io.m_InternalImage.SamplesPerPixel ∧ 0 < inc) := by
  have hm := GetFormat_frame io io0 f hfmt
  have hspp : 0 < io.m_InternalImage.SamplesPerPixel := ((CanRead_true_iff _).1 hcan).2.2.2.1
  unfold EvaluateImageAt at hev
  rw [hfmt] at hev
  refine ⟨?_, ?_, ?_⟩
  · rintro (h | h) <;> subst h <;> simp only at hev <;> repeat' split at hev
    all_goals first | (cases hev; rfl) | cases hev
  · intro h
    subst h
    simp only at hev
    repeat' split at hev
    all_goals first | (cases hev; rfl) | cases hev
  · intro h
    subst h
    simp only at hev
    repeat' split at hev
    all_goals first | (cases hev; exact ⟨by rw [hm], by rw [hm]; exact hspp⟩) | cases hev

/-- Witness of C16: the RGB stream `rgbOnePixel` of three samples per pixel,
whose one pixel `[1, 2, 3]` is decoded into a buffer of three bytes. -/
theorem C16_emitted_bytes_witness :
    (Format.RGB_ = Format.GRAYSCALE ∨ Format.RGB_ = Format.PALETTE_GRAYSCALE → 3 = 1) ∧
    (Format.RGB_ = Format.PALETTE_RGB → 3 = 3) ∧
    (Format.RGB_ = Format.RGB_ → 3 = (sessionOn rgbOnePixel).m_InternalImage.SamplesPerPixel ∧
      0 < 3) :=
  C16_emitted_bytes (sessionOn rgbOnePixel) { sessionOn rgbOnePixel with ImageFormat := Format.RGB_ }
    { sessionOn rgbOnePixel with ImageFormat := Format.RGB_ } Format.RGB_ [0, 0, 0] [1, 2, 3]
    [1, 2, 3] 0 0 3 rfl rfl rfl

/-! ## The claims on file names and the writer -/

/-- C18: for every write request, `WriteSlice` throws the exception of the
unsupported component type if and only if the component type is neither
`UCHAR` nor `USHORT`, and in that case it makes no call at all: no output
stream is opened, no codec tag is set and no scanline is written. -/
theorem C18_unsupported_component_type (env : WriteEnv) (io : TIFFImageIO) (fileName : String)
    (buffer : List Nat) :
    (WriteSlice env io fileName buffer = .error Fault.exception ↔
      (io.m_ComponentType ≠ IODataType.UCHAR ∧ io.m_ComponentType ≠ IODataType.USHORT)) ∧
    ((io.m_ComponentType ≠ IODataType.UCHAR ∧ io.m_ComponentType ≠ IODataType.USHORT) →
      WriteSliceCalls env io fileName buffer = []) := by
  constructor
  · constructor
    · intro h
      by_contra hn
      have hct : io.m_ComponentType = IODataType.UCHAR ∨
          io.m_ComponentType = IODataType.USHORT := by
        by_cases h1 : io.m_ComponentType = IODataType.UCHAR
        · exact Or.inl h1
        · by_cases h2 : io.m_ComponentType = IODataType.USHORT
          · exact Or.inr h2
          · exact absurd ⟨h1, h2⟩ hn
      exact WriteSlice_accepted env io fileName buffer hct h
    · rintro ⟨h1, h2⟩
      unfold WriteSlice
      cases hc : io.m_ComponentType <;> first | rfl | exact absurd hc h1 | exact absurd hc h2
  · rintro ⟨h1, h2⟩
    unfold WriteSliceCalls
    cases hc : io.m_ComponentType <;> first | rfl | exact absurd hc h1 | exact absurd hc h2

/-- Witness of C18: a writer object of component type `FLOAT`. -/
theorem C18_unsupported_component_type_witness :
    WriteSlice storingEnv floatWriter "out.tif" [0, 0, 0, 0] = .error Fault.exception ∧
    WriteSliceCalls storingEnv floatWriter "out.tif" [0, 0, 0, 0] = [] :=
  ⟨(C18_unsupported_component_type storingEnv floatWriter "out.tif" [0, 0, 0, 0]).1.2
      ⟨by decide, by decide⟩,
    (C18_unsupported_component_type storingEnv floatWriter "out.tif" [0, 0, 0, 0]).2
      ⟨by decide, by decide⟩⟩

/-- C19: for every write request of an accepted component type whose stream
opens, and every compression policy, the tags `WriteSlice` leaves set are: the
compression tag with the codec code of the policy (None, PackBits, LZW,
Deflate or JPEG respectively); the photometric tag with YCbCr exactly when the
policy is JPEG and RGB otherwise; the JPEG quality 75 exactly when the policy
is JPEG, and no quality otherwise; the predictor 2 (horizontal differencing)
exactly when the policy is LZW or Deflate, and no predictor otherwise. The
calls are those `WriteSlice` adds to the trace when it returns. -/
theorem C19_codec_tags (env : WriteEnv) (io : TIFFImageIO) (fileName : String)
    (buffer : List Nat)
    (hct : io.m_ComponentType = IODataType.UCHAR ∨ io.m_ComponentType = IODataType.USHORT)
    (hopen : env.clientOpen fileName = true) :
    storedField (WriteSliceCalls env io fileName buffer) TIFFTAG_COMPRESSION =
      some (match io.m_Compression with
        | CompressionPolicy.NoCompression => COMPRESSION_NONE
        | CompressionPolicy.PackBits => COMPRESSION_PACKBITS
        | CompressionPolicy.LZW => COMPRESSION_LZW
        | CompressionPolicy.Deflate => COMPRESSION_DEFLATE
        | CompressionPolicy.JPEG => COMPRESSION_JPEG) ∧
    storedField (WriteSliceCalls env io fileName buffer) TIFFTAG_PHOTOMETRIC =
      some (if io.m_Compression = CompressionPolicy.JPEG then PHOTOMETRIC_YCBCR
        else PHOTOMETRIC_RGB) ∧
    storedField (WriteSliceCalls env io fileName buffer) TIFFTAG_JPEGQUALITY =
      (if io.m_Compression = CompressionPolicy.JPEG then some 75 else none) ∧
    storedField (WriteSliceCalls env io fileName buffer) TIFFTAG_PREDICTOR =
      (if io.m_Compression = CompressionPolicy.LZW ∨ io.m_Compression = CompressionPolicy.Deflate
        then some 2 else none) ∧
    ∀ io1, WriteSlice env io fileName buffer = .ok io1 →
      io1.trace = io.trace ++ WriteSliceCalls env io fileName buffer := by
  obtain ⟨bps, size, hbs⟩ : ∃ bps size : Nat,
      (io.m_ComponentType = IODataType.UCHAR ∧ bps = 8 ∧ size = 1) ∨
      (io.m_ComponentType = IODataType.USHORT ∧ bps = 16 ∧ size = 2) := by
    rcases hct with h | h
    · exact ⟨8, 1, Or.inl ⟨h, rfl, rfl⟩⟩
    · exact ⟨16, 2, Or.inr ⟨h, rfl, rfl⟩⟩
  have ht := storedField_writeTags env io bps
  simp only [storedField_WriteSliceCalls env io fileName buffer bps size hbs hopen]
  refine ⟨?_, ht.2.1, ht.2.2.1, ht.2.2.2, ?_⟩
  · rw [ht.1]
    cases io.m_Compression <;> rfl
  · intro io1 h
    rw [WriteSlice_trace env io io1 fileName buffer h]
    rfl

/-- Witness of C19: three 8-bit components, one pixel, policy JPEG. -/
theorem C19_codec_tags_witness :
    storedField (WriteSliceCalls storingEnv
      { rgbWriter 1 1 with m_Compression := CompressionPolicy.JPEG } "out.tif" [1, 2, 3])
      TIFFTAG_COMPRESSION = some COMPRESSION_JPEG ∧
    storedField (WriteSliceCalls storingEnv
      { rgbWriter 1 1 with m_Compression := CompressionPolicy.JPEG } "out.tif" [1, 2, 3])
      TIFFTAG_PHOTOMETRIC = some PHOTOMETRIC_YCBCR ∧
    storedField (WriteSliceCalls storingEnv
      { rgbWriter 1 1 with m_Compression := CompressionPolicy.JPEG } "out.tif" [1, 2, 3])
      TIFFTAG_JPEGQUALITY = some 75 ∧
    storedField (WriteSliceCalls storingEnv
      { rgbWriter 1 1 with m_Compression := CompressionPolicy.JPEG } "out.tif" [1, 2, 3])
      TIFFTAG_PREDICTOR = none ∧
    ∀ io1, WriteSlice storingEnv
        { rgbWriter 1 1 with m_Compression := CompressionPolicy.JPEG } "out.tif" [1, 2, 3] =
          .ok io1 →
      io1.trace = ({ rgbWriter 1 1 with m_Compression := CompressionPolicy.JPEG } :
          TIFFImageIO).trace ++
        WriteSliceCalls storingEnv
          { rgbWriter 1 1 with m_Compression := CompressionPolicy.JPEG } "out.tif" [1, 2, 3] :=
  C19_codec_tags storingEnv { rgbWriter 1 1 with m_Compression := CompressionPolicy.JPEG }
    "out.tif" [1, 2, 3] (Or.inl rfl) rfl

/-- C20, as stated, fails for rows of `2 ^ 31` bytes: the writer `wideWriter`
(one 8-bit component, width `2 ^ 31`, height 2) is given a buffer of
`2 * 2 ^ 31` bytes over a codec that accepts every scanline. The row length,
kept in an `int`, is negative: row 0 is written from the start of the buffer,
and the pointer for row 1 lies before the buffer instead of at `[L, 2 * L)`;
no second scanline write with a slice of the buffer is issued. -/
theorem C20_counterexample :
    (List.replicate (2 * 2 ^ 31) 0).length =
      (wideWriter.m_Dimensions1 % 2 ^ 32) *
        (1 * (wideWriter.m_NumberOfComponents % 2 ^ 32) * (wideWriter.m_Dimensions0 % 2 ^ 32)) ∧
    WriteSlice storingEnv wideWriter "out.tif" (List.replicate (2 * 2 ^ 31) 0) =
      .error Fault.outOfBounds ∧
    WriteSliceCalls storingEnv wideWriter "out.tif" (List.replicate (2 * 2 ^ 31) 0) =
      [Event.ofstreamOpen "out.tif", Event.TIFFClientOpen "out.tif"] ++
        writeTags storingEnv wideWriter 8 ++
        [Event.TIFFWriteScanline 0 (((List.replicate (2 * 2 ^ 31) 0).drop 0).take (2 ^ 31))] :=
  ⟨List.length_replicate _ _,
    WriteSlice_wide "out.tif" (List.replicate (2 * 2 ^ 31) 0)
      (by rw [List.length_replicate]; decide)⟩

/-- C20, amended: for every write request of an accepted component type
(component size 1 for `UCHAR`, 2 for `USHORT`) whose stream opens, with fewer
than `2 ^ 16` components, a row byte length
`L = componentSize * channelCount * width` below `2 ^ 31` (the row length is
an `int` in the code) and a buffer of at least `height * L` bytes,
`WriteSlice` returns, and between the tags and the closing of the stream its
calls are exactly the scanline writes of the rows 0, 1, ..., m - 1 in
increasing order, row `r` with the buffer slice `[r * L, (r + 1) * L)`: either
`m` is the height and every write succeeds, or `m = k + 1` for the first row
`k` whose write fails, and no later row is attempted. -/
theorem C20_scanline_writes (env : WriteEnv) (io : TIFFImageIO) (fileName : String)
    (buffer : List Nat) (bps size L : Nat)
    (hct : (io.m_ComponentType = IODataType.UCHAR ∧ bps = 8 ∧ size = 1) ∨
      (io.m_ComponentType = IODataType.USHORT ∧ bps = 16 ∧ size = 2))
    (hopen : env.clientOpen fileName = true)
    (hcomp : io.m_NumberOfComponents % 2 ^ 32 < 2 ^ 16)
    (hL : L = size * (io.m_NumberOfComponents % 2 ^ 32) * (io.m_Dimensions0 % 2 ^ 32))
    (hint : L < 2 ^ 31)
    (hbuf : (io.m_Dimensions1 % 2 ^ 32) * L ≤ buffer.length) :
    ∃ m, WriteSlice env io fileName buffer =
        .ok (log io ([Event.ofstreamOpen fileName, Event.TIFFClientOpen fileName] ++
          writeTags env io bps ++ scanlineWrites buffer L 0 m ++
          [Event.TIFFClose, Event.ofstreamClose])) ∧
      ((m = io.m_Dimensions1 % 2 ^ 32 ∧ ∀ r, r < io.m_Dimensions1 % 2 ^ 32 →
          env.writeScanline r ((buffer.drop (r * L)).take L) = true) ∨
       (∃ k, k < io.m_Dimensions1 % 2 ^ 32 ∧ m = k + 1 ∧
          env.writeScanline k ((buffer.drop (k * L)).take L) = false ∧
          ∀ r, r < k → env.writeScanline r ((buffer.drop (r * L)).take L) = true)) := by
  have hrl : toInt32 (size * (io.m_NumberOfComponents % 2 ^ 32) * (io.m_Dimensions0 % 2 ^ 32)) =
      (L : Int) := by
    rw [← hL]
    exact toInt32_of_lt L hint
  have hsb : scanlineBytes (io.m_Dimensions0 % 2 ^ 32) (io.m_NumberOfComponents % 2 ^ 32 % 2 ^ 16)
      bps = L := by
    unfold scanlineBytes
    rw [Nat.mod_eq_of_lt hcomp]
    have hb : bps = 8 * size := by
      rcases hct with ⟨-, hb, hs⟩ | ⟨-, hb, hs⟩ <;> rw [hb, hs]
    have e : bps * (io.m_NumberOfComponents % 2 ^ 32) * (io.m_Dimensions0 % 2 ^ 32) = 8 * L := by
      rw [hL, hb]; ring
    rw [e]
    omega
  obtain ⟨m, hm, hrest⟩ := writeLoop_rows env buffer L (io.m_Dimensions1 % 2 ^ 32) 0
    (log io ([Event.ofstreamOpen fileName, Event.TIFFClientOpen fileName] ++ writeTags env io bps))
    (by rw [Nat.zero_add]; exact hbuf)
  rw [Nat.zero_mul, show ((0 : Nat) : Int) = 0 from rfl] at hm
  refine ⟨m, ?_, ?_⟩
  · unfold WriteSlice
    rcases hct with ⟨hc, hb, hs⟩ | ⟨hc, hb, hs⟩ <;> subst hb <;> subst hs <;>
      simp only [hc, hopen, Bool.true_eq_false, if_false, hrl, hsb, hm, log_log,
        List.append_assoc]
  · rcases hrest with ⟨h1, h2⟩ | ⟨k, -, h2, h3, h4, h5⟩
    · exact Or.inl ⟨h1, fun r hr => h2 r (Nat.zero_le r) (by omega)⟩
    · exact Or.inr ⟨k, by omega, by omega, h4, fun r hr => h5 r (Nat.zero_le r) hr⟩

/-- Witness of C20: three rows of one pixel with three 8-bit components over
the codec `failingAtRowOne`, which refuses row 1. -/
theorem C20_scanline_writes_witness :
    ∃ m, WriteSlice failingAtRowOne (rgbWriter 1 3) "out.tif" [1, 2, 3, 4, 5, 6, 7, 8, 9] =
        .ok (log (rgbWriter 1 3)
          ([Event.ofstreamOpen "out.tif", Event.TIFFClientOpen "out.tif"] ++
          writeTags failingAtRowOne (rgbWriter 1 3) 8 ++
          scanlineWrites [1, 2, 3, 4, 5, 6, 7, 8, 9] 3 0 m ++
          [Event.TIFFClose, Event.ofstreamClose])) ∧
      ((m = (rgbWriter 1 3).m_Dimensions1 % 2 ^ 32 ∧
          ∀ r, r < (rgbWriter 1 3).m_Dimensions1 % 2 ^ 32 →
          failingAtRowOne.writeScanline r
            (([1, 2, 3, 4, 5, 6, 7, 8, 9].drop (r * 3)).take 3) = true) ∨
       (∃ k, k < (rgbWriter 1 3).m_Dimensions1 % 2 ^ 32 ∧ m = k + 1 ∧
          failingAtRowOne.writeScanline k
            (([1, 2, 3, 4, 5, 6, 7, 8, 9].drop (k * 3)).take 3) = false ∧
          ∀ r, r < k → failingAtRowOne.writeScanline r
            (([1, 2, 3, 4, 5, 6, 7, 8, 9].drop (r * 3)).take 3) = true)) :=
  C20_scanline_writes failingAtRowOne (rgbWriter 1 3) "out.tif" [1, 2, 3, 4, 5, 6, 7, 8, 9] 8 1 3
    (Or.inl ⟨rfl, rfl, rfl⟩) rfl (by decide) (by decide) (by decide) (by decide)

/-! ## Four channels: the decoder, the writer and the stored stream -/

theorem complementAlpha_append : ∀ (n : Nat) (a b : List Nat), a.length = 4 * n →
    complementAlpha (a ++ b) = complementAlpha a ++ complementAlpha b := by
  intro n
  induction n with
  | zero =>
    intro a b h
    have : a = [] := List.length_eq_zero.mp (by omega)
    subst this
    cases b with
    | nil => rfl
    | cons x b => simp [complementAlpha]
  | succ n ih =>
    intro a b h
    match a, h with
    | r :: g :: c :: x :: a', h =>
      have h' : a'.length = 4 * n := by simp only [List.length_cons] at h; omega
      have e := ih a' b h'
      simp only [List.cons_append, complementAlpha, List.append_eq, e]

theorem length_complementAlpha : ∀ (n : Nat) (l : List Nat), l.length ≤ n →
    (complementAlpha l).length = l.length := by
  intro n
  induction n using Nat.strong_induction_on with
  | _ n ih =>
    intro l hl
    match l with
    | [] => rfl
    | [_] => rfl
    | [_, _] => rfl
    | [_, _, _] => rfl
    | r :: g :: b :: a :: rest =>
      simp only [complementAlpha, List.length_cons] at hl ⊢
      rw [ih rest.length (by omega) rest (le_refl _)]

theorem complementAlpha_four (r g b a : Nat) (rest : List Nat) :
    complementAlpha ([r, g, b, a] ++ rest) = [r, g, b, 255 - a] ++ complementAlpha rest := rfl

/-- The RGB case of the pixel decoder with four samples per pixel. -/
theorem EvaluateImageAt_rgb4 (io : TIFFImageIO) (out src : List Nat)
    (image source r g b a : Nat)
    (hf : io.ImageFormat = Format.RGB_) (hspp : io.m_InternalImage.SamplesPerPixel = 4)
    (hr : src[source]? = some r) (hg : src[source + 1]? = some g)
    (hb : src[source + 2]? = some b) (ha : src[source + 3]? = some a)
    (hbyte : r < 256 ∧ g < 256 ∧ b < 256 ∧ a < 256)
    (hroom : image + 4 ≤ out.length) :
    EvaluateImageAt io out image src source =
      .ok (io, overwrite out image [r, g, b, 255 - a], 4) := by
  have hfm : GetFormat io = .ok (io, Format.RGB_) := by
    rw [GetFormat_cached io (by rw [hf]; decide), hf]
  obtain ⟨h1, h2, h3, h4⟩ := hbyte
  have e1 : r % 256 = r := Nat.mod_eq_of_lt h1
  have e2 : g % 256 = g := Nat.mod_eq_of_lt h2
  have e3 : b % 256 = b := Nat.mod_eq_of_lt h3
  have e4 : (255 - a) % 256 = 255 - a := Nat.mod_eq_of_lt (by omega)
  have p0 : image < out.length := by omega
  have p1 : image + 1 < out.length := by omega
  have p2 : image + 2 < out.length := by omega
  have p3 : image + 3 < out.length := by omega
  have l1 : (overwrite out image [r]).length = out.length :=
    length_overwrite _ _ _ (by simpa using p0)
  have q1 : image + 1 < (overwrite out image [r]).length := by rw [l1]; exact p1
  have l2 : (overwrite (overwrite out image [r]) (image + 1) [g]).length = out.length := by
    rw [length_overwrite _ _ _ (by simpa using q1), l1]
  have q2 : image + 2 < (overwrite (overwrite out image [r]) (image + 1) [g]).length := by
    rw [l2]; exact p2
  have l3 : (overwrite (overwrite (overwrite out image [r]) (image + 1) [g]) (image + 2)
      [b]).length = out.length := by
    rw [length_overwrite _ _ _ (by simpa using q2), l2]
  have q3 : image + 3 < (overwrite (overwrite (overwrite out image [r]) (image + 1) [g])
      (image + 2) [b]).length := by
    rw [l3]; exact p3
  have o1 := overwrite_overwrite out image [r] [g] (by simpa using p0)
  have o2 := overwrite_overwrite out image [r, g] [b] (by simpa using p1)
  have o3 := overwrite_overwrite out image [r, g, b] [255 - a] (by simpa using p2)
  simp [EvaluateImageAt, hfm, load, store, hr, hg, hb, ha, hspp, e1, e2, e3, e4, p0, p1, p2, p3,
    toUChar_complement a h4]
  rw [set_eq_overwrite _ _ _ p0, set_eq_overwrite _ _ _ q1, set_eq_overwrite _ _ _ q2,
    set_eq_overwrite _ _ _ q3]
  simp_all

theorem pixelLoop_rgb4 (io : TIFFImageIO) (isize : Nat) (src : List Nat)
    (hf : io.ImageFormat = Format.RGB_) (hspp : io.m_InternalImage.SamplesPerPixel = 4)
    (hlen : src.length = isize) (hbytes : ∀ v ∈ src, v < 256) (hsz : isize < 2 ^ 31) :
    ∀ (k cc fuel : Nat) (out : List Nat) (image : Nat), cc + 4 * k = isize → k < fuel →
      image + 4 * k ≤ out.length →
      pixelLoop fuel isize src cc io out image =
        .ok (io, overwrite out image (complementAlpha (src.drop cc)), image + 4 * k) := by
  intro k
  induction k with
  | zero =>
    intro cc fuel out image hcc hfuel _
    obtain ⟨f, rfl⟩ : ∃ f, fuel = f + 1 := ⟨fuel - 1, by omega⟩
    have : ¬ cc < isize := by omega
    have hd : List.drop cc src = [] := List.drop_eq_nil_of_le (by omega)
    simp [pixelLoop, this, hd, overwrite_nil, complementAlpha]
  | succ k ih =>
    intro cc fuel out image hcc hfuel hroom
    obtain ⟨f, rfl⟩ : ∃ f, fuel = f + 1 := ⟨fuel - 1, by omega⟩
    have hlt : cc < isize := by omega
    have h0 : cc < src.length := by omega
    have h1 : cc + 1 < src.length := by omega
    have h2 : cc + 2 < src.length := by omega
    have h3 : cc + 3 < src.length := by omega
    have hmod : (cc + 4) % 2 ^ 32 = cc + 4 := Nat.mod_eq_of_lt (by omega)
    have hstep := EvaluateImageAt_rgb4 io out src image cc src[cc] src[cc + 1] src[cc + 2]
      src[cc + 3] hf hspp
      (List.getElem?_eq_getElem h0) (List.getElem?_eq_getElem h1) (List.getElem?_eq_getElem h2)
      (List.getElem?_eq_getElem h3)
      ⟨hbytes _ (List.getElem_mem h0), hbytes _ (List.getElem_mem h1),
        hbytes _ (List.getElem_mem h2), hbytes _ (List.getElem_mem h3)⟩ (by omega)
    have hlen1 : (overwrite out image [src[cc], src[cc + 1], src[cc + 2],
        255 - src[cc + 3]]).length = out.length :=
      length_overwrite _ _ _ (by simp; omega)
    have hih := ih (cc + 4) f (overwrite out image [src[cc], src[cc + 1], src[cc + 2],
      255 - src[cc + 3]]) (image + 4) (by omega) (by omega) (by rw [hlen1]; omega)
    have hov := overwrite_overwrite out image [src[cc], src[cc + 1], src[cc + 2],
      255 - src[cc + 3]] (complementAlpha (src.drop (cc + 4))) (by simp; omega)
    simp only [List.length_cons, List.length_nil] at hov
    have hd : src.drop cc = [src[cc], src[cc + 1], src[cc + 2], src[cc + 3]] ++
        src.drop (cc + 4) := by
      rw [List.drop_eq_getElem_cons h0, List.drop_eq_getElem_cons h1,
        List.drop_eq_getElem_cons h2, List.drop_eq_getElem_cons h3]
      rfl
    rw [pixelLoop, if_pos hlt, hstep]
    simp only [hspp, hmod]
    rw [hih, hov, hd, complementAlpha_four]
    simp [Nat.add_assoc, Nat.mul_add, Nat.add_comm]

theorem writeTags_rgba8_none (env : WriteEnv) (w : TIFFImageIO)
    (hn : w.m_NumberOfComponents = 4)
    (hcp : w.m_Compression = CompressionPolicy.NoCompression) :
    writeTags env w 8 =
      [Event.TIFFSetField TIFFTAG_IMAGEWIDTH [w.m_Dimensions0 % 2 ^ 32],
       Event.TIFFSetField TIFFTAG_IMAGELENGTH [w.m_Dimensions1 % 2 ^ 32],
       Event.TIFFSetField TIFFTAG_ORIENTATION [ORIENTATION_TOPLEFT],
       Event.TIFFSetField TIFFTAG_SAMPLESPERPIXEL [4],
       Event.TIFFSetField TIFFTAG_BITSPERSAMPLE [8],
       Event.TIFFSetField TIFFTAG_PLANARCONFIG [PLANARCONFIG_CONTIG],
       Event.TIFFSetField TIFFTAG_EXTRASAMPLES [1, EXTRASAMPLE_ASSOCALPHA],
       Event.TIFFSetField TIFFTAG_COMPRESSION [COMPRESSION_NONE],
       Event.TIFFSetField TIFFTAG_PHOTOMETRIC [PHOTOMETRIC_RGB],
       Event.TIFFDefaultStripSize,
       Event.TIFFSetField TIFFTAG_ROWSPERSTRIP [env.defaultStripSize]] := by
  have e1 : toInt32 4 = 4 := by decide
  have e2 : toUInt32 4 = 4 := by decide
  simp [writeTags, hn, hcp, compressionCode, e1, e2, COMPRESSION_NONE, COMPRESSION_JPEG,
    COMPRESSION_LZW, COMPRESSION_DEFLATE]

theorem WriteSlice_rgba8 (env : WriteEnv) (w : TIFFImageIO) (fileName : String)
    (buffer : List Nat)
    (hopen : env.clientOpen fileName = true) (hstore : ∀ r d, env.writeScanline r d = true)
    (hn : w.m_NumberOfComponents = 4) (hct : w.m_ComponentType = IODataType.UCHAR)
    (hW : 4 * (w.m_Dimensions0 % 2 ^ 32) < 2 ^ 31)
    (hlen : (w.m_Dimensions1 % 2 ^ 32) * (4 * (w.m_Dimensions0 % 2 ^ 32)) ≤ buffer.length) :
    WriteSlice env w fileName buffer = .ok (log w (rgba8Calls env w fileName buffer)) := by
  have hrl : toInt32 (1 * (4 % 2 ^ 32) * (w.m_Dimensions0 % 2 ^ 32)) =
      ((4 * (w.m_Dimensions0 % 2 ^ 32) : Nat) : Int) := by
    rw [show 1 * (4 % 2 ^ 32) * (w.m_Dimensions0 % 2 ^ 32) = 4 * (w.m_Dimensions0 % 2 ^ 32) by
      norm_num]
    exact toInt32_of_lt _ hW
  have hsb : scanlineBytes (w.m_Dimensions0 % 2 ^ 32) (4 % 2 ^ 32 % 2 ^ 16) 8 =
      4 * (w.m_Dimensions0 % 2 ^ 32) := by
    unfold scanlineBytes
    norm_num
    omega
  have hwl := writeLoop_ok env hstore buffer (4 * (w.m_Dimensions0 % 2 ^ 32))
    (w.m_Dimensions1 % 2 ^ 32) 0
    (log w ([Event.ofstreamOpen fileName, Event.TIFFClientOpen fileName] ++ writeTags env w 8))
    (by rw [Nat.zero_add]; exact hlen)
  rw [Nat.zero_mul] at hwl
  unfold WriteSlice
  simp only [hct, hn, hopen, Bool.true_eq_false, if_false, hrl, hsb]
  rw [show ((0 : Nat) : Int) = 0 from rfl] at hwl
  rw [hwl]
  simp [log, rgba8Calls, scanlineWrites]

/-- The fields of the stream stored from the calls of `WriteSlice` for four
components. -/
theorem storedStream_rgba8 (env : WriteEnv) (w : TIFFImageIO) (fileName : String)
    (buffer : List Nat) (hn : w.m_NumberOfComponents = 4)
    (hcp : w.m_Compression = CompressionPolicy.NoCompression) :
    (∀ tag, storedField (rgba8Calls env w fileName buffer) tag =
      storedField (writeTags env w 8) tag) ∧
    (∀ row, storedScanline (rgba8Calls env w fileName buffer) row =
      if row < w.m_Dimensions1 % 2 ^ 32 then
        some ((buffer.drop (row * (4 * (w.m_Dimensions0 % 2 ^ 32)))).take
          (4 * (w.m_Dimensions0 % 2 ^ 32)))
      else none) := by
  constructor
  · intro tag
    unfold rgba8Calls scanlineWrites
    have e1 : storedField [Event.TIFFClose, Event.ofstreamClose] tag = none := rfl
    have e2 : storedField [Event.ofstreamOpen fileName, Event.TIFFClientOpen fileName] tag =
        none := rfl
    rw [storedField_append, storedField_append, storedField_append,
      storedField_scanlines _ (fun r => ⟨_, rfl⟩), e1, e2]
    cases storedField (writeTags env w 8) tag <;> rfl
  · intro row
    unfold rgba8Calls scanlineWrites
    rw [storedScanline_append, storedScanline_append, storedScanline_range,
      writeTags_rgba8_none env w hn hcp]
    split_ifs with h
    · rfl
    · rfl

theorem written_session_rgba (env : WriteEnv) (w : TIFFImageIO) (fileName : String)
    (buffer : List Nat) (hn : w.m_NumberOfComponents = 4)
    (hcp : w.m_Compression = CompressionPolicy.NoCompression) :
    (sessionOn (storedStream (rgba8Calls env w fileName buffer))).m_InternalImage =
      { Image := some (storedStream (rgba8Calls env w fileName buffer))
        Width := w.m_Dimensions0 % 2 ^ 32, Height := w.m_Dimensions1 % 2 ^ 32
        SamplesPerPixel := 4, Compression := COMPRESSION_NONE, BitsPerSample := 8
        Photometrics := PHOTOMETRIC_RGB, PlanarConfig := PLANARCONFIG_CONTIG, TileDepth := 0 } ∧
    (sessionOn (storedStream (rgba8Calls env w fileName buffer))).ImageFormat = Format.NOFORMAT ∧
    (storedStream (rgba8Calls env w fileName buffer)).scanlineSize =
      4 * (w.m_Dimensions0 % 2 ^ 32) := by
  have hf : ∀ tag, (storedStream (rgba8Calls env w fileName buffer)).field tag =
      storedField (writeTags env w 8) tag :=
    (storedStream_rgba8 env w fileName buffer hn hcp).1
  rw [writeTags_rgba8_none env w hn hcp] at hf
  have hsz : (storedStream (rgba8Calls env w fileName buffer)).scanlineSize =
      4 * (w.m_Dimensions0 % 2 ^ 32) := by
    show scanlineBytes ((storedField _ TIFFTAG_IMAGEWIDTH).getD 0)
      ((storedField _ TIFFTAG_SAMPLESPERPIXEL).getD 0 % 2 ^ 16)
      ((storedField _ TIFFTAG_BITSPERSAMPLE).getD 0) = _
    have h1 := hf TIFFTAG_IMAGEWIDTH
    have h2 := hf TIFFTAG_SAMPLESPERPIXEL
    have h3 := hf TIFFTAG_BITSPERSAMPLE
    change storedField _ _ = _ at h1 h2 h3
    rw [h1, h2, h3]
    show scanlineBytes (w.m_Dimensions0 % 2 ^ 32) (4 % 2 ^ 16) 8 = _
    unfold scanlineBytes
    norm_num
    omega
  obtain ⟨hm, hfmt⟩ := sessionOn_internal (storedStream (rgba8Calls env w fileName buffer))
    (w.m_Dimensions0 % 2 ^ 32) (w.m_Dimensions1 % 2 ^ 32) (by rw [hf]; rfl) (by rw [hf]; rfl)
  refine ⟨?_, hfmt, hsz⟩
  rw [hm]
  simp only [TIFFReaderInternal.getField, hf, Nat.mod_mod]
  rfl

theorem flatten_complementAlpha : ∀ (rows : List (List Nat)),
    (∀ l ∈ rows, ∃ n, l.length = 4 * n) →
    (rows.map complementAlpha).flatten = complementAlpha rows.flatten := by
  intro rows
  induction rows with
  | nil => intro _; rfl
  | cons l rows ih =>
    intro h
    obtain ⟨n, hn⟩ := h l (List.mem_cons_self _ _)
    rw [List.map_cons, List.flatten_cons, List.flatten_cons, complementAlpha_append n _ _ hn,
      ih (fun l' hl' => h l' (List.mem_cons_of_mem _ hl'))]

/-- The fast path on an 8-bit RGB stream of four samples per pixel. -/
theorem Read_rgb4 (io : TIFFImageIO) (t : TIFF) (line : Nat → List Nat) (out : List Nat)
    (himg : io.m_InternalImage.Image = some t)
    (hcan : io.m_InternalImage.CanRead = true)
    (hfmt : io.ImageFormat = Format.NOFORMAT)
    (hphot : io.m_InternalImage.Photometrics = PHOTOMETRIC_RGB)
    (hspp : io.m_InternalImage.SamplesPerPixel = 4)
    (hW : 4 * io.m_InternalImage.Width < 2 ^ 31) (hH : io.m_InternalImage.Height < 2 ^ 31)
    (hsize : t.scanlineSize = 4 * io.m_InternalImage.Width)
    (hlines : ∀ row, row < io.m_InternalImage.Height →
      t.readScanline row = some (line row) ∧
      (line row).length = 4 * io.m_InternalImage.Width ∧ ∀ v ∈ line row, v < 256)
    (hout : io.m_InternalImage.Height * (4 * io.m_InternalImage.Width) ≤ out.length) :
    ∃ io1, Read io out =
      .ok (io1, overwrite out 0
        ((List.range' 0 io.m_InternalImage.Height).map fun r =>
          complementAlpha (line r)).flatten) := by
  have hplanar : io.m_InternalImage.PlanarConfig = PLANARCONFIG_CONTIG :=
    ((CanRead_true_iff _).1 hcan).2.2.2.2.2.2.1
  have hgf : GetFormat io = .ok ({ io with ImageFormat := Format.RGB_ }, Format.RGB_) := by
    simp [GetFormat, hfmt, hphot]
  have hrows := rows_of_height io.m_InternalImage.Height hH
  have hisz : t.scanlineSize % 2 ^ 32 = 4 * io.m_InternalImage.Width := by
    rw [hsize]; exact Nat.mod_eq_of_lt (by omega)
  have hspec := ReadGenericImage_spec { io with ImageFormat := Format.RGB_ } t
    (4 * io.m_InternalImage.Width) complementAlpha line
    (fun buf => buf.length = 4 * io.m_InternalImage.Width ∧ ∀ v ∈ buf, v < 256) out
    (toUInt32 (toInt32 io.m_InternalImage.Width)) (toUInt32 (toInt32 io.m_InternalImage.Height))
    himg hplanar
    (by
      intro io2 buf out2 image hF hM hgood hroom
      refine ⟨by rw [length_complementAlpha _ _ (le_refl _)]; exact hgood.1, ?_⟩
      rw [hisz]
      have := pixelLoop_rgb4 io2 (4 * io.m_InternalImage.Width) buf hF
        (by rw [hM]; exact hspp) hgood.1 hgood.2 hW io.m_InternalImage.Width 0
        (2 ^ 32 + 1) out2 image (by omega) (by omega) hroom
      rw [this]
      simp)
    (by rw [hrows]; exact hlines)
    (by rw [hrows]; exact hout)
  rw [hrows] at hspec
  exact ⟨_, (Read_fast io _ out _ hcan hgf (Or.inr (Or.inl rfl))).trans hspec⟩

/-! ## Partial reads: the frame of the pixel decoder and of the row loop -/

theorem fetchedRows_append (a b : List Event) :
    fetchedRows (a ++ b) = fetchedRows a ++ fetchedRows b := by
  simp [fetchedRows, List.filterMap_append]

theorem fetchedRows_log (io : TIFFImageIO) (es : List Event) :
    fetchedRows (log io es).trace = fetchedRows io.trace ++ fetchedRows es := by
  simp [log, fetchedRows_append]

/-- A palette lookup fetches no scanline. -/
theorem GetColor_fetches (io io1 : TIFFImageIO) (index : Int) (c : Nat × Nat × Nat)
    (h : GetColor io index = .ok (io1, c)) : fetchedRows io1.trace = fetchedRows io.trace := by
  unfold GetColor at h
  dsimp only at h
  repeat' split at h
  all_goals first
    | (cases h; rfl)
    | (cases h; simp [log, fetchedRows])
    | cases h

theorem UnchangedOutside.refl (out : List Nat) (a b : Nat) : UnchangedOutside out out a b :=
  ⟨rfl, fun _ _ => rfl⟩

theorem UnchangedOutside.trans {o2 o1 o : List Nat} {a b : Nat}
    (h2 : UnchangedOutside o2 o1 a b) (h1 : UnchangedOutside o1 o a b) :
    UnchangedOutside o2 o a b :=
  ⟨h2.1.trans h1.1, fun j hj => (h2.2 j hj).trans (h1.2 j hj)⟩

theorem UnchangedOutside.widen {o1 o : List Nat} {a' b' : Nat} (a b : Nat)
    (h : UnchangedOutside o1 o a' b') (ha : a ≤ a') (hb : b' ≤ b) : UnchangedOutside o1 o a b :=
  ⟨h.1, fun j hj => h.2 j (by omega)⟩

theorem unchangedOutside_overwrite (out : List Nat) (p : Nat) (bs : List Nat) (n : Nat)
    (hn : bs.length ≤ n) (hroom : p + bs.length ≤ out.length) :
    UnchangedOutside (overwrite out p bs) out p (p + n) := by
  refine ⟨length_overwrite out p bs hroom, ?_⟩
  intro j hj
  unfold overwrite
  have h1 : (List.take p out).length = p := by simp; omega
  rcases hj with hj | hj
  · rw [List.append_assoc, List.getElem?_append_left (by omega), List.getElem?_take_of_lt hj]
  · rw [List.getElem?_append_right (by simp; omega), List.getElem?_drop]
    congr 1
    simp
    omega

theorem store_ok (out : List Nat) (p v : Nat) (h : p < out.length) :
    store out p v = .ok (overwrite out p [v % 256]) := by
  simp [store, h, set_eq_overwrite]

theorem store3_ok (out : List Nat) (p a b c : Nat) (h : p + 3 ≤ out.length) :
    ∃ o1 o2, store out p a = .ok o1 ∧ store o1 (p + 1) b = .ok o2 ∧
      store o2 (p + 2) c = .ok (overwrite out p [a % 256, b % 256, c % 256]) := by
  have l1 : (overwrite out p [a % 256]).length = out.length :=
    length_overwrite _ _ _ (by simp; omega)
  have l2 : (overwrite (overwrite out p [a % 256]) (p + 1) [b % 256]).length = out.length := by
    rw [length_overwrite _ _ _ (by simp; omega), l1]
  have o1 := overwrite_overwrite out p [a % 256] [b % 256] (by simp; omega)
  have o2 := overwrite_overwrite out p [a % 256, b % 256] [c % 256] (by simp; omega)
  simp only [List.length_singleton, List.length_cons, List.length_nil, List.singleton_append,
    List.cons_append, List.nil_append] at o1 o2
  refine ⟨_, _, store_ok out p a (by omega), store_ok _ _ b (by rw [l1]; omega), ?_⟩
  rw [store_ok _ _ c (by rw [l2]; omega), o1]
  exact congrArg Except.ok o2

/-- The RGB case of the pixel decoder when the samples per pixel are not 4. -/
theorem EvaluateImageAt_rgb_wide (io : TIFFImageIO) (out src : List Nat)
    (image source r g b : Nat)
    (hf : io.ImageFormat = Format.RGB_) (hspp : io.m_InternalImage.SamplesPerPixel ≠ 4)
    (hr : src[source]? = some r) (hg : src[source + 1]? = some g)
    (hb : src[source + 2]? = some b)
    (hroom : image + 3 ≤ out.length) :
    EvaluateImageAt io out image src source =
      .ok (io, overwrite out image [r % 256, g % 256, b % 256],
        io.m_InternalImage.SamplesPerPixel) := by
  have hfm : GetFormat io = .ok (io, Format.RGB_) := by
    rw [GetFormat_cached io (by rw [hf]; decide), hf]
  obtain ⟨o1, o2, s1, s2, s3⟩ := store3_ok out image r g b hroom
  simp only [EvaluateImageAt, hfm, load, hr, hg, hb, s1, s2, s3, if_neg hspp]

/-- The PaletteGrayscale case of the pixel decoder. -/
theorem EvaluateImageAt_palette_gray (io : TIFFImageIO) (t : TIFF) (red green blue : List Nat)
    (out src : List Nat) (image source v : Nat)
    (hs : PaletteSession io t red green blue)
    (hf : io.ImageFormat = Format.PALETTE_GRAYSCALE)
    (hv : src[source]? = some v) (hin : v < 2 ^ io.m_InternalImage.BitsPerSample)
    (hroom : image < out.length) :
    ∃ io1, EvaluateImageAt io out image src source =
        .ok (io1, overwrite out image [red.getD v 0 % 256], 1) ∧
      PaletteSession io1 t red green blue ∧ io1.ImageFormat = io.ImageFormat ∧
      io1.m_InternalImage = io.m_InternalImage ∧
      fetchedRows io1.trace = fetchedRows io.trace := by
  have hfm : GetFormat io = .ok (io, Format.PALETTE_GRAYSCALE) := by
    rw [GetFormat_cached io (by rw [hf]; decide), hf]
  obtain ⟨io1, hgc, hs1, hf1, hm1⟩ := GetColor_inRange io t red green blue v hs hin
  refine ⟨io1, ?_, hs1, hf1, hm1, GetColor_fetches _ _ _ _ hgc⟩
  simp only [EvaluateImageAt, hfm, load, hv, hgc, store_ok out image _ hroom]

/-- The PaletteRGB case of the pixel decoder. -/
theorem EvaluateImageAt_palette_rgb (io : TIFFImageIO) (t : TIFF) (red green blue : List Nat)
    (out src : List Nat) (image source v : Nat)
    (hs : PaletteSession io t red green blue)
    (hf : io.ImageFormat = Format.PALETTE_RGB)
    (hv : src[source]? = some v) (hin : v < 2 ^ io.m_InternalImage.BitsPerSample)
    (hroom : image + 3 ≤ out.length) :
    ∃ io1, EvaluateImageAt io out image src source =
        .ok (io1, overwrite out image [red.getD v 0 / 2 ^ 8 % 256, green.getD v 0 / 2 ^ 8 % 256,
          blue.getD v 0 / 2 ^ 8 % 256], 3) ∧
      PaletteSession io1 t red green blue ∧ io1.ImageFormat = io.ImageFormat ∧
      io1.m_InternalImage = io.m_InternalImage ∧
      fetchedRows io1.trace = fetchedRows io.trace := by
  have hfm : GetFormat io = .ok (io, Format.PALETTE_RGB) := by
    rw [GetFormat_cached io (by rw [hf]; decide), hf]
  obtain ⟨io1, hgc, hs1, hf1, hm1⟩ := GetColor_inRange io t red green blue v hs hin
  obtain ⟨o1, o2, s1, s2, s3⟩ := store3_ok out image (red.getD v 0 / 2 ^ 8)
    (green.getD v 0 / 2 ^ 8) (blue.getD v 0 / 2 ^ 8) hroom
  refine ⟨io1, ?_, hs1, hf1, hm1, GetColor_fetches _ _ _ _ hgc⟩
  simp only [EvaluateImageAt, hfm, load, hv, hgc, s1, s2, s3]

/-- One pixel of a decodable session: the decoder returns, emits `C` bytes at
`image` and touches nothing else. -/
theorem EvaluateImageAt_session (io : TIFFImageIO) (t : TIFF) (C : Nat) (out buf : List Nat)
    (image cc : Nat) (hs : DecodableSession io t C)
    (hsrc : cc + io.m_InternalImage.SamplesPerPixel ≤ buf.length)
    (hbytes : ∀ v ∈ buf, v < 256) (hroom : image + C ≤ out.length) :
    ∃ io1 out1, EvaluateImageAt io out image buf cc = .ok (io1, out1, C) ∧
      DecodableSession io1 t C ∧ io1.m_InternalImage = io.m_InternalImage ∧
      fetchedRows io1.trace = fetchedRows io.trace ∧
      UnchangedOutside out1 out image (image + C) := by
  have hspp := hs.samples
  have h0 : cc < buf.length := by omega
  have hv0 : buf[cc]? = some buf[cc] := List.getElem?_eq_getElem h0
  have hb0 : buf[cc] < 256 := hbytes _ (List.getElem_mem h0)
  rcases hs.format with ⟨hf, hC⟩ | ⟨hf, h3, hC⟩ | ⟨red, green, blue, hp, hfc⟩
  · subst hC
    refine ⟨io, _, EvaluateImageAt_gray io out buf image cc _ hf hv0 hb0 (by omega), hs, rfl,
      rfl, unchangedOutside_overwrite out image _ 1 (by simp) (by simp; omega)⟩
  · have h1 : cc + 1 < buf.length := by omega
    have h2 : cc + 2 < buf.length := by omega
    by_cases h4 : io.m_InternalImage.SamplesPerPixel = 4
    · have h3' : cc + 3 < buf.length := by omega
      have hC4 : C = 4 := by rw [hC, h4]
      subst hC4
      refine ⟨io, _, EvaluateImageAt_rgb4 io out buf image cc buf[cc] buf[cc + 1] buf[cc + 2]
        buf[cc + 3] hf h4 hv0 (List.getElem?_eq_getElem h1) (List.getElem?_eq_getElem h2)
        (List.getElem?_eq_getElem h3')
        ⟨hb0, hbytes _ (List.getElem_mem h1), hbytes _ (List.getElem_mem h2),
          hbytes _ (List.getElem_mem h3')⟩ hroom, hs, rfl, rfl,
        unchangedOutside_overwrite out image _ 4 (by simp) (by simp; omega)⟩
    · have he := EvaluateImageAt_rgb_wide io out buf image cc buf[cc] buf[cc + 1] buf[cc + 2]
        hf h4 hv0 (List.getElem?_eq_getElem h1) (List.getElem?_eq_getElem h2) (by omega)
      rw [← hC] at he
      exact ⟨io, _, he, hs, rfl, rfl,
        unchangedOutside_overwrite out image _ C (by simp; omega) (by simp; omega)⟩
  · have hin : buf[cc] < 2 ^ io.m_InternalImage.BitsPerSample := by
      rw [hs.bits]; exact hb0
    rcases hfc with ⟨hf, hC⟩ | ⟨hf, hC⟩
    · subst hC
      obtain ⟨io1, he, hp1, hf1, hm1, ht1⟩ := EvaluateImageAt_palette_gray io t red green blue
        out buf image cc _ hp hf hv0 hin (by omega)
      refine ⟨io1, _, he, ⟨by rw [hm1]; exact hs.image, by rw [hm1]; exact hs.bits,
        by rw [hm1]; exact hs.samples,
        Or.inr (Or.inr ⟨red, green, blue, hp1, Or.inl ⟨by rw [hf1]; exact hf, rfl⟩⟩)⟩, hm1, ht1,
        unchangedOutside_overwrite out image _ 1 (by simp) (by simp; omega)⟩
    · subst hC
      obtain ⟨io1, he, hp1, hf1, hm1, ht1⟩ := EvaluateImageAt_palette_rgb io t red green blue
        out buf image cc _ hp hf hv0 hin hroom
      refine ⟨io1, _, he, ⟨by rw [hm1]; exact hs.image, by rw [hm1]; exact hs.bits,
        by rw [hm1]; exact hs.samples,
        Or.inr (Or.inr ⟨red, green, blue, hp1, Or.inr ⟨by rw [hf1]; exact hf, rfl⟩⟩)⟩, hm1, ht1,
        unchangedOutside_overwrite out image _ 3 (by simp) (by simp; omega)⟩

/-- One scanline of `k` pixels in a decodable session: the pixel loop returns,
advances the output by `k * C` bytes and touches nothing outside them. -/
theorem pixelLoop_session (t : TIFF) (C isize spp : Nat) (buf : List Nat)
    (hlen : buf.length = isize) (hbytes : ∀ v ∈ buf, v < 256) (hsz : isize < 2 ^ 32) :
    ∀ (k cc fuel : Nat) (io : TIFFImageIO) (out : List Nat) (image : Nat),
      DecodableSession io t C → io.m_InternalImage.SamplesPerPixel = spp →
      cc + k * spp = isize → k < fuel → image + k * C ≤ out.length →
      ∃ io1 out1, pixelLoop fuel isize buf cc io out image = .ok (io1, out1, image + k * C) ∧
        DecodableSession io1 t C ∧ io1.m_InternalImage = io.m_InternalImage ∧
        fetchedRows io1.trace = fetchedRows io.trace ∧
        UnchangedOutside out1 out image (image + k * C) := by
  intro k
  induction k with
  | zero =>
    intro cc fuel io out image hs _ hcc hfuel _
    obtain ⟨f, rfl⟩ : ∃ f, fuel = f + 1 := ⟨fuel - 1, by omega⟩
    have : ¬ cc < isize := by omega
    refine ⟨io, out, ?_, hs, rfl, rfl, UnchangedOutside.refl _ _ _⟩
    simp [pixelLoop, this]
  | succ k ih =>
    intro cc fuel io out image hs hspp hcc hfuel hroom
    obtain ⟨f, rfl⟩ : ∃ f, fuel = f + 1 := ⟨fuel - 1, by omega⟩
    have hpos : 0 < spp := by rw [← hspp]; exact hs.samples
    have hexp : (k + 1) * spp = k * spp + spp := by ring
    have hexpC : (k + 1) * C = k * C + C := by ring
    have hlt : cc < isize := by omega
    obtain ⟨io1, out1, he, hs1, hm1, ht1, hu1⟩ := EvaluateImageAt_session io t C out buf image cc
      hs (by rw [hspp, hlen]; omega) hbytes (by omega)
    have hspp1 : io1.m_InternalImage.SamplesPerPixel = spp := by rw [hm1]; exact hspp
    have hmod : (cc + spp) % 2 ^ 32 = cc + spp := Nat.mod_eq_of_lt (by omega)
    obtain ⟨io2, out2, hp2, hs2, hm2, ht2, hu2⟩ := ih (cc + spp) f io1 out1 (image + C) hs1 hspp1
      (by omega) (by omega) (by rw [hu1.1]; omega)
    refine ⟨io2, out2, ?_, hs2, hm2.trans hm1, ht2.trans ht1, ?_⟩
    · rw [pixelLoop, if_pos hlt, he]
      simp only [hspp1, hmod]
      rw [hp2]
      simp only [hexpC, Nat.add_assoc, Nat.add_comm C (k * C)]
    · exact (hu2.widen image (image + (k + 1) * C) (by omega) (by omega)).trans
        (hu1.widen image (image + (k + 1) * C) (le_refl _) (by omega))

theorem DecodableSession.log {io : TIFFImageIO} {t : TIFF} {C : Nat}
    (hs : DecodableSession io t C) (es : List Event) :
    DecodableSession ( TIFFImageIO.log io es) t C := by
  refine ⟨hs.image, hs.bits, hs.samples, ?_⟩
  rcases hs.format with h | h | ⟨red, green, blue, hp, h⟩
  · exact Or.inl h
  · exact Or.inr (Or.inl h)
  · exact Or.inr (Or.inr ⟨red, green, blue, hp.of_frame rfl hp.cache, h⟩)

/-- The row loop when the fetch first fails at row `row + k`: the rows before
it are decoded as by a loop over `k` rows, the failing fetch is the last call,
and the output is untouched from the start of the failing row on. -/
theorem rowLoop_break (t : TIFF) (C isize spp W : Nat) (hsz : isize < 2 ^ 32)
    (hW : W * spp = isize) :
    ∀ (k n row : Nat) (io : TIFFImageIO) (out : List Nat) (image : Nat),
      DecodableSession io t C → io.m_InternalImage.SamplesPerPixel = spp → k < n →
      (∀ j, j < k → ∃ buf, t.readScanline (row + j) = some buf ∧ buf.length = isize ∧
        ∀ v ∈ buf, v < 256) →
      t.readScanline (row + k) = none →
      image + k * (W * C) ≤ out.length →
      ∃ io0 out1, rowLoop k row t isize io out image = .ok (io0, out1) ∧
        rowLoop n row t isize io out image =
          .ok ( TIFFImageIO.log io0 [Event.TIFFReadScanline (row + k)], out1) ∧
        fetchedRows io0.trace = fetchedRows io.trace ++ List.range' row k ∧
        UnchangedOutside out1 out image (image + k * (W * C)) := by
  intro k
  induction k with
  | zero =>
    intro n row io out image hs _ hn _ hfail _
    obtain ⟨m, rfl⟩ : ∃ m, n = m + 1 := ⟨n - 1, by omega⟩
    rw [Nat.add_zero] at hfail
    refine ⟨io, out, rfl, ?_, by simp, UnchangedOutside.refl _ _ _⟩
    rw [rowLoop, hfail]
    rfl
  | succ k ih =>
    intro n row io out image hs hspp hn hrows hfail hroom
    obtain ⟨m, rfl⟩ : ∃ m, n = m + 1 := ⟨n - 1, by omega⟩
    obtain ⟨buf, hrd, hlen, hbytes⟩ := hrows 0 (by omega)
    rw [Nat.add_zero] at hrd
    have hexp : (k + 1) * (W * C) = k * (W * C) + W * C := by ring
    have hpos : 0 < spp := by rw [← hspp]; exact hs.samples
    have hWle : W ≤ isize := by rw [← hW]; exact Nat.le_mul_of_pos_right _ hpos
    obtain ⟨io1, out1, hp, hs1, hm1, ht1, hu1⟩ := pixelLoop_session t C isize spp buf hlen hbytes
      hsz W 0 (2 ^ 32 + 1) ( TIFFImageIO.log io [Event.TIFFReadScanline row]) out image
      (hs.log _) hspp (by omega) (by omega) (by omega)
    obtain ⟨io0, out2, hk, hnn, ht2, hu2⟩ := ih m (row + 1) io1 out1 (image + W * C) hs1
      (by rw [hm1]; exact hspp) (by omega)
      (by
        intro j hj
        have := hrows (j + 1) (by omega)
        rwa [show row + (j + 1) = row + 1 + j by omega] at this)
      (by rwa [show row + 1 + k = row + (k + 1) by omega])
      (by rw [hu1.1]; omega)
    refine ⟨io0, out2, ?_, ?_, ?_, ?_⟩
    · rw [rowLoop, hrd]
      simp only [hp]
      exact hk
    · rw [rowLoop, hrd]
      simp only [hp]
      rw [hnn, show row + 1 + k = row + (k + 1) by omega]
    · rw [ht2, ht1, fetchedRows_log, List.range'_succ]
      simp [fetchedRows]
    · exact (hu2.widen image (image + (k + 1) * (W * C)) (by omega) (by omega)).trans
        (hu1.widen image (image + (k + 1) * (W * C)) (le_refl _) (by omega))

/-- The number of components `ReadImageInformation` declares for a decodable
session on a fast-path-eligible stream. -/
theorem ReadImageInformation_session (io : TIFFImageIO) (t : TIFF) (C : Nat)
    (hs : DecodableSession io t C) (hcan : io.m_InternalImage.CanRead = true) :
    ∃ io1, ReadImageInformation io = .ok io1 ∧ io1.m_NumberOfComponents = C := by
  rcases hs.format with ⟨hf, hC⟩ | ⟨hf, -, hC⟩ | ⟨red, green, blue, -, ⟨hf, hC⟩ | ⟨hf, hC⟩⟩
  all_goals
    have hg : GetFormat io = .ok (io, io.ImageFormat) := GetFormat_cached io (by rw [hf]; decide)
    rw [hf] at hg
    refine ⟨_, by simp only [ReadImageInformation, hg]; rfl, ?_⟩
    simp [hcan, hC]

/-- The partial read of a decodable session (a classified 8-bit stream whose
scanlines hold `Width * SamplesPerPixel` bytes) in which the scanline fetch
first fails at row `k`: `ReadGenericImage` returns, it fetches the rows
0, 1, ..., k and none after, its output is that of `ReadGenericImage` over the
rows 0 .. k-1 alone, and every output byte from `k * Width * C` on is left
unchanged. -/
theorem ReadGenericImage_break (io : TIFFImageIO) (t : TIFF) (C : Nat) (out : List Nat)
    (width height k : Nat)
    (hs : DecodableSession io t C)
    (hcan : io.m_InternalImage.CanRead = true)
    (hsize : t.scanlineSize =
      io.m_InternalImage.Width * io.m_InternalImage.SamplesPerPixel)
    (hsz : t.scanlineSize < 2 ^ 32)
    (hk : k < (toInt32 height).toNat)
    (hrows : ∀ r, r < k → ∃ buf, t.readScanline r = some buf ∧
      buf.length = t.scanlineSize ∧ ∀ v ∈ buf, v < 256)
    (hfail : t.readScanline k = none)
    (hroom : k * (io.m_InternalImage.Width * C) ≤ out.length) :
    ∃ io0 io1 out1,
      ReadGenericImage io out width height = .ok (io1, out1) ∧
      fetchedRows io1.trace = fetchedRows io.trace ++ List.range (k + 1) ∧
      ReadGenericImage io out width k = .ok (io0, out1) ∧
      fetchedRows io0.trace = fetchedRows io.trace ++ List.range k ∧
      out1.length = out.length ∧
      (∀ j, k * (io.m_InternalImage.Width * C) ≤ j → out1[j]? = out[j]?) ∧
      ∃ io2, ReadImageInformation io = .ok io2 ∧ io2.m_NumberOfComponents = C := by
  have hplanar : io.m_InternalImage.PlanarConfig = PLANARCONFIG_CONTIG :=
    ((CanRead_true_iff _).1 hcan).2.2.2.2.2.2.1
  have hk31 : k < 2 ^ 31 := by
    have : toInt32 height < 2 ^ 31 := by unfold toInt32; split_ifs <;> omega
    omega
  have hkk : (toInt32 k).toNat = k := by rw [toInt32_of_lt k hk31]; rfl
  have hmod : t.scanlineSize % 2 ^ 32 = t.scanlineSize := Nat.mod_eq_of_lt hsz
  obtain ⟨io0, out1, h1, h2, h3, h4⟩ := rowLoop_break t C t.scanlineSize
    io.m_InternalImage.SamplesPerPixel io.m_InternalImage.Width hsz hsize.symm k
    (toInt32 height).toNat 0 ( TIFFImageIO.log io [Event.TIFFScanlineSize]) out 0
    (hs.log _) rfl hk
    (by intro j hj; rw [Nat.zero_add]; exact hrows j hj)
    (by rw [Nat.zero_add]; exact hfail)
    (by rw [Nat.zero_add]; exact hroom)
  rw [Nat.zero_add] at h2 h4
  rw [fetchedRows_log] at h3
  have h5 : fetchedRows io0.trace = fetchedRows io.trace ++ List.range k := by
    rw [h3, List.range_eq_range']
    simp [fetchedRows]
  refine ⟨io0, TIFFImageIO.log io0 [Event.TIFFReadScanline k], out1, ?_, ?_, ?_, h5, h4.1, fun j hj => h4.2 j (Or.inr hj),
    ReadImageInformation_session io t C hs hcan⟩
  · unfold ReadGenericImage
    rw [hs.image]
    simp only [hplanar, if_true, hmod]
    exact h2
  · rw [fetchedRows_log, h5, List.range_succ, List.append_assoc]
    rfl
  · unfold ReadGenericImage
    rw [hs.image]
    simp only [hplanar, if_true, hmod, hkk]
    exact h1

/-- An instance of the partial read: the grayscale stream `grayFailingAtRowTwo` of three rows
of two pixels, whose row 2 cannot be fetched, read into the buffer
`[0, 0, 0, 0, 9, 9]`. -/
theorem ReadGenericImage_break_gray :
    ∃ io0 io1 out1,
      ReadGenericImage (classified (sessionOn grayFailingAtRowTwo)) [0, 0, 0, 0, 9, 9] 2 3 =
        .ok (io1, out1) ∧
      fetchedRows io1.trace =
        fetchedRows (classified (sessionOn grayFailingAtRowTwo)).trace ++ List.range (2 + 1) ∧
      ReadGenericImage (classified (sessionOn grayFailingAtRowTwo)) [0, 0, 0, 0, 9, 9] 2 2 =
        .ok (io0, out1) ∧
      fetchedRows io0.trace =
        fetchedRows (classified (sessionOn grayFailingAtRowTwo)).trace ++ List.range 2 ∧
      out1.length = [0, 0, 0, 0, 9, 9].length ∧
      (∀ j, 2 * ((classified (sessionOn grayFailingAtRowTwo)).m_InternalImage.Width * 1) ≤ j →
        out1[j]? = [0, 0, 0, 0, 9, 9][j]?) ∧
      ∃ io2, ReadImageInformation (classified (sessionOn grayFailingAtRowTwo)) = .ok io2 ∧
        io2.m_NumberOfComponents = 1 :=
  ReadGenericImage_break (classified (sessionOn grayFailingAtRowTwo)) grayFailingAtRowTwo 1
    [0, 0, 0, 0, 9, 9] 2 3 2
    ⟨rfl, rfl, by decide, Or.inl ⟨rfl, rfl⟩⟩ rfl rfl (by decide) (by decide)
    (by
      intro r hr
      refine ⟨[1 + 2 * r, 2 + 2 * r], ?_, rfl, ?_⟩
      · show (if r < 2 then some [1 + 2 * r, 2 + 2 * r] else none) = _
        rw [if_pos hr]
      · intro v hv
        simp only [List.mem_cons, List.mem_singleton, List.not_mem_nil, or_false] at hv
        omega)
    rfl (by decide)

/-- Writing four channels and reading them back: `WriteSlice` under
compression policy None, over a codec that stores what it is given, stores
every row of the buffer as given, and `Read` of the stored stream in a new
session takes the fast path and delivers every alpha byte `a` as `255 - a`. -/
theorem Read_after_WriteSlice_rgba (env : WriteEnv) (w : TIFFImageIO) (width height : Nat)
    (buffer out : List Nat)
    (hopen : env.clientOpen "image.tif" = true)
    (hstore : ∀ r d, env.writeScanline r d = true)
    (hw0 : 0 < width) (hh0 : 0 < height) (hW : 4 * width < 2 ^ 31) (hH : height < 2 ^ 31)
    (hd0 : w.m_Dimensions0 = width) (hd1 : w.m_Dimensions1 = height)
    (hn : w.m_NumberOfComponents = 4) (hct : w.m_ComponentType = IODataType.UCHAR)
    (hcp : w.m_Compression = CompressionPolicy.NoCompression)
    (hlen : buffer.length = width * height * 4) (hbytes : ∀ v ∈ buffer, v < 256)
    (hout : out.length = buffer.length) :
    ∃ w1, WriteSlice env w "image.tif" buffer = .ok w1 ∧
      (∀ row, row < height →
        storedScanline (w1.trace.drop w.trace.length) row =
          some ((buffer.drop (row * (4 * width))).take (4 * width))) ∧
      (sessionOn (storedStream (w1.trace.drop w.trace.length))).m_InternalImage.CanRead = true ∧
      ∃ r1, Read (sessionOn (storedStream (w1.trace.drop w.trace.length))) out =
        .ok (r1, complementAlpha buffer) := by
  have hwm : w.m_Dimensions0 % 2 ^ 32 = width := by rw [hd0]; exact Nat.mod_eq_of_lt (by omega)
  have hhm : w.m_Dimensions1 % 2 ^ 32 = height := by rw [hd1]; exact Nat.mod_eq_of_lt (by omega)
  have hlen2 : buffer.length = height * (4 * width) := by rw [hlen]; ring
  have hws := WriteSlice_rgba8 env w "image.tif" buffer hopen hstore hn hct
    (by rw [hwm]; exact hW) (by rw [hwm, hhm, hlen2])
  have htr : (log w (rgba8Calls env w "image.tif" buffer)).trace.drop w.trace.length =
      rgba8Calls env w "image.tif" buffer := by
    simp [log]
  obtain ⟨hm, hfmt, hsz⟩ := written_session_rgba env w "image.tif" buffer hn hcp
  have hsl := (storedStream_rgba8 env w "image.tif" buffer hn hcp).2
  rw [hwm, hhm] at hm hsl
  rw [hwm] at hsz
  have hcan : (sessionOn (storedStream (rgba8Calls env w "image.tif"
      buffer))).m_InternalImage.CanRead = true := by
    rw [CanRead_true_iff, hm]
    exact ⟨rfl, hw0, hh0, Nat.succ_pos 3, rfl, Or.inl rfl, rfl, rfl, rfl⟩
  have hslice : ∀ row, row < height →
      ((buffer.drop (row * (4 * width))).take (4 * width)).length = 4 * width := by
    intro row hrow2
    rw [List.length_take, List.length_drop, hlen2]
    have : (row + 1) * (4 * width) ≤ height * (4 * width) := Nat.mul_le_mul_right _ hrow2
    rw [Nat.succ_mul] at this
    omega
  refine ⟨_, hws, ?_, ?_, ?_⟩
  · intro row hrow
    rw [htr, hsl, if_pos hrow]
  · rw [htr]; exact hcan
  · rw [htr]
    obtain ⟨r1, hr⟩ := Read_rgb4 (sessionOn (storedStream (rgba8Calls env w "image.tif" buffer)))
      (storedStream (rgba8Calls env w "image.tif" buffer))
      (fun k => (buffer.drop (k * (4 * width))).take (4 * width)) out
      (by rw [hm]) hcan hfmt (by rw [hm]) (by rw [hm]) (by rw [hm]; exact hW)
      (by rw [hm]; exact hH) (by rw [hm]; exact hsz)
      (by
        rw [hm]
        intro row hrow
        have hrow2 : row < height := hrow
        refine ⟨?_, hslice row hrow2, ?_⟩
        · show storedScanline _ row = _
          rw [hsl, if_pos hrow2]
        · intro v hv
          exact hbytes v (List.mem_of_mem_drop (List.mem_of_mem_take hv)))
      (by rw [hm, hout, hlen2])
    refine ⟨r1, ?_⟩
    rw [hr, hm]
    show Except.ok (r1, overwrite out 0 ((List.range' 0 height).map
      fun k => complementAlpha ((buffer.drop (k * (4 * width))).take (4 * width))).flatten) = _
    have hmap : ((List.range' 0 height).map
        fun k => complementAlpha ((buffer.drop (k * (4 * width))).take (4 * width))) =
        ((List.range' 0 height).map
          fun k => (buffer.drop (k * (4 * width))).take (4 * width)).map complementAlpha := by
      rw [List.map_map]; rfl
    rw [hmap, flatten_complementAlpha _ (by
      intro l hl
      simp only [List.mem_map, List.mem_range'_1] at hl
      obtain ⟨k, hk, rfl⟩ := hl
      exact ⟨width, hslice k (by omega)⟩)]
    rw [flatten_slices, Nat.zero_mul, List.drop_zero, List.take_of_length_le (by omega),
      overwrite_zero_full _ _ (by rw [length_complementAlpha _ _ (le_refl _)]; exact hout.symm)]

/-- An instance of the four-channel round trip: a buffer of two rows of one
pixel. -/
theorem Read_after_WriteSlice_rgba_example :
    ∃ w1, WriteSlice storingEnv (rgbaWriter 1 2) "image.tif" [10, 20, 30, 200, 1, 2, 3, 4] =
        .ok w1 ∧
      (∀ row, row < 2 →
        storedScanline (w1.trace.drop (rgbaWriter 1 2).trace.length) row =
          some (([10, 20, 30, 200, 1, 2, 3, 4].drop (row * (4 * 1))).take (4 * 1))) ∧
      (sessionOn (storedStream
        (w1.trace.drop (rgbaWriter 1 2).trace.length))).m_InternalImage.CanRead = true ∧
      ∃ r1, Read (sessionOn (storedStream (w1.trace.drop (rgbaWriter 1 2).trace.length)))
          [0, 0, 0, 0, 0, 0, 0, 0] =
        .ok (r1, complementAlpha [10, 20, 30, 200, 1, 2, 3, 4]) :=
  Read_after_WriteSlice_rgba storingEnv (rgbaWriter 1 2) 1 2 [10, 20, 30, 200, 1, 2, 3, 4]
    [0, 0, 0, 0, 0, 0, 0, 0] rfl (fun _ _ => rfl) (by decide) (by decide)
    (by decide) (by decide) rfl rfl rfl rfl rfl rfl (by decide) rfl

/-! ## The claims on partial reads, the palette probe, alpha and bounds -/

/-- C21, the code at the failing input: the stream `rgbOneSampleTwoRows` (8
bits, uncompressed, contiguous, photometric RGB, one sample per pixel, two
pixels wide, two rows high) is fast-path eligible and classified RGB, its
scanline length is `Width * SamplesPerPixel = 2`, `ReadImageInformation`
declares one component, row 0 reads as `[7, 8]` and the fetch of row 1 fails.
The decoding of row 0 takes three samples per pixel: at the first pixel it
reads `source + 2`, outside the fetched scanline, and `ReadGenericImage` and
`Read` end in an access out of bounds instead of returning with row 0 decoded.
With a byte 9 lying behind the scanline, the three bytes that pixel writes
reach cell 2 of the canonical buffer, the first byte of row 1. -/
theorem C21_rgb_one_sample_partial_read :
    (sessionOn rgbOneSampleTwoRows).m_InternalImage.CanRead = true ∧
    (GetFormat (sessionOn rgbOneSampleTwoRows)).toOption.map Prod.snd = some Format.RGB_ ∧
    rgbOneSampleTwoRows.scanlineSize =
      (sessionOn rgbOneSampleTwoRows).m_InternalImage.Width *
        (sessionOn rgbOneSampleTwoRows).m_InternalImage.SamplesPerPixel ∧
    (ReadImageInformation (sessionOn rgbOneSampleTwoRows)).toOption.map
      (fun io => io.m_NumberOfComponents) = some 1 ∧
    rgbOneSampleTwoRows.readScanline 0 = some [7, 8] ∧
    rgbOneSampleTwoRows.readScanline 1 = none ∧
    ReadGenericImage (classified (sessionOn rgbOneSampleTwoRows)) [0, 0, 0, 0] 2 2 =
      .error Fault.outOfBounds ∧
    Read (sessionOn rgbOneSampleTwoRows) [0, 0, 0, 0] = .error Fault.outOfBounds ∧
    (EvaluateImageAt (classified (sessionOn rgbOneSampleTwoRows)) [0, 0, 0, 0] 0 [7, 8, 9]
      0).toOption.map Prod.snd = some ([7, 8, 9, 0], 1) :=
  ⟨by decide, by decide, rfl, by decide, rfl, rfl, rfl, rfl, by decide⟩

/-- C22: for a palette stream (photometric Palette, bit depth 1, 2, 4, 8 or
16, colormap of `2 ^ BitsPerSample` entries) not yet classified, `GetFormat`
returns PaletteGrayscale if and only if red = green = blue at every index
below `min 256 (2 ^ BitsPerSample)`, and PaletteRGB otherwise: the probes
beyond a table of fewer than 256 entries do not count. -/
theorem C22_palette_probe (io : TIFFImageIO) (t : TIFF) (red green blue : List Nat)
    (hs : PaletteSession io t red green blue) (hfresh : io.ImageFormat = Format.NOFORMAT) :
    ∃ io1 f, GetFormat io = .ok (io1, f) ∧
      (f = Format.PALETTE_GRAYSCALE ∨ f = Format.PALETTE_RGB) ∧
      (f = Format.PALETTE_GRAYSCALE ↔
        ∀ i ri gi bi, i < min 256 (2 ^ io.m_InternalImage.BitsPerSample) →
          red[i]? = some ri → green[i]? = some gi → blue[i]? = some bi → ri = gi ∧ ri = bi) := by
  obtain ⟨io1, f, h1, -, -, hres⟩ := GetFormat_palette io t red green blue hs hfresh
  refine ⟨io1, f, h1, ?_, ?_⟩
  · rcases hres with ⟨h, -⟩ | ⟨h, -⟩
    · exact Or.inl h
    · exact Or.inr h
  · rcases hres with ⟨h, hall⟩ | ⟨h, i, hi, hn⟩
    · refine ⟨fun _ => ?_, fun _ => h⟩
      intro i ri gi bi hi hr hg hb
      have := hall i (lt_of_lt_of_le hi (min_le_left _ _))
      simp only [List.getD_eq_getElem?_getD, hr, hg, hb, Option.getD_some] at this
      exact this
    · refine ⟨fun hf => ?_, fun hall => ?_⟩
      · rw [h] at hf
        exact absurd hf (by decide)
      · exfalso
        apply hn
        by_cases hlt : i < 2 ^ io.m_InternalImage.BitsPerSample
        · have hrl : i < red.length := by rw [hs.red_length]; exact hlt
          have hgl : i < green.length := by rw [hs.green_length]; exact hlt
          have hbl : i < blue.length := by rw [hs.blue_length]; exact hlt
          have hr : red[i]? = some red[i] := List.getElem?_eq_getElem hrl
          have hg : green[i]? = some green[i] := List.getElem?_eq_getElem hgl
          have hb : blue[i]? = some blue[i] := List.getElem?_eq_getElem hbl
          have := hall i _ _ _ (lt_min hi hlt) hr hg hb
          simp only [List.getD_eq_getElem?_getD, hr, hg, hb, Option.getD_some]
          exact this
        · have e1 : red.getD i 0 = 0 := by
            rw [List.getD_eq_default]; rw [hs.red_length]; omega
          have e2 : green.getD i 0 = 0 := by
            rw [List.getD_eq_default]; rw [hs.green_length]; omega
          have e3 : blue.getD i 0 = 0 := by
            rw [List.getD_eq_default]; rw [hs.blue_length]; omega
          rw [e1, e2, e3]
          exact ⟨rfl, rfl⟩

/-- Witness of C22: a 1-bit palette, whose table of two entries is shorter
than the 256 probes. -/
theorem C22_palette_probe_witness :
    ∃ io1 f, GetFormat (sessionOn (paletteStream 1 [0, 65535] [0, 257] [0, 0])) = .ok (io1, f) ∧
      (f = Format.PALETTE_GRAYSCALE ∨ f = Format.PALETTE_RGB) ∧
      (f = Format.PALETTE_GRAYSCALE ↔
        ∀ i ri gi bi,
          i < min 256 (2 ^ (sessionOn (paletteStream 1 [0, 65535] [0, 257]
            [0, 0])).m_InternalImage.BitsPerSample) →
          [0, 65535][i]? = some ri → [0, 257][i]? = some gi → [0, 0][i]? = some bi →
          ri = gi ∧ ri = bi) :=
  C22_palette_probe _ _ _ _ _ session_small rfl

/-- C23, the code at the failing input: the 4-channel buffer
`[10, 20, 30, 200]` of one pixel is written with compression policy None over
the storing codec, which keeps the scanline `[10, 20, 30, 200]` as given (the
alpha is not inverted on write); the stored stream is fast-path eligible, and
`Read` gives back `[10, 20, 30, 55]`, with the alpha complemented, not the
original buffer. -/
theorem C23_alpha_complemented_on_round_trip :
    (∃ w1 r1, WriteSlice storingEnv (rgbaWriter 1 1) "image.tif" [10, 20, 30, 200] = .ok w1 ∧
      storedScanline (w1.trace.drop (rgbaWriter 1 1).trace.length) 0 =
        some [10, 20, 30, 200] ∧
      (sessionOn (storedStream
        (w1.trace.drop (rgbaWriter 1 1).trace.length))).m_InternalImage.CanRead = true ∧
      Read (sessionOn (storedStream (w1.trace.drop (rgbaWriter 1 1).trace.length)))
        [0, 0, 0, 0] = .ok (r1, [10, 20, 30, 55])) ∧
    [10, 20, 30, 55] ≠ [10, 20, 30, 200] :=
  ⟨⟨_, _, rfl, rfl, rfl, rfl⟩, by decide⟩

/-- C24, the code at the failing input: the stream `rgbOneSample` (8 bits,
uncompressed, contiguous, photometric RGB, one sample per pixel, one pixel) is
fast-path eligible, its scanline length is `Width * SamplesPerPixel = 1`, it
is classified RGB and `ReadImageInformation` declares one component; the RGB
case of the pixel decoder reads `source + 1` and `source + 2`, outside the
fetched scanline `[7]`, and `Read` into the canonical buffer of one byte ends
in an access out of bounds. -/
theorem C24_rgb_one_sample_out_of_bounds :
    (sessionOn rgbOneSample).m_InternalImage.CanRead = true ∧
    rgbOneSample.scanlineSize =
      (sessionOn rgbOneSample).m_InternalImage.Width *
        (sessionOn rgbOneSample).m_InternalImage.SamplesPerPixel ∧
    (GetFormat (sessionOn rgbOneSample)).toOption.map Prod.snd = some Format.RGB_ ∧
    (ReadImageInformation (sessionOn rgbOneSample)).toOption.map
      (fun io => io.m_NumberOfComponents) = some 1 ∧
    rgbOneSample.readScanline 0 = some [7] ∧
    load [7] (0 + 1) = .error Fault.outOfBounds ∧
    EvaluateImageAt (classified (sessionOn rgbOneSample)) [0] 0 [7] 0 =
      .error Fault.outOfBounds ∧
    Read (sessionOn rgbOneSample) [0] = .error Fault.outOfBounds :=
  ⟨by decide, rfl, by decide, by decide, rfl, rfl, rfl, rfl⟩

end TIFFImageIO

end itk
